import Mathlib

/-!
# Verification development for `codegen_framework`

Shallow embedding of the handler generator (`src/main/handlers_gen/codegen.go`)
and of the handlers it produced (`src/main/api_handlers.go`).

Conventions of the embedding:

* Go strings are Lean `String`s.  The generator only cuts strings at the ASCII
  separators `,`, `=` and `|`, so cutting the character sequence agrees with
  cutting the UTF-8 byte sequence.  `len` counts bytes, as in Go.
* `map[string]string` is an association list with unique keys (`GoMap`); only
  lookups are ever performed on it by the generator.
* Writers (`*strings.Builder`, `*os.File`) are passed explicitly: every emitting
  function takes the text written so far and returns the extended text.
  `fmt.Fprintf` with `%s` verbs is string concatenation.
* The emitted Go text is related to a small abstract syntax (`Stmt`, `Handler`,
  router branches) by printing functions (`renderStmt`, `renderHandler`); the
  behaviour of emitted code is the behaviour of that abstract syntax.
* The generator pastes texts into the emitted code with `%s` and never escapes
  them.  The behaviour of the emitted code therefore reads a text pasted
  between quotes as a Go string literal (`goStringLit`), a pasted message as
  the format of `fmt.Errorf` (`fmtErrorf`) and a pasted bound as an integer
  literal of type `int` (`goIntLit`).
-/

namespace Codegen

/-! ## Go library functions used by the generator -/

/-- Pieces of a character list cut at every occurrence of `sep`; a list
without `sep` gives one piece, so the empty list gives `[[]]`. -/
def splitChars (sep : Char) : List Char → List (List Char)
  | [] => [[]]
  | c :: cs =>
    if c = sep then [] :: splitChars sep cs
    else
      match splitChars sep cs with
      | [] => [[c]]
      | p :: ps => (c :: p) :: ps

/-- The parts of a character list before and after the first occurrence of
`sep`; `none` when `sep` does not occur. -/
def cutChars (sep : Char) : List Char → Option (List Char × List Char)
  | [] => none
  | c :: cs =>
    if c = sep then some ([], cs)
    else (cutChars sep cs).map (fun ab => (c :: ab.1, ab.2))

/-- Pieces of a character list cut at the first `n - 1` occurrences of `sep`
(at most `n` pieces, the last one being the unsplit remainder). -/
def splitNChars (sep : Char) : Nat → List Char → List (List Char)
  | 0, _ => []
  | 1, s => [s]
  | n + 2, s =>
    match cutChars sep s with
    | none => [s]
    | some (a, rest) => a :: splitNChars sep (n + 1) rest

namespace strings

/-- Go `strings.Split(s, sep)` for a one-character separator. -/
def Split (s : String) (sep : Char) : List String :=
  (splitChars sep s.data).map String.mk

/-- Go `strings.SplitN(s, sep, n)` for a one-character separator and `n ≥ 0`. -/
def SplitN (s : String) (sep : Char) (n : Nat) : List String :=
  (splitNChars sep n s.data).map String.mk

/-- Go `strings.HasPrefix(s, p)`. -/
def HasPrefix (s p : String) : Bool :=
  p.data.isPrefixOf s.data

/-- Go `strings.TrimPrefix(s, p)`: `s` without the leading `p`, or `s` itself. -/
def TrimPrefix (s p : String) : String :=
  if p.data.isPrefixOf s.data then String.mk (s.data.drop p.data.length) else s

/-- Go `strings.Trim(s, cutset)` for a one-character cutset. -/
def Trim (s : String) (c : Char) : String :=
  String.mk (((s.data.dropWhile (fun x => x == c)).reverse.dropWhile (fun x => x == c)).reverse)

end strings

/-- Go builtin `len` on a string: the number of bytes. -/
def len (s : String) : Nat := s.utf8ByteSize

/-- Go `map[string]string`, as an association list with unique keys. -/
abbrev GoMap := List (String × String)

/-- Assignment `m[k] = v`. -/
def GoMap.set (m : GoMap) (k v : String) : GoMap :=
  (k, v) :: m.filter (fun e => e.1 != k)

/-- Two-valued lookup `v, ok := m[k]` (`none` when `ok` is false). -/
def GoMap.lookup (m : GoMap) (k : String) : Option String :=
  List.lookup k m

/-- One-valued lookup `m[k]`: the zero value `""` for a missing key. -/
def GoMap.index (m : GoMap) (k : String) : String :=
  (m.lookup k).getD ""

/-! ## The generator: data model (codegen.go, lines 15-28) -/

/-- Metadata of one API method (`ApiSpec`). -/
structure ApiSpec where
  URL : String
  Auth : Bool
  Method : String
  MethodName : String
  deriving DecidableEq, Repr

/-- One field of a parameter struct (`Field`); `Type_` is the source field `Type`. -/
structure Field where
  Name : String
  Type_ : String
  Validator : GoMap
  deriving DecidableEq, Repr

/-! ## The generator: `parseTag` (codegen.go, lines 31-43) -/

/-- Body of the loop of `parseTag` for one comma-separated part. -/
def parseTagPart (result : GoMap) (part : String) : GoMap :=
  let kv := strings.SplitN part '=' 2
  if kv.length = 2 then
    result.set (kv.getD 0 "") (kv.getD 1 "")
  else
    result.set (kv.getD 0 "") ""

/-- The function `parseTag`: the constraint string as a key/value map. -/
def parseTag (tag : String) : GoMap :=
  let parts := strings.Split tag ','
  parts.foldl parseTagPart []

/-! ## The generator: `generateValidation` (codegen.go, lines 65-123) -/

/-- The `case` lines written by the inner loop of the enum block. -/
def enumCaseLines (out : String) (values : List String) : String :=
  values.foldl (fun out value => out ++ ("\tcase \"" ++ value ++ "\":\n")) out

/-- Body of the loop of `generateValidation` for one field. -/
def generateValidationField (out : String) (field : Field) : String :=
  -- required validation
  let out :=
    if field.Validator.index "required" != "" then
      out
        ++ ("\tif params." ++ field.Name ++ " == \"\" \x7b\n")
        ++ "\t\tw.WriteHeader(http.StatusBadRequest)\n"
        ++ ("\t\tjson.NewEncoder(w).Encode(ApiError\x7bHTTPStatus: http.StatusBadRequest, Err: fmt.Errorf(\""
              ++ field.Name ++ " must be not empty\")\x7d)\n")
        ++ "\t\treturn\n"
        ++ "\t\x7d\n"
    else out
  -- min length validation
  let out :=
    match field.Validator.lookup "min" with
    | some min =>
      if field.Type_ = "int" then
        out
          ++ ("\tif params." ++ field.Name ++ " < " ++ min ++ " \x7b\n")
          ++ "\t\tw.WriteHeader(http.StatusBadRequest)\n"
          ++ ("\t\tjson.NewEncoder(w).Encode(ApiError\x7bHTTPStatus: http.StatusBadRequest, Err: fmt.Errorf(\""
                ++ field.Name ++ " must be >= " ++ min ++ "\")\x7d)\n")
          ++ "\t\treturn\n"
          ++ "\t\x7d\n"
      else if field.Type_ = "string" then
        out
          ++ ("\tif len(params." ++ field.Name ++ ") < " ++ min ++ " \x7b\n")
          ++ "\t\tw.WriteHeader(http.StatusBadRequest)\n"
          ++ ("\t\tjson.NewEncoder(w).Encode(ApiError\x7bHTTPStatus: http.StatusBadRequest, Err: fmt.Errorf(\""
                ++ field.Name ++ " length must be >= " ++ min ++ "\")\x7d)\n")
          ++ "\t\treturn\n"
          ++ "\t\x7d\n"
      else out
    | none => out
  -- max length validation
  let out :=
    match field.Validator.lookup "max" with
    | some max =>
      if field.Type_ = "int" then
        out
          ++ ("\tif params." ++ field.Name ++ " > " ++ max ++ " \x7b\n")
          ++ "\t\tw.WriteHeader(http.StatusBadRequest)\n"
          ++ ("\t\tjson.NewEncoder(w).Encode(ApiError\x7bHTTPStatus: http.StatusBadRequest, Err: fmt.Errorf(\""
                ++ field.Name ++ " must be <= " ++ max ++ "\")\x7d)\n")
          ++ "\t\treturn\n"
          ++ "\t\x7d\n"
      else if field.Type_ = "string" then
        out
          ++ ("\tif len(params." ++ field.Name ++ ") > " ++ max ++ " \x7b\n")
          ++ "\t\tw.WriteHeader(http.StatusBadRequest)\n"
          ++ ("\t\tjson.NewEncoder(w).Encode(ApiError\x7bHTTPStatus: http.StatusBadRequest, Err: fmt.Errorf(\""
                ++ field.Name ++ " length must be <= " ++ max ++ "\")\x7d)\n")
          ++ "\t\treturn\n"
          ++ "\t\x7d\n"
      else out
    | none => out
  -- enum validation
  match field.Validator.lookup "enum" with
  | some enum =>
    enumCaseLines (out ++ ("\tswitch params." ++ field.Name ++ " \x7b\n")) (strings.Split enum '|')
      ++ "\tdefault:\n"
      ++ "\t\tw.WriteHeader(http.StatusBadRequest)\n"
      ++ ("\t\tjson.NewEncoder(w).Encode(ApiError\x7bHTTPStatus: http.StatusBadRequest, Err: fmt.Errorf(\""
            ++ field.Name ++ " must be one of [" ++ enum ++ "]\")\x7d)\n")
      ++ "\t\treturn\n"
      ++ "\t\x7d\n"
  | none => out

/-- The function `generateValidation`: appends to `out` the validation code of
all fields, field by field. -/
def generateValidation (out : String) (fields : List Field) : String :=
  fields.foldl generateValidationField out

/-! ## The generator: `generateHandler` (codegen.go, lines 126-163) -/

/-- The function `generateHandler`: appends to the output file `out` the
handler of one API method. -/
def generateHandler (out : String) (structName methodName : String) (spec : ApiSpec)
    (paramType : String) (fields : List Field) : String :=
  let out := out ++ ("func (h *" ++ structName ++ ") handler" ++ methodName
    ++ "(w http.ResponseWriter, r *http.Request) \x7b\n")
  -- authorization
  let out :=
    if spec.Auth then
      out
        ++ "\tif r.Header.Get(\"Authorization\") != \"100500\" \x7b\n"
        ++ "\t\tw.WriteHeader(http.StatusUnauthorized)\n"
        ++ "\t\tjson.NewEncoder(w).Encode(ApiError\x7bHTTPStatus: http.StatusUnauthorized, Err: fmt.Errorf(\"unauthorized\")\x7d)\n"
        ++ "\t\treturn\n"
        ++ "\t\x7d\n"
    else out
  -- decoding of the parameters
  let out := out
    ++ ("\tvar params " ++ paramType ++ "\n")
    ++ "\tif err := json.NewDecoder(r.Body).Decode(&params); err != nil \x7b\n"
    ++ "\t\tw.WriteHeader(http.StatusBadRequest)\n"
    ++ "\t\tjson.NewEncoder(w).Encode(ApiError\x7bHTTPStatus: http.StatusBadRequest, Err: fmt.Errorf(\"invalid request body\")\x7d)\n"
    ++ "\t\treturn\n"
    ++ "\t\x7d\n"
  -- validation
  let validationCode := generateValidation "" fields
  let out := out ++ validationCode
  -- business logic
  let out := out
    ++ ("\tresult, err := h." ++ methodName ++ "(context.Background(), params)\n")
    ++ "\tif err != nil \x7b\n"
    ++ "\t\tw.WriteHeader(http.StatusInternalServerError)\n"
    ++ "\t\tjson.NewEncoder(w).Encode(ApiError\x7bHTTPStatus: http.StatusInternalServerError, Err: err\x7d)\n"
    ++ "\t\treturn\n"
    ++ "\t\x7d\n"
  -- successful response
  out
    ++ "\tw.Header().Set(\"Content-Type\", \"application/json\")\n"
    ++ "\tjson.NewEncoder(w).Encode(result)\n"
    ++ "\x7d\n\n"

/-! ## The generator: `generateServeHTTP` (codegen.go, lines 166-179) -/

/-- Body of the loop of `generateServeHTTP` for one spec. -/
def generateServeHTTPBranch (out : String) (spec : ApiSpec) : String :=
  out
    ++ ("\tif r.Method == \"" ++ spec.Method ++ "\" && r.URL.Path == \"" ++ spec.URL ++ "\" \x7b\n")
    ++ ("\t\th.handler" ++ spec.MethodName ++ "(w, r)\n")
    ++ "\t\treturn\n"
    ++ "\t\x7d\n"

/-- The function `generateServeHTTP`: appends to `out` the router of one
struct.  The 404 line is written with `Fprintln`, hence its `%s` verbs are
emitted as they stand and the line ends in two line breaks. -/
def generateServeHTTP (out : String) (structName : String) (specs : List ApiSpec) : String :=
  let out := out ++ ("func (h *" ++ structName ++ ") ServeHTTP(w http.ResponseWriter, r *http.Request) \x7b\n")
  let out := specs.foldl generateServeHTTPBranch out
  out
    ++ "\tw.WriteHeader(http.StatusNotFound)\n"
    ++ ("\tjson.NewEncoder(w).Encode(ApiError\x7bHTTPStatus: http."
          ++ "StatusNotFound, Err: fmt.Errorf(\"unknown method %s on %s\", r.Method, r.URL.Path)\x7d)\n" ++ "\n")
    ++ "\x7d\n"

/-! ## The generator: declaration tree and `parseStructFields` (codegen.go, lines 46-62)

Only the shapes of `go/ast` nodes that the generator inspects are kept. -/

/-- Type expressions (`ast.Expr` in type position): a plain identifier, a
pointer, or anything else. -/
inductive TypeExpr where
  | ident (Name : String)
  | star (X : TypeExpr)
  | other
  deriving DecidableEq, Repr

/-- One entry of a field list (`ast.Field`): the names declared together, their
type, and the raw tag literal (with its back quotes) when there is one.
`Type_` is the source field `Type`. -/
structure AstField where
  Names : List String
  Type_ : TypeExpr
  Tag : Option String
  deriving DecidableEq, Repr

/-- The right-hand side of a type declaration: a struct type or anything else. -/
inductive TypeDef where
  | structType (Fields : List AstField)
  | other
  deriving DecidableEq, Repr

/-- One spec of a general declaration: a type spec or anything else. -/
inductive Spec where
  | typeSpec (Name : String) (Type_ : TypeDef)
  | other
  deriving DecidableEq, Repr

/-- A function declaration: `Doc` is `fn.Doc.Text()` (`none` when `fn.Doc` is
nil), `Recv` is `fn.Recv.List` (`none` when `fn.Recv` is nil), `Params` is
`fn.Type.Params.List`. -/
structure FuncDecl where
  Doc : Option String
  Name : String
  Recv : Option (List AstField)
  Params : List AstField
  deriving DecidableEq, Repr

/-- Top-level declarations (`ast.Decl`). -/
inductive Decl where
  | funcDecl (fn : FuncDecl)
  | genDecl (Specs : List Spec)
  | badDecl
  deriving DecidableEq, Repr

/-- A parsed source file (`ast.File`): package name and declarations. -/
structure AstFile where
  Name : String
  Decls : List Decl
  deriving DecidableEq, Repr

/-- Library behaviour the generator relies on and that is kept abstract:
`jsonUnmarshal` is `json.Unmarshal` of a payload into a zero `ApiSpec` (the
error text on failure), `structTagGet tag key` is `reflect.StructTag(tag).Get(key)`,
and `mapRange` is the order in which `range` visits the entries of the
`apiHandlers` map. -/
structure GoLib where
  jsonUnmarshal : String → Except String ApiSpec
  structTagGet : String → String → String
  mapRange : List (String × List ApiSpec) → List (String × List ApiSpec)

/-- The back quote character that delimits a raw tag literal. -/
def backquote : Char := Char.ofNat 96

/-- Body of the loop of `parseStructFields` for one field declaration. -/
def parseStructFieldsStep (tagGet : String → String → String) (fields : List Field)
    (field : AstField) : List Field :=
  if field.Names.length = 0 || field.Tag.isNone then
    fields
  else
    let name := field.Names.headD ""
    let fieldType :=
      match field.Type_ with
      | .ident n => n
      | _ => ""
    let tag := strings.Trim (field.Tag.getD "") backquote
    let validator := parseTag (tagGet tag "apivalidator")
    fields ++ [{ Name := name, Type_ := fieldType, Validator := validator }]

/-- The function `parseStructFields`, on the field list of the struct type. -/
def parseStructFields (tagGet : String → String → String) (node : List AstField) : List Field :=
  node.foldl (parseStructFieldsStep tagGet) []

/-! ## The generator: `main` (codegen.go, lines 197-256)

The model starts once the input is parsed and the output file is created
(empty).  Writes to the file are immediate, so the file content at the moment
the process stops is the text written so far. -/

/-- Ways in which the run stops early: `log.Fatalf` with its message, or a
run-time panic (failed type assertion, nil dereference). -/
inductive Abort where
  | fatal (msg : String)
  | panic
  deriving DecidableEq, Repr

/-- State of `main` inside its loops: the output file and the `apiHandlers` map. -/
structure GenState where
  out : String
  apiHandlers : List (String × List ApiSpec)
  deriving DecidableEq, Repr

/-- The statement `apiHandlers[structName] = append(apiHandlers[structName], apiSpec)`. -/
def appendSpec (m : List (String × List ApiSpec)) (structName : String) (apiSpec : ApiSpec) :
    List (String × List ApiSpec) :=
  match m with
  | [] => [(structName, [apiSpec])]
  | (k, specs) :: rest =>
    if k = structName then (k, specs ++ [apiSpec]) :: rest
    else (k, specs) :: appendSpec rest structName apiSpec

/-- The expression `fn.Recv.List[0].Type.(*ast.StarExpr).X.(*ast.Ident).Name`;
`none` when its evaluation panics. -/
def receiverName (fn : FuncDecl) : Option String :=
  match fn.Recv with
  | some (f :: _) =>
    match f.Type_ with
    | .star (.ident n) => some n
    | _ => none
  | _ => none

/-- Innermost loop body of `main` (lines 237-245), for one spec of a general
declaration. -/
def genForSpec (lib : GoLib) (structName methodName : String) (apiSpec : ApiSpec)
    (paramType : String) (st : GenState) (spec : Spec) : GenState :=
  match spec with
  | .typeSpec name (.structType fields) =>
    if name = paramType then
      let fs := parseStructFields lib.structTagGet fields
      { out := generateHandler st.out structName methodName apiSpec paramType fs
        apiHandlers := appendSpec st.apiHandlers structName apiSpec }
    else st
  | _ => st

/-- Loop body of the search for the parameter struct (lines 234-247), for one
declaration of the file. -/
def genForDecl (lib : GoLib) (structName methodName : String) (apiSpec : ApiSpec)
    (paramType : String) (st : GenState) (decl : Decl) : GenState :=
  match decl with
  | .genDecl specs => specs.foldl (genForSpec lib structName methodName apiSpec paramType) st
  | _ => st

/-- Body of the outer loop of `main` for a function declaration (lines 210-249). -/
def processFunc (lib : GoLib) (node : AstFile) (st : GenState) (fn : FuncDecl) :
    Except Abort GenState :=
  match fn.Doc with
  | none => .ok st
  | some doc =>
    if strings.HasPrefix doc "apigen:api" then
      match lib.jsonUnmarshal (strings.TrimPrefix doc "apigen:api ") with
      | .error err => .error (.fatal ("Failed to parse apigen spec: " ++ err))
      | .ok apiSpec =>
        let methodName := fn.Name
        let apiSpec := { apiSpec with MethodName := methodName }
        match receiverName fn with
        | none => .error .panic
        | some structName =>
          match fn.Params with
          | _ :: p :: _ =>
            match p.Type_ with
            | .ident paramType =>
              .ok (node.Decls.foldl (genForDecl lib structName methodName apiSpec paramType) st)
            | _ => .error (.fatal ("Unsupported parameter type in method " ++ methodName))
          | _ => .error (.fatal ("Method " ++ methodName ++ " does not have parameters"))
    else .ok st

/-- The outer loop of `main` (lines 208-251): the state reached and, when the
run stopped early, the reason. -/
def runDecls (lib : GoLib) (node : AstFile) : GenState → List Decl → GenState × Option Abort
  | st, [] => (st, none)
  | st, .funcDecl fn :: rest =>
    match processFunc lib node st fn with
    | .ok st2 => runDecls lib node st2 rest
    | .error a => (st, some a)
  | st, _ :: rest => runDecls lib node st rest

/-- Outcome of a run: the content of the output file when the process ends and
the reason of an early stop (`none` for a normal end). -/
structure RunResult where
  file : String
  exit : Option Abort
  deriving DecidableEq, Repr

/-- The package clause and import block written first (lines 203-204). -/
def fileHeader (node : AstFile) : String :=
  "" ++ ("package " ++ node.Name ++ "\n\n")
    ++ "import (\n\t\"context\"\n\t\"encoding/json\"\n\t\"net/http\"\n\t\"strings\"\n)\n\n"

/-- The function `main` from line 203 on. -/
def main (lib : GoLib) (node : AstFile) : RunResult :=
  let out := fileHeader node
  match runDecls lib node { out := out, apiHandlers := [] } node.Decls with
  | (st, some a) => { file := st.out, exit := some a }
  | (st, none) =>
    { file := (lib.mapRange st.apiHandlers).foldl (fun out e => generateServeHTTP out e.1 e.2) st.out
      exit := none }

/-! ## Abstract syntax of the emitted validation code

The texts carried by the syntax (field names, bounds, case labels, messages)
are the texts the generator pastes: between quotes, as the format of
`fmt.Errorf`, or after a comparison operator.  What the pasted text means in
the emitted program is settled by the execution functions below. -/

/-- Conditions of the emitted `if` statements: `params.F == ""`,
`params.F < lit`, `len(params.F) < lit`, `params.F > lit`, `len(params.F) > lit`. -/
inductive Cond where
  | strEmpty (field : String)
  | intLt (field lit : String)
  | lenLt (field lit : String)
  | intGt (field lit : String)
  | lenGt (field lit : String)
  deriving DecidableEq, Repr

/-- Emitted validation statements.  `ifFail c msg` is
`if c { w.WriteHeader(400); Encode(ApiError{400, Errorf(msg)}); return }`;
`switchFail F cases msg` is the `switch params.F` with one empty `case` per
label and the same three statements under `default`. -/
inductive Stmt where
  | ifFail (c : Cond) (msg : String)
  | switchFail (field : String) (cases : List String) (msg : String)
  deriving DecidableEq, Repr

/-- Go text of the opening line of an `if` statement on a condition. -/
def renderIf : Cond → String
  | .strEmpty f => "\tif params." ++ f ++ " == \"\" \x7b\n"
  | .intLt f lit => "\tif params." ++ f ++ " < " ++ lit ++ " \x7b\n"
  | .lenLt f lit => "\tif len(params." ++ f ++ ") < " ++ lit ++ " \x7b\n"
  | .intGt f lit => "\tif params." ++ f ++ " > " ++ lit ++ " \x7b\n"
  | .lenGt f lit => "\tif len(params." ++ f ++ ") > " ++ lit ++ " \x7b\n"

/-- Go text of the three statements that answer 400 with a message, and of
the closing brace. -/
def renderFail (msg : String) : String :=
  "\t\tw.WriteHeader(http.StatusBadRequest)\n"
    ++ ("\t\tjson.NewEncoder(w).Encode(ApiError\x7bHTTPStatus: http.StatusBadRequest, Err: fmt.Errorf(\""
          ++ msg ++ "\")\x7d)\n")
    ++ "\t\treturn\n"
    ++ "\t\x7d\n"

/-- Go text of the `case` lines of a switch. -/
def renderCases : List String → String
  | [] => ""
  | v :: vs => ("\tcase \"" ++ v ++ "\":\n") ++ renderCases vs

/-- Go text of a validation statement. -/
def renderStmt : Stmt → String
  | .ifFail c msg => renderIf c ++ renderFail msg
  | .switchFail f cases msg =>
    ("\tswitch params." ++ f ++ " \x7b\n") ++ renderCases cases ++ "\tdefault:\n" ++ renderFail msg

/-- Go text of a sequence of validation statements. -/
def renderStmts : List Stmt → String
  | [] => ""
  | s :: ss => renderStmt s ++ renderStmts ss

/-- The `required` statement emitted for a field (lines 68-74), if any. -/
def requiredChecks (field : Field) : List Stmt :=
  if field.Validator.index "required" != "" then
    [.ifFail (.strEmpty field.Name) (field.Name ++ " must be not empty")]
  else []

/-- The `min` statement emitted for a field (lines 77-91), if any. -/
def minChecks (field : Field) : List Stmt :=
  match field.Validator.lookup "min" with
  | some min =>
    if field.Type_ = "int" then
      [.ifFail (.intLt field.Name min) (field.Name ++ " must be >= " ++ min)]
    else if field.Type_ = "string" then
      [.ifFail (.lenLt field.Name min) (field.Name ++ " length must be >= " ++ min)]
    else []
  | none => []

/-- The `max` statement emitted for a field (lines 94-108), if any. -/
def maxChecks (field : Field) : List Stmt :=
  match field.Validator.lookup "max" with
  | some max =>
    if field.Type_ = "int" then
      [.ifFail (.intGt field.Name max) (field.Name ++ " must be <= " ++ max)]
    else if field.Type_ = "string" then
      [.ifFail (.lenGt field.Name max) (field.Name ++ " length must be <= " ++ max)]
    else []
  | none => []

/-- The `enum` statement emitted for a field (lines 111-121), if any. -/
def enumChecks (field : Field) : List Stmt :=
  match field.Validator.lookup "enum" with
  | some enum =>
    [.switchFail field.Name (strings.Split enum '|') (field.Name ++ " must be one of [" ++ enum ++ "]")]
  | none => []

/-- The statements emitted by one pass of the loop of `generateValidation`. -/
def fieldChecks (field : Field) : List Stmt :=
  requiredChecks field ++ minChecks field ++ maxChecks field ++ enumChecks field

/-- The statements emitted by `generateValidation` (see
`generateValidation_eq_render`). -/
def validationChecks : List Field → List Stmt
  | [] => []
  | f :: fs => fieldChecks f ++ validationChecks fs

/-! ## Behaviour of emitted code -/

/-- Values of the fields of a decoded parameter record. -/
inductive Value where
  | str (s : String)
  | int (n : Int)
  deriving DecidableEq, Repr

/-- A decoded parameter record: its fields by name. -/
abbrev Params := List (String × Value)

/-- Selector `params.F`; `none` when the record has no such field. -/
def Params.field (p : Params) (name : String) : Option Value :=
  List.lookup name p

/-- Value of a digit character in bases up to sixteen. -/
def digitOf (c : Char) : Option Nat :=
  if '0' ≤ c ∧ c ≤ '9' then some (c.toNat - 48)
  else if 'a' ≤ c ∧ c ≤ 'f' then some (c.toNat - 87)
  else if 'A' ≤ c ∧ c ≤ 'F' then some (c.toNat - 55)
  else none

/-- Value of the digits of a literal after its first digit or prefix: digits
of the base, single underscores allowed between digits only.  `acc` is the
value read so far, `sep` tells that a digit must come next. -/
def digitsVal (base : Nat) : Nat → Bool → List Char → Option Nat
  | acc, sep, [] => if sep then none else some acc
  | acc, sep, c :: cs =>
    if c = '_' then
      if sep then none else digitsVal base acc true cs
    else
      match digitOf c with
      | some d => if d < base then digitsVal base (acc * base + d) false cs else none
      | none => none

/-- Value of the digits that follow a base prefix: an optional underscore,
then at least one digit. -/
def prefixedDigits (base : Nat) (cs : List Char) : Option Nat :=
  match cs with
  | [] => none
  | c :: rest => if c = '_' then digitsVal base 0 true rest else digitsVal base 0 true (c :: rest)

/-- Value of a Go integer literal: decimal, binary (`0b`), octal (`0o` or a
leading `0`) or hexadecimal (`0x`), with underscores between digits. -/
def intLit (cs : List Char) : Option Nat :=
  match cs with
  | [] => none
  | c :: rest =>
    if c = '0' then
      match rest with
      | [] => some 0
      | x :: more =>
        if x = 'x' ∨ x = 'X' then prefixedDigits 16 more
        else if x = 'b' ∨ x = 'B' then prefixedDigits 2 more
        else if x = 'o' ∨ x = 'O' then prefixedDigits 8 more
        else prefixedDigits 8 rest
    else
      match digitOf c with
      | some d => if d < 10 then digitsVal 10 d false rest else none
      | none => none

/-- The characters that occur in signed integer literals. -/
def isIntLitChar (c : Char) : Bool :=
  (digitOf c).isSome || c == '_' || c == 'x' || c == 'X' || c == 'o' || c == 'O'
    || c == '+' || c == '-'

/-- A value of Go's type `int`, taken as 64 bits wide: `none` outside its
range. -/
def inIntRange (n : Int) : Option Int :=
  if -9223372036854775808 ≤ n ∧ n ≤ 9223372036854775807 then some n else none

/-- Value of a bound written in a tag, as the emitted comparison with an
`int` reads it: an integer literal of Go (decimal, binary, octal or
hexadecimal, underscores between digits), possibly with one sign, whose value
is representable in `int`.  A literal out of that range does not compile and
gives `none`; so does every text that is not a signed integer literal (other
constant expressions are not modelled). -/
def goIntLit (s : String) : Option Int :=
  if s.data.all isIntLitChar then
    match s.data with
    | [] => none
    | c :: cs =>
      if c = '-' then (intLit cs).bind (fun n => inIntRange (-(n : Int)))
      else if c = '+' then (intLit cs).bind (fun n => inIntRange (n : Int))
      else (intLit (c :: cs)).bind (fun n => inIntRange (n : Int))
  else none

/-- Value of a run of digits of a base; `none` when a character is not a
digit of the base. -/
def numVal (base : Nat) (cs : List Char) : Option Nat :=
  cs.foldl (fun acc c =>
    match acc, digitOf c with
    | some a, some d => if d < base then some (a * base + d) else none
    | _, _ => none) (some 0)

/-- The character a one-letter escape of a Go string literal stands for. -/
def simpleEscape (c : Char) : Option Char :=
  if c = 'a' then some (Char.ofNat 7)
  else if c = 'b' then some (Char.ofNat 8)
  else if c = 'f' then some (Char.ofNat 12)
  else if c = 'n' then some (Char.ofNat 10)
  else if c = 'r' then some (Char.ofNat 13)
  else if c = 't' then some (Char.ofNat 9)
  else if c = 'v' then some (Char.ofNat 11)
  else if c = '\\' then some '\\'
  else if c = '"' then some '"'
  else none

/-- The character of a `\u` or `\U` escape: a Unicode code point that is not
a surrogate half. -/
def codePoint (n : Nat) : Option Char :=
  if n < 55296 ∨ (57343 < n ∧ n ≤ 1114111) then some (Char.ofNat n) else none

/-- The character of a `\x` or octal escape.  Such an escape denotes a byte;
bytes from 128 on are not characters of a `String` and give `none`. -/
def byteChar (n : Nat) : Option Char :=
  if n < 128 then some (Char.ofNat n) else none

/-- The escape sequence that follows a backslash: the character it denotes
and the number of characters it takes after the backslash; `none` when no
escape sequence of a string literal starts there. -/
def escape : List Char → Option (Char × Nat)
  | [] => none
  | e :: rest =>
    match simpleEscape e with
    | some v => some (v, 1)
    | none =>
      if e = 'x' then
        match rest with
        | h1 :: h2 :: _ => ((numVal 16 [h1, h2]).bind byteChar).map (fun v => (v, 3))
        | _ => none
      else if e = 'u' then
        match rest with
        | h1 :: h2 :: h3 :: h4 :: _ =>
          ((numVal 16 [h1, h2, h3, h4]).bind codePoint).map (fun v => (v, 5))
        | _ => none
      else if e = 'U' then
        match rest with
        | h1 :: h2 :: h3 :: h4 :: h5 :: h6 :: h7 :: h8 :: _ =>
          ((numVal 16 [h1, h2, h3, h4, h5, h6, h7, h8]).bind codePoint).map (fun v => (v, 9))
        | _ => none
      else
        match rest with
        | o2 :: o3 :: _ =>
          ((numVal 8 [e, o2, o3]).bind (fun n => if n ≤ 255 then byteChar n else none)).map
            (fun v => (v, 3))
        | _ => none

/-- The value of the Go interpreted string literal whose text between the
quotes is the given character list (escapes replaced); `none` when that text
is not the inside of a string literal: unescaped quote, line break, invalid
escape, or a character no Go source may hold (NUL, a byte order mark inside
the file).  The first argument counts the characters still to pass over
because they belong to the escape sequence just read. -/
def unquoteChars : Nat → List Char → Option (List Char)
  | _, [] => some []
  | skip + 1, _ :: rest => unquoteChars skip rest
  | 0, c :: rest =>
    if c = '\\' then
      match escape rest with
      | some (v, n) => (unquoteChars n rest).map (fun out => v :: out)
      | none => none
    else if c = '"' ∨ c = Char.ofNat 10 ∨ c = Char.ofNat 0 ∨ c = Char.ofNat 65279 then none
    else (unquoteChars 0 rest).map (fun out => c :: out)

/-- The string denoted by the Go expression obtained by pasting a text
between double quotes, as the generator does with `"%s"`; `none` when the
result is not a string literal. -/
def goStringLit (s : String) : Option String :=
  (unquoteChars 0 s.data).map String.mk

/-- The flag characters of a formatting verb. -/
def isFlag (c : Char) : Bool :=
  c == '#' || c == '0' || c == '+' || c == '-' || c == ' '

/-- Whether a character after `%` and its flags starts a width, a precision
or an argument index. -/
def startsWidth (c : Char) : Bool :=
  ('1' ≤ c && c ≤ '9') || c == '.' || c == '*' || c == '['

/-- The text `fmt` produces for a format without operands; the flag tells
that a `%` and possibly flags have just been read.  Text outside verbs is
copied, `%%` gives `%`, a `%` at the end gives `%!(NOVERB)`, and any other
verb `c` finds no operand and gives `%!c(MISSING)`.  Verbs with a width, a
precision or an argument index are not modelled and give `none`. -/
def formatChars : Bool → List Char → Option (List Char)
  | false, [] => some []
  | true, [] => some "%!(NOVERB)".data
  | false, c :: rest =>
    if c = '%' then formatChars true rest
    else (formatChars false rest).map (fun out => c :: out)
  | true, c :: rest =>
    if isFlag c then formatChars true rest
    else if c = '%' then (formatChars false rest).map (fun out => '%' :: out)
    else if startsWidth c then none
    else (formatChars false rest).map (fun out => '%' :: '!' :: c :: ("(MISSING)".data ++ out))

/-- The text of the error `fmt.Errorf(format)` called without operands. -/
def fmtErrorf (format : String) : Option String :=
  (formatChars false format.data).map String.mk

/-- The text of the error built by the emitted `fmt.Errorf("<msg>")`: the
pasted message is read as a string literal, and the string it denotes is the
format of `fmt.Errorf`. -/
def errorText (msg : String) : Option String :=
  (goStringLit msg).bind fmtErrorf

/-- The strings denoted by a list of pasted texts read as string literals. -/
def litValues : List String → Option (List String)
  | [] => some []
  | c :: cs =>
    match goStringLit c, litValues cs with
    | some v, some vs => some (v :: vs)
    | _, _ => none

/-- The values of the case labels of an emitted switch; `none` when a label
is not a string literal or two labels denote the same string (a duplicate case
does not compile). -/
def caseValues (cases : List String) : Option (List String) :=
  match litValues cases with
  | some vs => if vs.Nodup then some vs else none
  | none => none

/-- A character that stands for itself both in a string literal and in a
format. -/
def plainChar (c : Char) : Bool :=
  c != '"' && c != '\\' && c != '%' && c != Char.ofNat 10 && c != Char.ofNat 0
    && c != Char.ofNat 65279

/-- A text free of double quotes, backslashes, percent signs, line breaks,
NUL and byte order marks: pasted between quotes it denotes itself, and as a
format it produces itself. -/
def plainText (s : String) : Bool :=
  s.data.all plainChar

/-- Value of a condition on a record; `none` when the condition is ill-typed
for the record (missing field, field of the other type) or its bound is not
an integer literal representable in `int`. -/
def Cond.eval (p : Params) : Cond → Option Bool
  | .strEmpty f =>
    match p.field f with
    | some (.str s) => some (s == "")
    | _ => none
  | .intLt f lit =>
    match p.field f, goIntLit lit with
    | some (.int v), some b => some (decide (v < b))
    | _, _ => none
  | .lenLt f lit =>
    match p.field f, goIntLit lit with
    | some (.str s), some b => some (decide ((len s : Int) < b))
    | _, _ => none
  | .intGt f lit =>
    match p.field f, goIntLit lit with
    | some (.int v), some b => some (decide (v > b))
    | _, _ => none
  | .lenGt f lit =>
    match p.field f, goIntLit lit with
    | some (.str s), some b => some (decide ((len s : Int) > b))
    | _, _ => none

/-- Observable actions of a handler or router, in the order performed:
`decodeBody T` is `json.NewDecoder(r.Body).Decode(&params)` for `params` of
type `T`; `writeHeader c` is `w.WriteHeader(c)`; `encodeError c msg` is
`json.NewEncoder(w).Encode(ApiError{HTTPStatus: c, Err: e})` for an error `e`
with text `msg`; `call m` is the business method call `h.m(ctx, params)`;
`setHeader k v` is `w.Header().Set(k, v)`; `encodeResult x` is
`json.NewEncoder(w).Encode(result)`; `dispatch m` is the router's call
`h.handler<m>(w, r)`. -/
inductive Event where
  | decodeBody (paramType : String)
  | writeHeader (status : Nat)
  | encodeError (status : Nat) (msg : String)
  | call (method : String)
  | setHeader (key value : String)
  | encodeResult (result : String)
  | dispatch (method : String)
  deriving DecidableEq, Repr

/-- The actions of the 400 answer with a message. -/
def failEvents (msg : String) : List Event :=
  [.writeHeader 400, .encodeError 400 msg]

/-- Effect of one validation statement: fall through to the next statement,
answer and return, or no behaviour (the statement is ill-typed for the record
or one of its pasted texts is not what the generator takes it for). -/
inductive Flow where
  | next
  | halt (events : List Event)
  | illTyped
  deriving DecidableEq, Repr

/-- Execution of a validation statement on a decoded record, when control
reaches it.  The message answered is the error text of the pasted message
(`errorText`), the case labels are the strings denoted by the pasted labels
(`caseValues`); a statement whose message or labels are not what the generator
takes them for has no behaviour. -/
def Stmt.exec (p : Params) : Stmt → Flow
  | .ifFail c msg =>
    match errorText msg, c.eval p with
    | some m, some true => .halt (failEvents m)
    | some _, some false => .next
    | _, _ => .illTyped
  | .switchFail f cases msg =>
    match errorText msg, caseValues cases, p.field f with
    | some m, some vals, some (.str s) =>
      if vals.contains s then .next else .halt (failEvents m)
    | _, _, _ => .illTyped

/-- Execution of a sequence of validation statements: the first statement that
does not fall through decides. -/
def execStmts (p : Params) : List Stmt → Flow
  | [] => .next
  | s :: ss =>
    match s.exec p with
    | .next => execStmts p ss
    | r => r

/-- An incoming request as the emitted code reads it: `r.Method`,
`r.URL.Path`, the `Authorization` header (`none` when the header is missing)
and the body. -/
structure Request where
  Method : String
  Path : String
  Authorization : Option String
  Body : String
  deriving DecidableEq, Repr

/-- The expression `r.Header.Get("Authorization")`: `""` for a missing header. -/
def Request.headerAuthorization (r : Request) : String :=
  r.Authorization.getD ""

/-- What the serving program supplies to emitted handlers: `decode T body` is
the outcome of decoding the body into a record of type `T` (`none` on a decode
error), `call S m params` is the outcome of the business method `m` of struct
`S` (the error text, or the result). -/
structure Env where
  decode : String → String → Option Params
  call : String → String → Params → Except String String

/-- Abstract syntax of an emitted handler: the handler of `generateHandler`
has a fixed shape and varies in these five items only. -/
structure Handler where
  structName : String
  methodName : String
  auth : Bool
  paramType : String
  checks : List Stmt
  deriving DecidableEq, Repr

/-- The handler emitted by `generateHandler` for its arguments (see
`generateHandler_eq_render`). -/
def handlerOf (structName methodName : String) (spec : ApiSpec) (paramType : String)
    (fields : List Field) : Handler :=
  { structName := structName, methodName := methodName, auth := spec.Auth,
    paramType := paramType, checks := validationChecks fields }

/-- Go text of a handler. -/
def renderHandler (h : Handler) : String :=
  ("func (h *" ++ h.structName ++ ") handler" ++ h.methodName
      ++ "(w http.ResponseWriter, r *http.Request) \x7b\n")
    ++ (if h.auth then
          "\tif r.Header.Get(\"Authorization\") != \"100500\" \x7b\n"
            ++ "\t\tw.WriteHeader(http.StatusUnauthorized)\n"
            ++ "\t\tjson.NewEncoder(w).Encode(ApiError\x7bHTTPStatus: http.StatusUnauthorized, Err: fmt.Errorf(\"unauthorized\")\x7d)\n"
            ++ "\t\treturn\n"
            ++ "\t\x7d\n"
        else "")
    ++ (("\tvar params " ++ h.paramType ++ "\n")
          ++ "\tif err := json.NewDecoder(r.Body).Decode(&params); err != nil \x7b\n"
          ++ "\t\tw.WriteHeader(http.StatusBadRequest)\n"
          ++ "\t\tjson.NewEncoder(w).Encode(ApiError\x7bHTTPStatus: http.StatusBadRequest, Err: fmt.Errorf(\"invalid request body\")\x7d)\n"
          ++ "\t\treturn\n"
          ++ "\t\x7d\n")
    ++ renderStmts h.checks
    ++ (("\tresult, err := h." ++ h.methodName ++ "(context.Background(), params)\n")
          ++ "\tif err != nil \x7b\n"
          ++ "\t\tw.WriteHeader(http.StatusInternalServerError)\n"
          ++ "\t\tjson.NewEncoder(w).Encode(ApiError\x7bHTTPStatus: http.StatusInternalServerError, Err: err\x7d)\n"
          ++ "\t\treturn\n"
          ++ "\t\x7d\n")
    ++ ("\tw.Header().Set(\"Content-Type\", \"application/json\")\n"
          ++ "\tjson.NewEncoder(w).Encode(result)\n"
          ++ "\x7d\n\n")

/-- Execution of an emitted handler on a request: the actions performed, or
`none` when a validation statement that control reaches has no behaviour on
the decoded record. -/
def execHandler (env : Env) (h : Handler) (r : Request) : Option (List Event) :=
  if h.auth && r.headerAuthorization != "100500" then
    some [.writeHeader 401, .encodeError 401 "unauthorized"]
  else
    match env.decode h.paramType r.Body with
    | none => some (.decodeBody h.paramType :: failEvents "invalid request body")
    | some params =>
      match execStmts params h.checks with
      | .illTyped => none
      | .halt events => some (.decodeBody h.paramType :: events)
      | .next =>
        match env.call h.structName h.methodName params with
        | .error err =>
          some [.decodeBody h.paramType, .call h.methodName, .writeHeader 500, .encodeError 500 err]
        | .ok result =>
          some [.decodeBody h.paramType, .call h.methodName,
                .setHeader "Content-Type" "application/json", .encodeResult result]

/-- The answer of the router when no branch matches (lines 175-177). -/
def notFoundEvents (r : Request) : List Event :=
  [.writeHeader 404, .encodeError 404 ("unknown method " ++ r.Method ++ " on " ++ r.Path)]

/-- Whether every branch of the router for `specs` compares with string
literals: the pasted `Method` and `URL` of every spec read as string literals. -/
def routerWellFormed (specs : List ApiSpec) : Bool :=
  specs.all (fun spec => (goStringLit spec.Method).isSome && (goStringLit spec.URL).isSome)

/-- The branches of the router emitted for `specs`, one `if` per spec in list
order, then the 404 answer.  Each branch compares `r.Method` and `r.URL.Path`
with the strings denoted by the pasted `Method` and `URL`.  `handler m r` is
the behaviour of `h.handler<m>(w, r)`. -/
def dispatchServeHTTP (handler : String → Request → Option (List Event)) :
    List ApiSpec → Request → Option (List Event)
  | [], r => some (notFoundEvents r)
  | spec :: rest, r =>
    match goStringLit spec.Method, goStringLit spec.URL with
    | some method, some url =>
      if r.Method == method && r.Path == url then
        (handler spec.MethodName r).map (fun events => .dispatch spec.MethodName :: events)
      else dispatchServeHTTP handler rest r
    | _, _ => none

/-- Execution of the router emitted by `generateServeHTTP` for `specs`; `none`
when some branch does not compare with string literals. -/
def execServeHTTP (handler : String → Request → Option (List Event))
    (specs : List ApiSpec) (r : Request) : Option (List Event) :=
  if routerWellFormed specs then dispatchServeHTTP handler specs r else none

/-! ## The generated handlers (api_handlers.go) -/

/-- The fields of `CreateParams` that `handlerCreate` reads, with the types
its checks impose (`len` on `Login`, string cases on `Status`, integer
comparison on `Age`); the declaration itself is not part of the sources. -/
structure CreateParams where
  Login : String
  Status : String
  Age : Int
  deriving DecidableEq, Repr

namespace MyApi

/-- The method `(*MyApi).handlerProfile` (api_handlers.go, lines 10-25); `P`
is the type `ProfileParams`, of which no field is read. -/
def handlerProfile {P : Type} (decode : String → Option P) (Profile : P → Except String String)
    (r : Request) : List Event :=
  match decode r.Body with
  | none => [.decodeBody "ProfileParams", .writeHeader 400, .encodeError 400 "invalid request body"]
  | some params =>
    match Profile params with
    | .error err => [.decodeBody "ProfileParams", .call "Profile", .writeHeader 500, .encodeError 500 err]
    | .ok result =>
      [.decodeBody "ProfileParams", .call "Profile",
       .setHeader "Content-Type" "application/json", .encodeResult result]

/-- The method `(*MyApi).handlerCreate` (api_handlers.go, lines 27-71). -/
def handlerCreate (decode : String → Option CreateParams)
    (Create : CreateParams → Except String String) (r : Request) : List Event :=
  if r.headerAuthorization != "100500" then
    [.writeHeader 401, .encodeError 401 "unauthorized"]
  else
    match decode r.Body with
    | none => [.decodeBody "CreateParams", .writeHeader 400, .encodeError 400 "invalid request body"]
    | some params =>
      if len params.Login < 10 then
        [.decodeBody "CreateParams", .writeHeader 400, .encodeError 400 "Login length must be >= 10"]
      else if !(params.Status == "user" || params.Status == "moderator" || params.Status == "admin") then
        [.decodeBody "CreateParams", .writeHeader 400,
         .encodeError 400 "Status must be one of [user|moderator|admin]"]
      else if params.Age < 0 then
        [.decodeBody "CreateParams", .writeHeader 400, .encodeError 400 "Age must be >= 0"]
      else if params.Age > 128 then
        [.decodeBody "CreateParams", .writeHeader 400, .encodeError 400 "Age must be <= 128"]
      else
        match Create params with
        | .error err => [.decodeBody "CreateParams", .call "Create", .writeHeader 500, .encodeError 500 err]
        | .ok result =>
          [.decodeBody "CreateParams", .call "Create",
           .setHeader "Content-Type" "application/json", .encodeResult result]

/-- The method `(*MyApi).ServeHTTP` (api_handlers.go, lines 119-131), over the
behaviours of the two handlers it calls. -/
def ServeHTTP (handlerProfile handlerCreate : Request → List Event) (r : Request) : List Event :=
  if r.Method == "" && r.Path == "/user/profile" then
    .dispatch "Profile" :: handlerProfile r
  else if r.Method == "POST" && r.Path == "/user/create" then
    .dispatch "Create" :: handlerCreate r
  else
    [.writeHeader 404, .encodeError 404 ("unknown method " ++ r.Method ++ " on " ++ r.Path)]

end MyApi

namespace OtherApi

/-- The method `(*OtherApi).ServeHTTP` (api_handlers.go, lines 132-140), over
the behaviour of the handler it calls. -/
def ServeHTTP (handlerCreate : Request → List Event) (r : Request) : List Event :=
  if r.Method == "POST" && r.Path == "/user/create" then
    .dispatch "Create" :: handlerCreate r
  else
    [.writeHeader 404, .encodeError 404 ("unknown method " ++ r.Method ++ " on " ++ r.Path)]

end OtherApi

/-- The record of the abstract syntax that stands for a `CreateParams` value. -/
def CreateParams.toParams (p : CreateParams) : Params :=
  [("Login", .str p.Login), ("Status", .str p.Status), ("Age", .int p.Age)]

/-- The serving environment of the abstract syntax that stands for a decoder
of `CreateParams` and a business method `Create`. -/
def createEnv (decode : String → Option CreateParams)
    (Create : CreateParams → Except String String) : Env :=
  { decode := fun _ body => (decode body).map CreateParams.toParams
    call := fun _ _ ps =>
      match ps with
      | [(_, .str login), (_, .str status), (_, .int age)] => Create ⟨login, status, age⟩
      | _ => .error "" }

/-- The fields of `CreateParams` that carry checks in `handlerCreate`, with
constraint strings from which the generator emits exactly these checks. -/
def createFields : List Field :=
  [ { Name := "Login", Type_ := "string", Validator := parseTag "required,min=10" },
    { Name := "Status", Type_ := "string", Validator := parseTag "enum=user|moderator|admin" },
    { Name := "Age", Type_ := "int", Validator := parseTag "min=0,max=128" } ]

/-- The spec of `MyApi.Create` as read off `handlerCreate` and the router. -/
def createSpec : ApiSpec :=
  { URL := "/user/create", Auth := true, Method := "POST", MethodName := "Create" }

/-- The text of `(*MyApi).handlerCreate` in api_handlers.go, lines 27-72. -/
def handlerCreateText : String :=
  "func (h *MyApi) handlerCreate(w http.ResponseWriter, r *http.Request) \x7b\n"
    ++ "\tif r.Header.Get(\"Authorization\") != \"100500\" \x7b\n"
    ++ "\t\tw.WriteHeader(http.StatusUnauthorized)\n"
    ++ "\t\tjson.NewEncoder(w).Encode(ApiError\x7bHTTPStatus: http.StatusUnauthorized, Err: fmt.Errorf(\"unauthorized\")\x7d)\n"
    ++ "\t\treturn\n"
    ++ "\t\x7d\n"
    ++ "\tvar params CreateParams\n"
    ++ "\tif err := json.NewDecoder(r.Body).Decode(&params); err != nil \x7b\n"
    ++ "\t\tw.WriteHeader(http.StatusBadRequest)\n"
    ++ "\t\tjson.NewEncoder(w).Encode(ApiError\x7bHTTPStatus: http.StatusBadRequest, Err: fmt.Errorf(\"invalid request body\")\x7d)\n"
    ++ "\t\treturn\n"
    ++ "\t\x7d\n"
    ++ "\tif len(params.Login) < 10 \x7b\n"
    ++ "\t\tw.WriteHeader(http.StatusBadRequest)\n"
    ++ "\t\tjson.NewEncoder(w).Encode(ApiError\x7bHTTPStatus: http.StatusBadRequest, Err: fmt.Errorf(\"Login length must be >= 10\")\x7d)\n"
    ++ "\t\treturn\n"
    ++ "\t\x7d\n"
    ++ "\tswitch params.Status \x7b\n"
    ++ "\tcase \"user\":\n"
    ++ "\tcase \"moderator\":\n"
    ++ "\tcase \"admin\":\n"
    ++ "\tdefault:\n"
    ++ "\t\tw.WriteHeader(http.StatusBadRequest)\n"
    ++ "\t\tjson.NewEncoder(w).Encode(ApiError\x7bHTTPStatus: http.StatusBadRequest, Err: fmt.Errorf(\"Status must be one of [user|moderator|admin]\")\x7d)\n"
    ++ "\t\treturn\n"
    ++ "\t\x7d\n"
    ++ "\tif params.Age < 0 \x7b\n"
    ++ "\t\tw.WriteHeader(http.StatusBadRequest)\n"
    ++ "\t\tjson.NewEncoder(w).Encode(ApiError\x7bHTTPStatus: http.StatusBadRequest, Err: fmt.Errorf(\"Age must be >= 0\")\x7d)\n"
    ++ "\t\treturn\n"
    ++ "\t\x7d\n"
    ++ "\tif params.Age > 128 \x7b\n"
    ++ "\t\tw.WriteHeader(http.StatusBadRequest)\n"
    ++ "\t\tjson.NewEncoder(w).Encode(ApiError\x7bHTTPStatus: http.StatusBadRequest, Err: fmt.Errorf(\"Age must be <= 128\")\x7d)\n"
    ++ "\t\treturn\n"
    ++ "\t\x7d\n"
    ++ "\tresult, err := h.Create(context.Background(), params)\n"
    ++ "\tif err != nil \x7b\n"
    ++ "\t\tw.WriteHeader(http.StatusInternalServerError)\n"
    ++ "\t\tjson.NewEncoder(w).Encode(ApiError\x7bHTTPStatus: http.StatusInternalServerError, Err: err\x7d)\n"
    ++ "\t\treturn\n"
    ++ "\t\x7d\n"
    ++ "\tw.Header().Set(\"Content-Type\", \"application/json\")\n"
    ++ "\tjson.NewEncoder(w).Encode(result)\n"
    ++ "\x7d\n\n"

/-- The text of the authorization check written by `generateHandler`
(lines 131-135). -/
def authCheckText : String :=
  "\tif r.Header.Get(\"Authorization\") != \"100500\" \x7b\n"
    ++ "\t\tw.WriteHeader(http.StatusUnauthorized)\n"
    ++ "\t\tjson.NewEncoder(w).Encode(ApiError\x7bHTTPStatus: http.StatusUnauthorized, Err: fmt.Errorf(\"unauthorized\")\x7d)\n"
    ++ "\t\treturn\n"
    ++ "\t\x7d\n"

/-- The text of the body decoding written by `generateHandler` (lines 139-144). -/
def decodeText (paramType : String) : String :=
  ("\tvar params " ++ paramType ++ "\n")
    ++ "\tif err := json.NewDecoder(r.Body).Decode(&params); err != nil \x7b\n"
    ++ "\t\tw.WriteHeader(http.StatusBadRequest)\n"
    ++ "\t\tjson.NewEncoder(w).Encode(ApiError\x7bHTTPStatus: http.StatusBadRequest, Err: fmt.Errorf(\"invalid request body\")\x7d)\n"
    ++ "\t\treturn\n"
    ++ "\t\x7d\n"

/-- The text of the business call and of the two responses that follow it,
written last by `generateHandler` (lines 152-162). -/
def invokeText (methodName : String) : String :=
  ("\tresult, err := h." ++ methodName ++ "(context.Background(), params)\n")
    ++ "\tif err != nil \x7b\n"
    ++ "\t\tw.WriteHeader(http.StatusInternalServerError)\n"
    ++ "\t\tjson.NewEncoder(w).Encode(ApiError\x7bHTTPStatus: http.StatusInternalServerError, Err: err\x7d)\n"
    ++ "\t\treturn\n"
    ++ "\t\x7d\n"
    ++ "\tw.Header().Set(\"Content-Type\", \"application/json\")\n"
    ++ "\tjson.NewEncoder(w).Encode(result)\n"
    ++ "\x7d\n\n"

/-- The first line of a handler written by `generateHandler` (line 127). -/
def handlerHeadText (structName methodName : String) : String :=
  "func (h *" ++ structName ++ ") handler" ++ methodName
    ++ "(w http.ResponseWriter, r *http.Request) \x7b\n"

/-- The key under which `parseTag` stores a token: `kv[0]` of its loop body. -/
def tokenKey (part : String) : String :=
  (strings.SplitN part '=' 2).getD 0 ""

/-- The value `parseTag` stores for a token: `kv[1]` when the token has an
`=`, the empty string otherwise. -/
def tokenValue (part : String) : String :=
  if (strings.SplitN part '=' 2).length = 2 then (strings.SplitN part '=' 2).getD 1 "" else ""

/-- The enum string `l1|l2|...|ln` written for a list of literals. -/
def pipeJoin : List String → String
  | [] => ""
  | [l] => l
  | l :: l2 :: ls => l ++ "|" ++ pipeJoin (l2 :: ls)

/-- Position of the constraint kind a statement checks in the order in which
`generateValidation` visits the kinds: `required` 0, `min` 1, `max` 2, `enum` 3. -/
def Stmt.rank : Stmt → Nat
  | .ifFail (.strEmpty _) _ => 0
  | .ifFail (.intLt _ _) _ => 1
  | .ifFail (.lenLt _ _) _ => 1
  | .ifFail (.intGt _ _) _ => 2
  | .ifFail (.lenGt _ _) _ => 2
  | .switchFail _ _ _ => 3

/-- The checks on a `CreateParams` record in the order the specification
states them (Login length, Status enum, Age lower bound, Age upper bound):
the condition under which each fails, and its message. -/
def createChecksSpec (p : CreateParams) : List (Bool × String) :=
  [ (decide (len p.Login < 10), "Login length must be >= 10"),
    (!(["user", "moderator", "admin"].contains p.Status),
      "Status must be one of [user|moderator|admin]"),
    (decide (p.Age < 0), "Age must be >= 0"),
    (decide (p.Age > 128), "Age must be <= 128") ]

/-- The message of the first failing check in the specification's order;
`none` when no check fails. -/
def firstFailureSpec (p : CreateParams) : Option String :=
  ((createChecksSpec p).find? (fun c => c.1)).map (fun c => c.2)

/-- The first line of a router written by `generateServeHTTP` (line 167). -/
def routerHeadText (structName : String) : String :=
  "func (h *" ++ structName ++ ") ServeHTTP(w http.ResponseWriter, r *http.Request) \x7b\n"

/-- The text of the dispatch branch of one spec (lines 169-172). -/
def branchText (spec : ApiSpec) : String :=
  ("\tif r.Method == \"" ++ spec.Method ++ "\" && r.URL.Path == \"" ++ spec.URL ++ "\" \x7b\n")
    ++ ("\t\th.handler" ++ spec.MethodName ++ "(w, r)\n")
    ++ "\t\treturn\n"
    ++ "\t\x7d\n"

/-- The texts of the dispatch branches of a list of specs, in list order. -/
def branchesText : List ApiSpec → String
  | [] => ""
  | spec :: rest => branchText spec ++ branchesText rest

/-- The text of the 404 answer and of the closing brace of a router
(lines 175-178). -/
def notFoundText : String :=
  "\tw.WriteHeader(http.StatusNotFound)\n"
    ++ "\tjson.NewEncoder(w).Encode(ApiError\x7bHTTPStatus: http.StatusNotFound, Err: fmt.Errorf(\"unknown method %s on %s\", r.Method, r.URL.Path)\x7d)\n\n"
    ++ "\x7d\n"

/-! ## Sample inputs used to instantiate the theorems -/

/-- A serving environment in which every body decodes to a valid
`CreateParams` record and the business method succeeds. -/
def sampleEnv : Env :=
  { decode := fun _ _ =>
      some [("Login", .str "0123456789"), ("Status", .str "admin"), ("Age", .int 50)]
    call := fun _ _ _ => .ok "ok" }

/-- A request to create a user that carries no credential. -/
def sampleRequestNoAuth : Request :=
  { Method := "POST", Path := "/user/create", Authorization := none, Body := "\x7b\x7d" }

/-- A request to create a user that carries the expected credential. -/
def sampleRequest : Request :=
  { Method := "POST", Path := "/user/create", Authorization := some "100500", Body := "\x7b\x7d" }

/-- The spec of `MyApi.Profile` as read off the router of `MyApi`. -/
def profileSpec : ApiSpec :=
  { URL := "/user/profile", Auth := false, Method := "", MethodName := "Profile" }

/-- The annotation text of the sample functions: the marker and a payload. -/
def sampleDoc : String :=
  "apigen:api \x7b\"url\": \"/user/create\", \"auth\": true, \"method\": \"POST\"\x7d\n"

/-- Library behaviour on the sample inputs: the payload of `sampleDoc` decodes
to its spec, the payload that breaks off after `"url":` is rejected with the
error `json.Unmarshal` gives for it, any other payload is taken as malformed,
the tag `apivalidator:"min=10"` holds the validator `min=10`, and the map is
visited in insertion order. -/
def sampleLib : GoLib :=
  { jsonUnmarshal := fun s =>
      if s = "\x7b\"url\": \"/user/create\", \"auth\": true, \"method\": \"POST\"\x7d\n" then
        .ok { URL := "/user/create", Auth := true, Method := "POST", MethodName := "" }
      else if s = "\x7b\"url\":\n" then .error "unexpected end of JSON input"
      else .error "invalid character"
    structTagGet := fun tag key =>
      if tag = "apivalidator:\"min=10\"" && key = "apivalidator" then "min=10" else ""
    mapRange := fun m => m }

/-- The receiver `(srv *MyApi)` of the sample functions. -/
def sampleRecv : Option (List AstField) :=
  some [{ Names := ["srv"], Type_ := .star (.ident "MyApi"), Tag := none }]

/-- The parameter `ctx context.Context` of the sample functions. -/
def sampleCtx : AstField :=
  { Names := ["ctx"], Type_ := .other, Tag := none }

/-- The declaration `type CreateParams struct` with one tagged field `Login`. -/
def sampleStructDecl : Decl :=
  .genDecl [.typeSpec "CreateParams"
    (.structType [{ Names := ["Login"], Type_ := .ident "string",
                    Tag := some "`apivalidator:\"min=10\"`" }])]

/-- The annotated method `Create(ctx, in CreateParams)` of `MyApi`. -/
def sampleCreateFunc : FuncDecl :=
  { Doc := some sampleDoc, Name := "Create", Recv := sampleRecv,
    Params := [sampleCtx, { Names := ["in"], Type_ := .ident "CreateParams", Tag := none }] }

/-- An annotated method `Ghost(ctx, in GhostParams)` of `MyApi` whose
parameter type is declared nowhere. -/
def sampleGhostFunc : FuncDecl :=
  { Doc := some sampleDoc, Name := "Ghost", Recv := sampleRecv,
    Params := [sampleCtx, { Names := ["in"], Type_ := .ident "GhostParams", Tag := none }] }

/-- An annotated method `Broken(ctx, in CreateParams)` of `MyApi` whose
payload breaks off after `"url":`. -/
def sampleBrokenFunc : FuncDecl :=
  { Doc := some "apigen:api \x7b\"url\":\n", Name := "Broken", Recv := sampleRecv,
    Params := [sampleCtx, { Names := ["in"], Type_ := .ident "CreateParams", Tag := none }] }

/-- A source file in which the method with the undeclared parameter type
comes first, followed by a struct declaration and a valid method. -/
def sampleFileUndeclared : AstFile :=
  { Name := "main",
    Decls := [.funcDecl sampleGhostFunc, sampleStructDecl, .funcDecl sampleCreateFunc] }

/-- A source file in which a valid method is followed by a method with a
malformed payload. -/
def sampleFileBroken : AstFile :=
  { Name := "main",
    Decls := [sampleStructDecl, .funcDecl sampleCreateFunc, .funcDecl sampleBrokenFunc] }

/-- The field list `parseStructFields` returns for the sample struct. -/
def sampleFields : List Field :=
  [{ Name := "Login", Type_ := "string", Validator := [("min", "10")] }]

end Codegen

namespace Codegen

/-! ## Sample inputs with two owner types -/

/-- The annotated method `Create(ctx, in CreateParams)` of `OtherApi`. -/
def sampleOtherFunc : FuncDecl :=
  { Doc := some sampleDoc, Name := "Create",
    Recv := some [{ Names := ["srv"], Type_ := .star (.ident "OtherApi"), Tag := none }],
    Params := [sampleCtx, { Names := ["in"], Type_ := .ident "CreateParams", Tag := none }] }

/-- A source file with annotated methods on the two owner types `MyApi` and
`OtherApi`. -/
def sampleFileTwoOwners : AstFile :=
  { Name := "main",
    Decls := [sampleStructDecl, .funcDecl sampleCreateFunc, .funcDecl sampleOtherFunc] }

/-- The library behaviour of `sampleLib`, except that the map is visited in
the opposite order: another order a Go run may take. -/
def sampleLibReversed : GoLib :=
  { jsonUnmarshal := sampleLib.jsonUnmarshal
    structTagGet := sampleLib.structTagGet
    mapRange := fun m => m.reverse }

end Codegen

namespace Codegen

/-! ## The handlers and routers a run writes -/

/-- One handler written by `main`: the arguments of its `generateHandler`
call. -/
structure HandlerEntry where
  structName : String
  methodName : String
  spec : ApiSpec
  paramType : String
  fields : List Field
  deriving DecidableEq, Repr

/-- The effect of lines 239-243 of `main` for one handler: the handler is
written and its spec is appended to the table entry of its owner. -/
def addEntry (st : GenState) (e : HandlerEntry) : GenState :=
  { out := generateHandler st.out e.structName e.methodName e.spec e.paramType e.fields
    apiHandlers := appendSpec st.apiHandlers e.structName e.spec }

/-- The field lists of the struct declarations named `paramType` among the
specs of one general declaration, in order. -/
def specStructs (paramType : String) : List Spec → List (List AstField)
  | [] => []
  | .typeSpec name (.structType fields) :: rest =>
    if name = paramType then fields :: specStructs paramType rest
    else specStructs paramType rest
  | _ :: rest => specStructs paramType rest

/-- The field lists of the struct declarations named `paramType` in a list of
declarations, in declaration order. -/
def declStructs (paramType : String) : List Decl → List (List AstField)
  | [] => []
  | .genDecl specs :: rest => specStructs paramType specs ++ declStructs paramType rest
  | _ :: rest => declStructs paramType rest

/-- An annotated function that `main` accepts: it carries the marker, its
payload decodes, its receiver is a pointer to a named type and its second
parameter is a plain type name.  The result is the owner, the spec (with the
method name filled in) and the parameter type name; `none` for every other
function. -/
def funcInfo (lib : GoLib) (fn : FuncDecl) : Option (String × ApiSpec × String) :=
  match fn.Doc with
  | none => none
  | some doc =>
    if strings.HasPrefix doc "apigen:api" then
      match lib.jsonUnmarshal (strings.TrimPrefix doc "apigen:api ") with
      | .error _ => none
      | .ok apiSpec =>
        match receiverName fn with
        | none => none
        | some structName =>
          match fn.Params with
          | _ :: p :: _ =>
            match p.Type_ with
            | .ident paramType => some (structName, { apiSpec with MethodName := fn.Name }, paramType)
            | _ => none
          | _ => none
    else none

/-- The handlers `main` writes for one function: one per struct declaration
named as its parameter type, none for a function that is not annotated. -/
def funcEntries (lib : GoLib) (node : AstFile) (fn : FuncDecl) : List HandlerEntry :=
  match funcInfo lib fn with
  | none => []
  | some (structName, apiSpec, paramType) =>
    (declStructs paramType node.Decls).map (fun fields =>
      { structName := structName, methodName := fn.Name, spec := apiSpec,
        paramType := paramType, fields := parseStructFields lib.structTagGet fields })

/-- The handlers `main` writes for a list of declarations, in order. -/
def declsEntries (lib : GoLib) (node : AstFile) : List Decl → List HandlerEntry
  | [] => []
  | .funcDecl fn :: rest => funcEntries lib node fn ++ declsEntries lib node rest
  | _ :: rest => declsEntries lib node rest

/-- The handler definitions the specification asks for: one per annotated
function whose parameter type resolves to a struct declaration (the first one
of that name), in function-declaration order. -/
def handlerDefs (lib : GoLib) (node : AstFile) : List Decl → List HandlerEntry
  | [] => []
  | .funcDecl fn :: rest =>
    (match funcInfo lib fn with
     | none => []
     | some (structName, apiSpec, paramType) =>
       match (declStructs paramType node.Decls).head? with
       | none => []
       | some fields =>
         [{ structName := structName, methodName := fn.Name, spec := apiSpec,
            paramType := paramType, fields := parseStructFields lib.structTagGet fields }])
      ++ handlerDefs lib node rest
  | _ :: rest => handlerDefs lib node rest

/-- The texts of a list of handlers, one after the other. -/
def handlersText : List HandlerEntry → String
  | [] => ""
  | e :: es =>
    generateHandler "" e.structName e.methodName e.spec e.paramType e.fields ++ handlersText es

/-- The texts of the routers of a list of table entries, one after the other. -/
def routersText : List (String × List ApiSpec) → String
  | [] => ""
  | e :: es => generateServeHTTP "" e.1 e.2 ++ routersText es

/-- The table `apiHandlers` after the handlers `es` have been written. -/
def handlerTable (es : List HandlerEntry) : List (String × List ApiSpec) :=
  es.foldl (fun m e => appendSpec m e.structName e.spec) []

/-- The specs of the handlers owned by `owner`, in the order of the handlers. -/
def specsOf (es : List HandlerEntry) (owner : String) : List ApiSpec :=
  (es.filter (fun e => e.structName == owner)).map (fun e => e.spec)

end Codegen

namespace Codegen

/-! ## Tokens of a constraint string -/

/-- The constraint string `t1,t2,...,tn` written for a list of tokens. -/
def commaJoin : List String → String
  | [] => ""
  | [t] => t
  | t :: t2 :: ts => t ++ "," ++ commaJoin (t2 :: ts)

/-- The value of the last token of a list whose key is `k`; `none` when no
token has that key. -/
def lastValue : List String → String → Option String
  | [], _ => none
  | p :: rest, k =>
    match lastValue rest k with
    | some v => some v
    | none => if tokenKey p = k then some (tokenValue p) else none

end Codegen

namespace Codegen

/-! ## Counting responses -/

/-- Whether an action writes a response body: the encoding of an error or of
a result. -/
def Event.isResponse : Event → Bool
  | .encodeError _ _ => true
  | .encodeResult _ => true
  | _ => false

/-- Whether an action is a call of the business method. -/
def Event.isCall : Event → Bool
  | .call _ => true
  | _ => false

/-- The number of responses written in a sequence of actions. -/
def responses (events : List Event) : Nat :=
  events.countP Event.isResponse

/-- The number of business method calls in a sequence of actions. -/
def calls (events : List Event) : Nat :=
  events.countP Event.isCall

/-- The message text pasted into a validation statement. -/
def Stmt.msg : Stmt → String
  | .ifFail _ msg => msg
  | .switchFail _ _ msg => msg

end Codegen

namespace Codegen

/-! ## The router of `MyApi` and the fields of a struct, as stated -/

/-- The text of `(*MyApi).ServeHTTP` in api_handlers.go, lines 119-131. -/
def myApiServeHTTPText : String :=
  "func (h *MyApi) ServeHTTP(w http.ResponseWriter, r *http.Request) \x7b\n"
    ++ "\tif r.Method == \"\" && r.URL.Path == \"/user/profile\" \x7b\n"
    ++ "\t\th.handlerProfile(w, r)\n"
    ++ "\t\treturn\n"
    ++ "\t\x7d\n"
    ++ "\tif r.Method == \"POST\" && r.URL.Path == \"/user/create\" \x7b\n"
    ++ "\t\th.handlerCreate(w, r)\n"
    ++ "\t\treturn\n"
    ++ "\t\x7d\n"
    ++ "\tw.WriteHeader(http.StatusNotFound)\n"
    ++ "\tjson.NewEncoder(w).Encode(ApiError\x7bHTTPStatus: http.StatusNotFound, Err: fmt.Errorf(\"unknown method %s on %s\", r.Method, r.URL.Path)\x7d)\n"
    ++ "\n"
    ++ "\x7d\n"

/-- The field a field declaration yields as the specification states it: none
for a declaration without a name or without a tag; otherwise one field, named
after the first name, with the type name of a plain identifier type or the
empty type name, and the constraints of the `apivalidator` tag. -/
def fieldOfSpec (tagGet : String → String → String) (fd : AstField) : Option Field :=
  match fd.Names, fd.Tag with
  | first :: _, some tag =>
    some { Name := first
           Type_ := (match fd.Type_ with
                     | .ident n => n
                     | _ => "")
           Validator := parseTag (tagGet (strings.Trim tag backquote) "apivalidator") }
  | _, _ => none

/-- A tag reader for the examples: every tag holds the validator `min=1`. -/
def sampleTagGet : String → String → String :=
  fun _ _ => "min=1"

/-- The field declarations `A, B string` with a tag, an embedded `Base`
with a tag, `C int` without a tag, and `D []string` with a tag. -/
def sampleFieldDecls : List AstField :=
  [ { Names := ["A", "B"], Type_ := .ident "string", Tag := some "`apivalidator:\"min=1\"`" },
    { Names := [], Type_ := .ident "Base", Tag := some "`apivalidator:\"min=1\"`" },
    { Names := ["C"], Type_ := .ident "int", Tag := none },
    { Names := ["D"], Type_ := .other, Tag := some "`apivalidator:\"min=1\"`" } ]

end Codegen

namespace Codegen

/-! ## Specs whose texts are safe to paste, and sample routes -/

/-- Whether the `Method` and the `URL` of every spec denote themselves when
pasted between quotes: they hold no quote, backslash or line break (nor a NUL
or a byte order mark, which no Go source may hold). -/
def literalSpecs (specs : List ApiSpec) : Bool :=
  specs.all (fun spec =>
    goStringLit spec.Method == some spec.Method && goStringLit spec.URL == some spec.URL)

/-- A spec whose URL holds a backslash followed by `t`, as the payload
`"url": "/a\\tb"` decodes to. -/
def escapedSpec : ApiSpec :=
  { URL := "/a\\tb", Auth := false, Method := "POST", MethodName := "First" }

/-- A spec whose URL holds a TAB, as the payload `"url": "/a\tb"` decodes to. -/
def tabSpec : ApiSpec :=
  { URL := "/a\tb", Auth := false, Method := "POST", MethodName := "Second" }

/-- A request whose path holds a TAB. -/
def tabRequest : Request :=
  { Method := "POST", Path := "/a\tb", Authorization := none, Body := "" }

/-- A spec whose URL ends in a double quote. -/
def quoteSpec : ApiSpec :=
  { URL := "/user/profile\"", Auth := false, Method := "", MethodName := "Profile" }

/-- A spec that registers the verb `GET` on the URL of `MyApi.Profile`. -/
def getProfileSpec : ApiSpec :=
  { URL := "/user/profile", Auth := false, Method := "GET", MethodName := "Get" }

/-- The request (GET, /user/profile). -/
def getProfileRequest : Request :=
  { Method := "GET", Path := "/user/profile", Authorization := none, Body := "" }

/-! ## The texts of handlers and routers, printed from the abstract syntax -/

/-- The text of one handler: the printing of the handler built from the
arguments of its `generateHandler` call. -/
def handlerText (e : HandlerEntry) : String :=
  renderHandler (handlerOf e.structName e.methodName e.spec e.paramType e.fields)

/-- The texts of a list of handlers, one after the other. -/
def renderHandlers : List HandlerEntry → String
  | [] => ""
  | e :: es => handlerText e ++ renderHandlers es

/-- The text of the router of one owner: its first line, one branch per spec
in list order, and the 404 answer. -/
def routerText (structName : String) (specs : List ApiSpec) : String :=
  routerHeadText structName ++ branchesText specs ++ notFoundText

/-- The texts of the routers of a list of table entries, one after the other. -/
def renderRouters : List (String × List ApiSpec) → String
  | [] => ""
  | e :: es => routerText e.1 e.2 ++ renderRouters es

/-- A source file that declares the struct `CreateParams` twice before the
annotated method `Create`. -/
def sampleFileTwoStructs : AstFile :=
  { Name := "main",
    Decls := [sampleStructDecl, sampleStructDecl, .funcDecl sampleCreateFunc] }

end Codegen

namespace Codegen

/-! ## The emitted text is the printing of the abstract syntax -/

theorem renderStmts_append (xs ys : List Stmt) :
    renderStmts (xs ++ ys) = renderStmts xs ++ renderStmts ys := by
  induction xs with
  | nil => simp [renderStmts]
  | cons x xs ih => simp [renderStmts, ih, String.append_assoc]

theorem enumCaseLines_eq (values : List String) (out : String) :
    enumCaseLines out values = out ++ renderCases values := by
  induction values generalizing out with
  | nil => simp [enumCaseLines, renderCases]
  | cons v vs ih =>
    have h := ih (out ++ ("\tcase \"" ++ v ++ "\":\n"))
    simp only [enumCaseLines, List.foldl_cons] at h ⊢
    rw [h]
    simp only [renderCases, String.append_assoc]

theorem generateValidationField_eq (out : String) (field : Field) :
    generateValidationField out field = out ++ renderStmts (fieldChecks field) := by
  unfold generateValidationField fieldChecks requiredChecks minChecks maxChecks enumChecks
  simp only [renderStmts_append, enumCaseLines_eq]
  cases field.Validator.lookup "min" <;> cases field.Validator.lookup "max" <;>
    cases field.Validator.lookup "enum" <;> simp only [] <;> split_ifs <;>
    simp only [renderStmts, renderStmt, renderIf, renderFail, String.append_assoc,
      String.append_empty, String.empty_append] <;> rfl

theorem generateValidation_eq_render (out : String) (fields : List Field) :
    generateValidation out fields = out ++ renderStmts (validationChecks fields) := by
  induction fields generalizing out with
  | nil => simp [generateValidation, validationChecks, renderStmts]
  | cons f fs ih =>
    have h := ih (generateValidationField out f)
    simp only [generateValidation, List.foldl_cons] at h ⊢
    rw [h, generateValidationField_eq]
    simp only [validationChecks, renderStmts_append, String.append_assoc]

theorem generateHandler_eq_render (out structName methodName : String) (spec : ApiSpec)
    (paramType : String) (fields : List Field) :
    generateHandler out structName methodName spec paramType fields
      = out ++ renderHandler (handlerOf structName methodName spec paramType fields) := by
  unfold generateHandler renderHandler handlerOf
  simp only [generateValidation_eq_render]
  cases spec.Auth <;>
    simp only [String.append_assoc, String.append_empty, String.empty_append, if_true, if_false,
      Bool.false_eq_true]

end Codegen

namespace Codegen

/-! ## Splitting, `parseTag` and literals on well-formed constraint strings -/

theorem splitChars_of_not_mem (sep : Char) (xs : List Char) (h : sep ∉ xs) :
    splitChars sep xs = [xs] := by
  induction xs with
  | nil => rfl
  | cons c cs ih =>
    have hc : c ≠ sep := fun e => h (by simp [e])
    have hcs : sep ∉ cs := fun e => h (by simp [e])
    simp [splitChars, hc, ih hcs]

theorem splitChars_append_sep (sep : Char) (xs ys : List Char) (h : sep ∉ xs) :
    splitChars sep (xs ++ sep :: ys) = xs :: splitChars sep ys := by
  induction xs with
  | nil => simp [splitChars]
  | cons c cs ih =>
    have hc : c ≠ sep := fun e => h (by simp [e])
    have hcs : sep ∉ cs := fun e => h (by simp [e])
    simp [splitChars, hc, ih hcs]

theorem cutChars_append_sep (sep : Char) (xs ys : List Char) (h : sep ∉ xs) :
    cutChars sep (xs ++ sep :: ys) = some (xs, ys) := by
  induction xs with
  | nil => simp [cutChars]
  | cons c cs ih =>
    have hc : c ≠ sep := fun e => h (by simp [e])
    have hcs : sep ∉ cs := fun e => h (by simp [e])
    simp [cutChars, hc, ih hcs]

theorem cutChars_of_not_mem (sep : Char) (xs : List Char) (h : sep ∉ xs) :
    cutChars sep xs = none := by
  induction xs with
  | nil => rfl
  | cons c cs ih =>
    have hc : c ≠ sep := fun e => h (by simp [e])
    have hcs : sep ∉ cs := fun e => h (by simp [e])
    simp [cutChars, hc, ih hcs]

theorem Split_single (s : String) (sep : Char) (h : sep ∉ s.data) :
    strings.Split s sep = [s] := by
  simp [strings.Split, splitChars_of_not_mem sep s.data h]

theorem Split_cons (s t : String) (sep : Char) (h : sep ∉ s.data) :
    strings.Split (s ++ String.singleton sep ++ t) sep = s :: strings.Split t sep := by
  have e : (s ++ String.singleton sep ++ t).data = s.data ++ sep :: t.data := by
    simp [String.data_append, String.singleton]
  simp [strings.Split, e, splitChars_append_sep sep s.data t.data h]

theorem parseTagPart_kv (m : GoMap) (k v : String) (h : '=' ∉ k.data) :
    parseTagPart m (k ++ "=" ++ v) = m.set k v := by
  have e : (k ++ "=" ++ v).data = k.data ++ '=' :: v.data := by
    simp [String.data_append]
  simp [parseTagPart, strings.SplitN, e, splitNChars, cutChars_append_sep '=' k.data v.data h]

theorem parseTagPart_flag (m : GoMap) (k : String) (h : '=' ∉ k.data) :
    parseTagPart m k = m.set k "" := by
  simp [parseTagPart, strings.SplitN, splitNChars, cutChars_of_not_mem '=' k.data h]

theorem goIntLit_all (s : String) (n : Int) (h : goIntLit s = some n) :
    s.data.all isIntLitChar = true := by
  unfold goIntLit at h
  split_ifs at h with h1
  exact h1

theorem isIntLitChar_plain (c : Char) (h : isIntLitChar c = true) : plainChar c = true := by
  by_cases h1 : c = '"'
  · subst h1; exact absurd h (by decide)
  by_cases h2 : c = '\\'
  · subst h2; exact absurd h (by decide)
  by_cases h3 : c = '%'
  · subst h3; exact absurd h (by decide)
  by_cases h4 : c = Char.ofNat 10
  · subst h4; exact absurd h (by decide)
  by_cases h5 : c = Char.ofNat 0
  · subst h5; exact absurd h (by decide)
  by_cases h6 : c = Char.ofNat 65279
  · subst h6; exact absurd h (by decide)
  simp [plainChar, h1, h2, h3, h4, h5, h6]

theorem goIntLit_no_comma (s : String) (n : Int) (h : goIntLit s = some n) : ',' ∉ s.data := by
  intro hmem
  have h1 := List.all_eq_true.1 (goIntLit_all s n h) ',' hmem
  exact absurd h1 (by decide)

theorem goIntLit_no_eq (s : String) (n : Int) (h : goIntLit s = some n) : '=' ∉ s.data := by
  intro hmem
  have h1 := List.all_eq_true.1 (goIntLit_all s n h) '=' hmem
  exact absurd h1 (by decide)

theorem goIntLit_plain (s : String) (n : Int) (h : goIntLit s = some n) : plainText s = true := by
  unfold plainText
  rw [List.all_eq_true]
  intro c hc
  exact isIntLitChar_plain c (List.all_eq_true.1 (goIntLit_all s n h) c hc)

theorem plainChar_ne (c : Char) (h : plainChar c = true) :
    c ≠ '"' ∧ c ≠ '\\' ∧ c ≠ '%' ∧ c ≠ Char.ofNat 10 ∧ c ≠ Char.ofNat 0
      ∧ c ≠ Char.ofNat 65279 := by
  simpa [plainChar, and_assoc] using h

theorem unquoteChars_plain (cs : List Char) (h : cs.all plainChar = true) :
    unquoteChars 0 cs = some cs := by
  induction cs with
  | nil => rfl
  | cons c cs ih =>
    simp only [List.all_cons, Bool.and_eq_true] at h
    obtain ⟨h1, h2, h3, h4, h5, h7⟩ := plainChar_ne c h.1
    have h6 : ¬ (c = '"' ∨ c = Char.ofNat 10 ∨ c = Char.ofNat 0 ∨ c = Char.ofNat 65279) := by
      rintro (e | e | e | e)
      · exact h1 e
      · exact h4 e
      · exact h5 e
      · exact h7 e
    rw [unquoteChars, if_neg h2, if_neg h6, ih h.2]
    rfl

theorem formatChars_plain (cs : List Char) (h : cs.all plainChar = true) :
    formatChars false cs = some cs := by
  induction cs with
  | nil => rfl
  | cons c cs ih =>
    simp only [List.all_cons, Bool.and_eq_true] at h
    obtain ⟨h1, h2, h3, h4, h5, h7⟩ := plainChar_ne c h.1
    rw [formatChars, if_neg h3, ih h.2]
    rfl

theorem goStringLit_plain (s : String) (h : plainText s = true) : goStringLit s = some s := by
  unfold goStringLit
  rw [unquoteChars_plain s.data h]
  rfl

theorem fmtErrorf_plain (s : String) (h : plainText s = true) : fmtErrorf s = some s := by
  unfold fmtErrorf
  rw [formatChars_plain s.data h]
  rfl

theorem errorText_plain (s : String) (h : plainText s = true) : errorText s = some s := by
  unfold errorText
  rw [goStringLit_plain s h]
  exact fmtErrorf_plain s h

theorem plainText_append (s t : String) :
    plainText (s ++ t) = (plainText s && plainText t) := by
  simp [plainText, String.data_append, List.all_append]

theorem parseTag_min_max (a b : String) (ha : ',' ∉ a.data) (hb : ',' ∉ b.data) :
    parseTag ("min=" ++ a ++ ",max=" ++ b) = [("max", b), ("min", a)] := by
  have e : "min=" ++ a ++ ",max=" ++ b
      = ("min" ++ "=" ++ a) ++ String.singleton ',' ++ ("max" ++ "=" ++ b) := by
    simp only [String.append_assoc]; rfl
  have h1 : ',' ∉ ("min" ++ "=" ++ a).data := by
    simp [String.data_append, ha]
  have h2 : ',' ∉ ("max" ++ "=" ++ b).data := by
    simp [String.data_append, hb]
  rw [parseTag, e, Split_cons _ _ ',' h1, Split_single _ ',' h2]
  simp only [List.foldl_cons, List.foldl_nil]
  rw [parseTagPart_kv _ _ _ (by decide), parseTagPart_kv _ _ _ (by decide)]
  simp [GoMap.set]

theorem parseTag_key_value (k v : String) (hk1 : ',' ∉ k.data) (hk2 : '=' ∉ k.data)
    (hv : ',' ∉ v.data) : parseTag (k ++ "=" ++ v) = [(k, v)] := by
  have h1 : ',' ∉ (k ++ "=" ++ v).data := by
    simp [String.data_append, hk1, hv]
  rw [parseTag, Split_single _ ',' h1]
  simp only [List.foldl_cons, List.foldl_nil]
  rw [parseTagPart_kv _ _ _ hk2]
  simp [GoMap.set]

end Codegen

namespace Codegen

/-! ## Lookups in the map built by `parseTag` -/

theorem parseTagPart_eq_set (m : GoMap) (part : String) :
    parseTagPart m part = m.set (tokenKey part) (tokenValue part) := by
  unfold parseTagPart tokenKey tokenValue
  by_cases h : (strings.SplitN part '=' 2).length = 2 <;> simp [h]

theorem lookup_filter_ne (m : GoMap) (k k2 : String) (h : k2 ≠ k) :
    List.lookup k2 (m.filter (fun e => e.1 != k)) = List.lookup k2 m := by
  induction m with
  | nil => rfl
  | cons e rest ih =>
    obtain ⟨a, b⟩ := e
    by_cases ha : a = k
    · subst ha
      have hne : (k2 == a) = false := by simpa using h
      simp [List.filter, List.lookup, hne, ih]
    · have hne : (a != k) = true := by simpa using ha
      simp only [List.filter, hne, List.lookup]
      cases hk : (k2 == a) <;> simp [ih]

theorem lookup_set (m : GoMap) (k v k2 : String) :
    (m.set k v).lookup k2 = if k2 = k then some v else m.lookup k2 := by
  unfold GoMap.set GoMap.lookup
  by_cases h : k2 = k
  · subst h; simp [List.lookup]
  · have hne : (k2 == k) = false := by simpa using h
    simp only [List.lookup, hne, h, if_false]
    exact lookup_filter_ne m k k2 h

theorem lookup_foldl_parseTagPart (parts : List String) (m : GoMap) (k v : String)
    (h : (parts.foldl parseTagPart m).lookup k = some v) :
    (∃ part ∈ parts, tokenKey part = k ∧ tokenValue part = v) ∨ m.lookup k = some v := by
  induction parts generalizing m with
  | nil => right; simpa using h
  | cons p rest ih =>
    simp only [List.foldl_cons] at h
    rcases ih (parseTagPart m p) h with ⟨part, hmem, hk, hv⟩ | hm
    · left; exact ⟨part, List.mem_cons_of_mem _ hmem, hk, hv⟩
    · rw [parseTagPart_eq_set, lookup_set] at hm
      split_ifs at hm with hk
      · left
        refine ⟨p, by simp, hk.symm, ?_⟩
        simpa using hm
      · right; exact hm

theorem cutChars_some (sep : Char) (s a b : List Char) (h : cutChars sep s = some (a, b)) :
    s = a ++ sep :: b := by
  induction s generalizing a with
  | nil => simp [cutChars] at h
  | cons c cs ih =>
    unfold cutChars at h
    split_ifs at h with hc
    · simp only [Option.some.injEq, Prod.mk.injEq] at h
      obtain ⟨h1, h2⟩ := h
      subst h1 h2 hc
      rfl
    · cases hcut : cutChars sep cs with
      | none => simp [hcut] at h
      | some ab =>
        obtain ⟨a2, b2⟩ := ab
        simp only [hcut, Option.map_some', Option.some.injEq, Prod.mk.injEq] at h
        obtain ⟨h1, h2⟩ := h
        subst h1 h2
        simp [ih a2 hcut]

theorem token_of_value_ne_empty (part k v : String) (hk : tokenKey part = k)
    (hv : tokenValue part = v) (hne : v ≠ "") : part = k ++ "=" ++ v := by
  unfold tokenKey at hk
  unfold tokenValue at hv
  unfold strings.SplitN at hk hv
  simp only [splitNChars] at hk hv
  cases hcut : cutChars '=' part.data with
  | none =>
    simp [hcut] at hv
    exact absurd hv.symm hne
  | some ab =>
    obtain ⟨a, b⟩ := ab
    have hs := cutChars_some '=' part.data a b hcut
    simp [hcut] at hk hv
    subst hk hv
    apply String.ext
    simp [String.data_append, hs]

end Codegen

namespace Codegen

/-! ## The generated `handlerCreate` is the handler the generator emits -/

set_option maxRecDepth 20000 in
theorem generateHandler_create_text :
    generateHandler "" "MyApi" "Create" createSpec "CreateParams" createFields
      = handlerCreateText := by
  rfl

theorem validationChecks_createFields :
    validationChecks createFields
      = [.ifFail (.lenLt "Login" "10") "Login length must be >= 10",
         .switchFail "Status" ["user", "moderator", "admin"]
           "Status must be one of [user|moderator|admin]",
         .ifFail (.intLt "Age" "0") "Age must be >= 0",
         .ifFail (.intGt "Age" "128") "Age must be <= 128"] := by
  decide

theorem handlerCreate_agrees (decode : String → Option CreateParams)
    (Create : CreateParams → Except String String) (r : Request) :
    execHandler (createEnv decode Create)
        (handlerOf "MyApi" "Create" createSpec "CreateParams" createFields) r
      = some (MyApi.handlerCreate decode Create r) := by
  have h0 : goIntLit "0" = some 0 := by decide
  have h10 : goIntLit "10" = some 10 := by decide
  have h128 : goIntLit "128" = some 128 := by decide
  have e1 : errorText "Login length must be >= 10" = some "Login length must be >= 10" := by
    decide
  have e2 : errorText "Status must be one of [user|moderator|admin]"
      = some "Status must be one of [user|moderator|admin]" := by decide
  have e3 : errorText "Age must be >= 0" = some "Age must be >= 0" := by decide
  have e4 : errorText "Age must be <= 128" = some "Age must be <= 128" := by decide
  have e5 : caseValues ["user", "moderator", "admin"] = some ["user", "moderator", "admin"] := by
    decide
  simp only [execHandler, handlerOf, validationChecks_createFields, MyApi.handlerCreate,
    createSpec, createEnv, Bool.true_and]
  by_cases hc : (r.headerAuthorization != "100500") = true
  · simp [hc]
  · simp only [hc, if_false, Bool.false_eq_true]
    cases hd : decode r.Body with
    | none => simp [failEvents]
    | some params =>
      obtain ⟨login, status, age⟩ := params
      have hL : Params.field (CreateParams.toParams ⟨login, status, age⟩) "Login"
          = some (.str login) := by
        simp [Params.field, CreateParams.toParams, List.lookup]
      have hS : Params.field (CreateParams.toParams ⟨login, status, age⟩) "Status"
          = some (.str status) := by
        simp [Params.field, CreateParams.toParams, List.lookup]
      have hA : Params.field (CreateParams.toParams ⟨login, status, age⟩) "Age"
          = some (.int age) := by
        simp [Params.field, CreateParams.toParams, List.lookup]
      simp only [Option.map_some', execStmts, Stmt.exec, Cond.eval, hL, hS, hA, h0, h10, h128,
        e1, e2, e3, e4, e5]
      by_cases h1 : len login < 10
      · simp [h1, failEvents]
      · by_cases hSt : status = "user" ∨ status = "moderator" ∨ status = "admin"
        · by_cases h3 : age < 0
          · rcases hSt with h | h | h <;> simp [h1, h, h3, failEvents]
          · by_cases h4 : age > 128
            · rcases hSt with h | h | h <;> simp [h1, h, h3, h4, failEvents]
            · rcases hSt with h | h | h <;>
                (subst h
                 simp [h1, h3, h4, failEvents, CreateParams.toParams]
                 generalize Create _ = res
                 cases res <;> simp)
        · simp only [not_or] at hSt
          obtain ⟨ha, hb, hc'⟩ := hSt
          simp [h1, ha, hb, hc', failEvents]

end Codegen

namespace Codegen

/-! ## Claims -/

/-- C1 (the code departs from the claim): for the bare flag `required`,
`parseTag` stores the empty string under the key `required`, and
`generateValidation` emits the presence check only when the stored value is not
the empty string.  Hence for every field tagged with the bare flag no check is
emitted, and an empty value falls through validation; with the artifact's
`required,min=10` only the length check is emitted.  For every constraint
string, the presence check is emitted only if the string has a valued token
`required=v` with `v` not empty; such a token, e.g. `required=1`, does produce
the check the claim describes. -/
theorem C1_bare_required_emits_no_check (name ty out tag : String) :
    (parseTag "required").lookup "required" = some ""
    ∧ generateValidation out [⟨name, ty, parseTag "required"⟩] = out
    ∧ validationChecks [⟨name, ty, parseTag "required"⟩] = []
    ∧ execStmts [(name, .str "")] (validationChecks [⟨name, ty, parseTag "required"⟩]) = .next
    ∧ validationChecks [⟨name, "string", parseTag "required,min=10"⟩]
        = [.ifFail (.lenLt name "10") (name ++ " length must be >= 10")]
    ∧ validationChecks [⟨name, ty, parseTag "required=1"⟩]
        = [.ifFail (.strEmpty name) (name ++ " must be not empty")]
    ∧ (requiredChecks ⟨name, ty, parseTag tag⟩ = []
        ∨ ∃ v, v ≠ "" ∧ "required=" ++ v ∈ strings.Split tag ',') := by
  have h0 : validationChecks [⟨name, ty, parseTag "required"⟩] = [] := by
    have h1 : (parseTag "required").index "required" = "" := by decide
    have h2 : (parseTag "required").lookup "min" = none := by decide
    have h3 : (parseTag "required").lookup "max" = none := by decide
    have h4 : (parseTag "required").lookup "enum" = none := by decide
    simp [validationChecks, fieldChecks, requiredChecks, minChecks, maxChecks, enumChecks,
      h1, h2, h3, h4]
  have hgen : requiredChecks ⟨name, ty, parseTag tag⟩ = []
      ∨ ∃ v, v ≠ "" ∧ "required=" ++ v ∈ strings.Split tag ',' := by
    unfold requiredChecks GoMap.index
    cases hl : (parseTag tag).lookup "required" with
    | none => left; simp
    | some v =>
      by_cases hv : v = ""
      · left; simp [hv]
      · right
        rcases lookup_foldl_parseTagPart (strings.Split tag ',') [] "required" v hl with
          ⟨part, hmem, hk, hval⟩ | hnil
        · have hp := token_of_value_ne_empty part "required" v hk hval hv
          have e : "required=" ++ v = "required" ++ "=" ++ v := by
            rw [String.append_assoc]; rfl
          exact ⟨v, hv, by rw [e, ← hp]; exact hmem⟩
        · simp [GoMap.lookup, List.lookup] at hnil
  refine ⟨by decide, ?_, h0, ?_, ?_, ?_, hgen⟩
  · rw [generateValidation_eq_render, h0]; simp [renderStmts]
  · rw [h0]; rfl
  · have h1 : (parseTag "required,min=10").index "required" = "" := by decide
    have h2 : (parseTag "required,min=10").lookup "min" = some "10" := by decide
    have h3 : (parseTag "required,min=10").lookup "max" = none := by decide
    have h4 : (parseTag "required,min=10").lookup "enum" = none := by decide
    simp [validationChecks, fieldChecks, requiredChecks, minChecks, maxChecks, enumChecks,
      h1, h2, h3, h4]
    rw [String.append_assoc]; rfl
  · have h1 : (parseTag "required=1").index "required" = "1" := by decide
    have h2 : (parseTag "required=1").lookup "min" = none := by decide
    have h3 : (parseTag "required=1").lookup "max" = none := by decide
    have h4 : (parseTag "required=1").lookup "enum" = none := by decide
    simp [validationChecks, fieldChecks, requiredChecks, minChecks, maxChecks, enumChecks,
      h1, h2, h3, h4]

/-- C2: for every spec with `Auth = true`, the handler written by
`generateHandler` has the authorization check directly after its first line and
before the body decoding; on every request whose `Authorization` header is
missing or differs from `100500` the emitted handler performs exactly
`WriteHeader(401)` and the encoding of the `unauthorized` error, whatever the
body, the decoder and the business method are (no decode, no validation, no
call); `MyApi.handlerCreate` behaves so. -/
theorem C2_auth_check_precedes_decode (out structName methodName paramType : String)
    (spec : ApiSpec) (fields : List Field) (env : Env) (r : Request)
    (hAuth : spec.Auth = true) (hCred : r.Authorization ≠ some "100500") :
    generateHandler out structName methodName spec paramType fields
        = out ++ handlerHeadText structName methodName ++ authCheckText ++ decodeText paramType
            ++ generateValidation "" fields ++ invokeText methodName
    ∧ execHandler env (handlerOf structName methodName spec paramType fields) r
        = some [.writeHeader 401, .encodeError 401 "unauthorized"]
    ∧ (∀ (decode : String → Option CreateParams) (Create : CreateParams → Except String String),
        MyApi.handlerCreate decode Create r = [.writeHeader 401, .encodeError 401 "unauthorized"]) := by
  have hne : (r.headerAuthorization != "100500") = true := by
    unfold Request.headerAuthorization
    cases h : r.Authorization with
    | none => decide
    | some a =>
      have : a ≠ "100500" := fun e => hCred (by rw [h, e])
      simpa using this
  refine ⟨?_, ?_, ?_⟩
  · rw [generateHandler_eq_render, generateValidation_eq_render]
    unfold renderHandler handlerOf handlerHeadText authCheckText decodeText invokeText
    simp only [hAuth, if_true, String.append_assoc, String.empty_append]
  · simp [execHandler, handlerOf, hAuth, hne]
  · intro decode Create
    simp [MyApi.handlerCreate, hne]

/-- Instance of C2 on the spec of `MyApi.Create` and a request without
credential. -/
theorem C2_auth_check_precedes_decode_witness :
    createSpec.Auth = true ∧ sampleRequestNoAuth.Authorization ≠ some "100500"
    ∧ execHandler sampleEnv (handlerOf "MyApi" "Create" createSpec "CreateParams" createFields)
        sampleRequestNoAuth = some [.writeHeader 401, .encodeError 401 "unauthorized"] :=
  ⟨by decide, by decide,
    (C2_auth_check_precedes_decode "" "MyApi" "Create" "CreateParams" createSpec createFields
      sampleEnv sampleRequestNoAuth (by decide) (by decide)).2.1⟩

end Codegen

namespace Codegen

theorem fieldChecks_min_max_int (F a b : String) (ha : ',' ∉ a.data) (hb : ',' ∉ b.data) :
    fieldChecks ⟨F, "int", parseTag ("min=" ++ a ++ ",max=" ++ b)⟩
      = [.ifFail (.intLt F a) (F ++ " must be >= " ++ a),
         .ifFail (.intGt F b) (F ++ " must be <= " ++ b)] := by
  rw [parseTag_min_max a b ha hb]
  simp [fieldChecks, requiredChecks, minChecks, maxChecks, enumChecks, GoMap.index, GoMap.lookup,
    List.lookup]

theorem errorText_bound (F mid a : String) (A : Int) (hF : plainText F = true)
    (hmid : plainText mid = true) (ha : goIntLit a = some A) :
    errorText (F ++ mid ++ a) = some (F ++ mid ++ a) := by
  apply errorText_plain
  rw [plainText_append, plainText_append, hF, hmid, goIntLit_plain a A ha]
  rfl

/-- C3: for an `int` field `F` tagged `min=a,max=b`, where `a` and `b` are
integer literals of Go with values `A` and `B` in the range of `int` and the
name `F` is free of quotes, backslashes, percent signs and line breaks (as
every Go identifier is), `generateValidation` writes exactly the lower-bound
check followed by the upper-bound check; on a record whose `F` is the integer
`v` the first answers 400 `F must be >= a` exactly when `v < A`, the second
answers 400 `F must be <= b` exactly when `v > B`, and the two in sequence let
`v` pass exactly when `A ≤ v ≤ B` (the lower bound is tested first).  In
`MyApi.handlerCreate`, once the credential, the decoding and the `Login` and
`Status` checks pass, `Age = -1` and `Age = 200` give the two `Age` messages and
`Age = 50` reaches the call of `Create`. -/
theorem C3_int_min_max (out F a b : String) (A B v : Int) (p : Params)
    (hF : plainText F = true)
    (ha : goIntLit a = some A) (hb : goIntLit b = some B) (hp : p.field F = some (.int v))
    (decode : String → Option CreateParams) (Create : CreateParams → Except String String)
    (r : Request) (params : CreateParams)
    (hAuth : r.Authorization = some "100500") (hDec : decode r.Body = some params)
    (hLogin : 10 ≤ len params.Login)
    (hStatus : params.Status = "user" ∨ params.Status = "moderator" ∨ params.Status = "admin") :
    generateValidation out [⟨F, "int", parseTag ("min=" ++ a ++ ",max=" ++ b)⟩]
      = out ++ renderStmts [.ifFail (.intLt F a) (F ++ " must be >= " ++ a),
                            .ifFail (.intGt F b) (F ++ " must be <= " ++ b)]
    ∧ validationChecks [⟨F, "int", parseTag ("min=" ++ a ++ ",max=" ++ b)⟩]
      = [.ifFail (.intLt F a) (F ++ " must be >= " ++ a),
         .ifFail (.intGt F b) (F ++ " must be <= " ++ b)]
    ∧ Stmt.exec p (.ifFail (.intLt F a) (F ++ " must be >= " ++ a))
        = (if v < A then .halt (failEvents (F ++ " must be >= " ++ a)) else .next)
    ∧ Stmt.exec p (.ifFail (.intGt F b) (F ++ " must be <= " ++ b))
        = (if v > B then .halt (failEvents (F ++ " must be <= " ++ b)) else .next)
    ∧ execStmts p (validationChecks [⟨F, "int", parseTag ("min=" ++ a ++ ",max=" ++ b)⟩])
        = (if v < A then .halt (failEvents (F ++ " must be >= " ++ a))
           else if v > B then .halt (failEvents (F ++ " must be <= " ++ b))
           else .next)
    ∧ (params.Age = -1 → MyApi.handlerCreate decode Create r
        = [.decodeBody "CreateParams", .writeHeader 400, .encodeError 400 "Age must be >= 0"])
    ∧ (params.Age = 200 → MyApi.handlerCreate decode Create r
        = [.decodeBody "CreateParams", .writeHeader 400, .encodeError 400 "Age must be <= 128"])
    ∧ (params.Age = 50 → .call "Create" ∈ MyApi.handlerCreate decode Create r) := by
  have hchecks := fieldChecks_min_max_int F a b (goIntLit_no_comma a A ha) (goIntLit_no_comma b B hb)
  have hv : validationChecks [⟨F, "int", parseTag ("min=" ++ a ++ ",max=" ++ b)⟩]
      = [.ifFail (.intLt F a) (F ++ " must be >= " ++ a),
         .ifFail (.intGt F b) (F ++ " must be <= " ++ b)] := by
    simp [validationChecks, hchecks]
  have e1 := errorText_bound F " must be >= " a A hF (by decide) ha
  have e2 := errorText_bound F " must be <= " b B hF (by decide) hb
  have h1 : Stmt.exec p (.ifFail (.intLt F a) (F ++ " must be >= " ++ a))
        = (if v < A then .halt (failEvents (F ++ " must be >= " ++ a)) else .next) := by
    by_cases h : v < A <;> simp [Stmt.exec, Cond.eval, hp, ha, h, e1]
  have h2 : Stmt.exec p (.ifFail (.intGt F b) (F ++ " must be <= " ++ b))
        = (if v > B then .halt (failEvents (F ++ " must be <= " ++ b)) else .next) := by
    by_cases h : v > B <;> simp [Stmt.exec, Cond.eval, hp, hb, h, e2]
  have hcred : (r.headerAuthorization != "100500") = false := by
    simp [Request.headerAuthorization, hAuth]
  have hlog : ¬ (len params.Login < 10) := by omega
  have hst : (params.Status == "user" || params.Status == "moderator" || params.Status == "admin")
      = true := by
    rcases hStatus with h | h | h <;> simp [h]
  refine ⟨?_, hv, h1, h2, ?_, ?_, ?_, ?_⟩
  · rw [generateValidation_eq_render, hv]
  · rw [hv]
    simp only [execStmts, h1, h2]
    by_cases h : v < A <;> by_cases h' : v > B <;> simp [h, h']
  · intro hAge
    simp [MyApi.handlerCreate, hcred, hDec, hlog, hst, hAge]
  · intro hAge
    simp [MyApi.handlerCreate, hcred, hDec, hlog, hst, hAge]
  · intro hAge
    simp only [MyApi.handlerCreate, hcred, hDec, hlog, hst, hAge]
    cases Create params <;> simp

/-- Instance of C3 on the field `Age` with `min=0,max=128` and the value 50. -/
theorem C3_int_min_max_witness :
    plainText "Age" = true ∧ goIntLit "0" = some 0 ∧ goIntLit "128" = some 128
    ∧ Params.field [("Age", .int 50)] "Age" = some (.int 50)
    ∧ sampleRequest.Authorization = some "100500"
    ∧ generateValidation "" [⟨"Age", "int", parseTag ("min=" ++ "0" ++ ",max=" ++ "128")⟩]
      = "" ++ renderStmts [.ifFail (.intLt "Age" "0") ("Age" ++ " must be >= " ++ "0"),
                           .ifFail (.intGt "Age" "128") ("Age" ++ " must be <= " ++ "128")]
    ∧ execStmts [("Age", .int 50)] (validationChecks [⟨"Age", "int", parseTag ("min=" ++ "0" ++ ",max=" ++ "128")⟩])
        = (if (50 : Int) < 0 then .halt (failEvents ("Age" ++ " must be >= " ++ "0"))
           else if (50 : Int) > 128 then .halt (failEvents ("Age" ++ " must be <= " ++ "128"))
           else .next)
    ∧ .call "Create" ∈ MyApi.handlerCreate (fun _ => some ⟨"0123456789", "admin", 50⟩)
        (fun _ => .ok "ok") sampleRequest :=
  have h := C3_int_min_max "" "Age" "0" "128" 0 128 50 [("Age", .int 50)] (by decide) (by decide)
    (by decide) (by decide) (fun _ => some ⟨"0123456789", "admin", 50⟩) (fun _ => .ok "ok")
    sampleRequest ⟨"0123456789", "admin", 50⟩ (by decide) rfl (by decide) (by decide)
  ⟨by decide, by decide, by decide, by decide, by decide, h.1, h.2.2.2.2.1, h.2.2.2.2.2.2.2 rfl⟩

end Codegen

namespace Codegen

theorem fieldChecks_min_string (F n : String) (hn : ',' ∉ n.data) :
    fieldChecks ⟨F, "string", parseTag ("min=" ++ n)⟩
      = [.ifFail (.lenLt F n) (F ++ " length must be >= " ++ n)] := by
  have e : "min=" ++ n = "min" ++ "=" ++ n := by rw [String.append_assoc]; rfl
  rw [e, parseTag_key_value "min" n (by decide) (by decide) hn]
  simp [fieldChecks, requiredChecks, minChecks, maxChecks, enumChecks, GoMap.index, GoMap.lookup,
    List.lookup]

theorem fieldChecks_max_string (F m : String) (hm : ',' ∉ m.data) :
    fieldChecks ⟨F, "string", parseTag ("max=" ++ m)⟩
      = [.ifFail (.lenGt F m) (F ++ " length must be <= " ++ m)] := by
  have e : "max=" ++ m = "max" ++ "=" ++ m := by rw [String.append_assoc]; rfl
  rw [e, parseTag_key_value "max" m (by decide) (by decide) hm]
  simp [fieldChecks, requiredChecks, minChecks, maxChecks, enumChecks, GoMap.index, GoMap.lookup,
    List.lookup]

/-- C4: for a `string` field `F` tagged `min=n` (resp. `max=m`), where `n` and
`m` are integer literals of Go with values `N` and `M` in the range of `int`
and the name `F` is free of quotes, backslashes, percent signs and line breaks
(as every Go identifier is), `generateValidation` writes exactly one check,
and on a record whose `F` is the string `s` that check answers 400
`F length must be >= n` exactly when `len s < N` (resp. `F length must be <= m`
exactly when `len s > M`) and falls through otherwise; `len` is Go's byte
length.  In `MyApi.handlerCreate` a decoded `Login` of length 5 gives 400
`Login length must be >= 10`, and no `Login` of length at least 10 gets that
answer. -/
theorem C4_string_length_bounds (out F n m s : String) (N M : Int) (p : Params)
    (hF : plainText F = true)
    (hn : goIntLit n = some N) (hm : goIntLit m = some M) (hp : p.field F = some (.str s))
    (decode : String → Option CreateParams) (Create : CreateParams → Except String String)
    (r : Request) (params : CreateParams)
    (hAuth : r.Authorization = some "100500") (hDec : decode r.Body = some params) :
    generateValidation out [⟨F, "string", parseTag ("min=" ++ n)⟩]
      = out ++ renderStmts [.ifFail (.lenLt F n) (F ++ " length must be >= " ++ n)]
    ∧ generateValidation out [⟨F, "string", parseTag ("max=" ++ m)⟩]
      = out ++ renderStmts [.ifFail (.lenGt F m) (F ++ " length must be <= " ++ m)]
    ∧ validationChecks [⟨F, "string", parseTag ("min=" ++ n)⟩]
      = [.ifFail (.lenLt F n) (F ++ " length must be >= " ++ n)]
    ∧ validationChecks [⟨F, "string", parseTag ("max=" ++ m)⟩]
      = [.ifFail (.lenGt F m) (F ++ " length must be <= " ++ m)]
    ∧ execStmts p (validationChecks [⟨F, "string", parseTag ("min=" ++ n)⟩])
        = (if (len s : Int) < N then .halt (failEvents (F ++ " length must be >= " ++ n)) else .next)
    ∧ execStmts p (validationChecks [⟨F, "string", parseTag ("max=" ++ m)⟩])
        = (if (len s : Int) > M then .halt (failEvents (F ++ " length must be <= " ++ m)) else .next)
    ∧ (len params.Login = 5 → MyApi.handlerCreate decode Create r
        = [.decodeBody "CreateParams", .writeHeader 400,
           .encodeError 400 "Login length must be >= 10"])
    ∧ (10 ≤ len params.Login →
        .encodeError 400 "Login length must be >= 10" ∉ MyApi.handlerCreate decode Create r) := by
  have hmin : validationChecks [⟨F, "string", parseTag ("min=" ++ n)⟩]
      = [.ifFail (.lenLt F n) (F ++ " length must be >= " ++ n)] := by
    simp [validationChecks, fieldChecks_min_string F n (goIntLit_no_comma n N hn)]
  have hmax : validationChecks [⟨F, "string", parseTag ("max=" ++ m)⟩]
      = [.ifFail (.lenGt F m) (F ++ " length must be <= " ++ m)] := by
    simp [validationChecks, fieldChecks_max_string F m (goIntLit_no_comma m M hm)]
  have e1 := errorText_bound F " length must be >= " n N hF (by decide) hn
  have e2 := errorText_bound F " length must be <= " m M hF (by decide) hm
  have hcred : (r.headerAuthorization != "100500") = false := by
    simp [Request.headerAuthorization, hAuth]
  refine ⟨?_, ?_, hmin, hmax, ?_, ?_, ?_, ?_⟩
  · rw [generateValidation_eq_render, hmin]
  · rw [generateValidation_eq_render, hmax]
  · rw [hmin]
    by_cases h : (len s : Int) < N <;> simp [execStmts, Stmt.exec, Cond.eval, hp, hn, h, e1]
  · rw [hmax]
    by_cases h : (len s : Int) > M <;> simp [execStmts, Stmt.exec, Cond.eval, hp, hm, h, e2]
  · intro h5
    simp [MyApi.handlerCreate, hcred, hDec, h5]
  · intro h10
    have hlog : ¬ (len params.Login < 10) := by omega
    simp only [MyApi.handlerCreate, hcred, hDec, hlog]
    split_ifs <;> first | simp | (cases Create params <;> simp)

/-- Instance of C4 on the field `Login` with `min=10` and a value of length 5. -/
theorem C4_string_length_bounds_witness :
    plainText "Login" = true ∧ goIntLit "10" = some 10 ∧ goIntLit "20" = some 20
    ∧ Params.field [("Login", .str "short")] "Login" = some (.str "short")
    ∧ sampleRequest.Authorization = some "100500"
    ∧ len "short" = 5
    ∧ generateValidation "" [⟨"Login", "string", parseTag ("min=" ++ "10")⟩]
      = "" ++ renderStmts [.ifFail (.lenLt "Login" "10") ("Login" ++ " length must be >= " ++ "10")]
    ∧ execStmts [("Login", .str "short")] (validationChecks [⟨"Login", "string", parseTag ("min=" ++ "10")⟩])
        = (if (len "short" : Int) < 10 then .halt (failEvents ("Login" ++ " length must be >= " ++ "10"))
           else .next)
    ∧ MyApi.handlerCreate (fun _ => some ⟨"short", "admin", 50⟩) (fun _ => .ok "ok") sampleRequest
        = [.decodeBody "CreateParams", .writeHeader 400,
           .encodeError 400 "Login length must be >= 10"] :=
  have h := C4_string_length_bounds "" "Login" "10" "20" "short" 10 20 [("Login", .str "short")]
    (by decide) (by decide) (by decide) (by decide) (fun _ => some ⟨"short", "admin", 50⟩)
    (fun _ => .ok "ok") sampleRequest ⟨"short", "admin", 50⟩ (by decide) rfl
  ⟨by decide, by decide, by decide, by decide, by decide, by decide, h.1, h.2.2.2.2.1,
    h.2.2.2.2.2.2.1 (by decide)⟩

end Codegen

namespace Codegen

theorem Split_pipeJoin (ls : List String) (hne : ls ≠ []) (hpipe : ∀ l ∈ ls, '|' ∉ l.data) :
    strings.Split (pipeJoin ls) '|' = ls := by
  induction ls with
  | nil => exact absurd rfl hne
  | cons l rest ih =>
    cases rest with
    | nil => simpa [pipeJoin] using Split_single l '|' (hpipe l (by simp))
    | cons l2 rest2 =>
      have h1 : '|' ∉ l.data := hpipe l (by simp)
      have h2 := ih (by simp) (fun x hx => hpipe x (List.mem_cons_of_mem _ hx))
      have e : pipeJoin (l :: l2 :: rest2) = l ++ String.singleton '|' ++ pipeJoin (l2 :: rest2) := rfl
      rw [e, Split_cons _ _ '|' h1, h2]

theorem pipeJoin_no_comma (ls : List String) (hcomma : ∀ l ∈ ls, ',' ∉ l.data) :
    ',' ∉ (pipeJoin ls).data := by
  induction ls with
  | nil => simp [pipeJoin]
  | cons l rest ih =>
    cases rest with
    | nil => simpa [pipeJoin] using hcomma l (by simp)
    | cons l2 rest2 =>
      have h1 : ',' ∉ l.data := hcomma l (by simp)
      have h2 := ih (fun x hx => hcomma x (List.mem_cons_of_mem _ hx))
      simp only [pipeJoin, String.data_append, List.mem_append, not_or]
      exact ⟨⟨h1, by decide⟩, h2⟩

theorem fieldChecks_enum (F ty e : String) (he : ',' ∉ e.data) :
    fieldChecks ⟨F, ty, parseTag ("enum=" ++ e)⟩
      = [.switchFail F (strings.Split e '|') (F ++ " must be one of [" ++ e ++ "]")] := by
  have e1 : "enum=" ++ e = "enum" ++ "=" ++ e := by rw [String.append_assoc]; rfl
  rw [e1, parseTag_key_value "enum" e (by decide) (by decide) he]
  simp [fieldChecks, requiredChecks, minChecks, maxChecks, enumChecks, GoMap.index, GoMap.lookup,
    List.lookup]

theorem litValues_plain (ls : List String) (h : ∀ l ∈ ls, plainText l = true) :
    litValues ls = some ls := by
  induction ls with
  | nil => rfl
  | cons l rest ih =>
    have h1 := goStringLit_plain l (h l (by simp))
    have h2 := ih (fun x hx => h x (List.mem_cons_of_mem _ hx))
    simp only [litValues, h1, h2]

theorem caseValues_plain (ls : List String) (h : ∀ l ∈ ls, plainText l = true)
    (hdup : ls.Nodup) : caseValues ls = some ls := by
  simp only [caseValues, litValues_plain ls h, hdup, if_true]

theorem plainText_pipeJoin (ls : List String) (h : ∀ l ∈ ls, plainText l = true) :
    plainText (pipeJoin ls) = true := by
  induction ls with
  | nil => rfl
  | cons l rest ih =>
    cases rest with
    | nil => simpa [pipeJoin] using h l (by simp)
    | cons l2 rest2 =>
      have h1 := h l (by simp)
      have h2 := ih (fun x hx => h x (List.mem_cons_of_mem _ hx))
      have e : pipeJoin (l :: l2 :: rest2) = l ++ String.singleton '|' ++ pipeJoin (l2 :: rest2) := rfl
      rw [e, plainText_append, plainText_append, h1, h2]
      rfl

/-- C5 fails as stated: a literal is pasted between the quotes of a case label
and the whole enum string into the format of `fmt.Errorf`, without escaping.
For `Status` tagged `enum=50%|100%` the value `hacker` is answered with the
message `Status must be one of [50%!|(MISSING)100%!](MISSING)`, not with the
original enum string.  For `enum=a\tb` (backslash and `t` in the tag) the
label denotes `a`, TAB, `b`: the value equal to the literal as written is
rejected and the value with the TAB passes.  For `enum=a|a` the switch has the
label `a` twice and has no behaviour (a duplicate case does not compile), so
the value `a` does not pass. -/
theorem C5_counterexample_pasted_literals :
    generateValidation "" [⟨"Status", "string", parseTag "enum=50%|100%"⟩]
      = renderStmts [.switchFail "Status" ["50%", "100%"] "Status must be one of [50%|100%]"]
    ∧ execStmts [("Status", .str "hacker")]
        (validationChecks [⟨"Status", "string", parseTag "enum=50%|100%"⟩])
      = .halt (failEvents "Status must be one of [50%!|(MISSING)100%!](MISSING)")
    ∧ execStmts [("Status", .str "hacker")]
        (validationChecks [⟨"Status", "string", parseTag "enum=50%|100%"⟩])
      ≠ .halt (failEvents "Status must be one of [50%|100%]")
    ∧ validationChecks [⟨"Status", "string", parseTag "enum=a\\tb"⟩]
      = [.switchFail "Status" ["a\\tb"] "Status must be one of [a\\tb]"]
    ∧ execStmts [("Status", .str "a\\tb")]
        (validationChecks [⟨"Status", "string", parseTag "enum=a\\tb"⟩])
      = .halt (failEvents "Status must be one of [a\tb]")
    ∧ execStmts [("Status", .str "a\tb")]
        (validationChecks [⟨"Status", "string", parseTag "enum=a\\tb"⟩]) = .next
    ∧ validationChecks [⟨"Status", "string", parseTag "enum=a|a"⟩]
      = [.switchFail "Status" ["a", "a"] "Status must be one of [a|a]"]
    ∧ execStmts [("Status", .str "a")]
        (validationChecks [⟨"Status", "string", parseTag "enum=a|a"⟩]) = .illTyped := by
  refine ⟨?_, ?_, ?_, ?_, ?_, ?_, ?_, ?_⟩
  · rw [generateValidation_eq_render]
    have h : validationChecks [⟨"Status", "string", parseTag "enum=50%|100%"⟩]
        = [.switchFail "Status" ["50%", "100%"] "Status must be one of [50%|100%]"] := by decide
    rw [h, String.empty_append]
  · decide
  · decide
  · decide
  · decide
  · decide
  · decide
  · decide

/-- C5 (amended): for a field `F` tagged `enum=l1|l2|...|ln` whose name and
literals are free of quotes, backslashes, percent signs and line breaks, the
literals moreover free of `|` and `,` and pairwise distinct,
`generateValidation` writes one `switch` on `params.F` with exactly the case
lines of `l1`, ..., `ln` in that order; on a record whose `F` is the string `s`
it falls through exactly when `s` is one of the literals and otherwise answers
400 `F must be one of [l1|l2|...|ln]`.  In `MyApi.handlerCreate`,
`Status = "hacker"` gives 400 `Status must be one of [user|moderator|admin]`
and `Status = "admin"` never gets that answer. -/
theorem C5_enum_switch (out F ty s : String) (ls : List String) (p : Params)
    (hF : plainText F = true)
    (hne : ls ≠ []) (hplain : ∀ l ∈ ls, plainText l = true) (hdup : ls.Nodup)
    (hpipe : ∀ l ∈ ls, '|' ∉ l.data) (hcomma : ∀ l ∈ ls, ',' ∉ l.data)
    (hp : p.field F = some (.str s))
    (decode : String → Option CreateParams) (Create : CreateParams → Except String String)
    (r : Request) (params : CreateParams)
    (hAuth : r.Authorization = some "100500") (hDec : decode r.Body = some params)
    (hLogin : 10 ≤ len params.Login) :
    validationChecks [⟨F, ty, parseTag ("enum=" ++ pipeJoin ls)⟩]
      = [.switchFail F ls (F ++ " must be one of [" ++ pipeJoin ls ++ "]")]
    ∧ generateValidation out [⟨F, ty, parseTag ("enum=" ++ pipeJoin ls)⟩]
      = out ++ (("\tswitch params." ++ F ++ " \x7b\n") ++ renderCases ls ++ "\tdefault:\n"
          ++ renderFail (F ++ " must be one of [" ++ pipeJoin ls ++ "]"))
    ∧ execStmts p (validationChecks [⟨F, ty, parseTag ("enum=" ++ pipeJoin ls)⟩])
        = (if s ∈ ls then .next
           else .halt (failEvents (F ++ " must be one of [" ++ pipeJoin ls ++ "]")))
    ∧ (params.Status = "hacker" → MyApi.handlerCreate decode Create r
        = [.decodeBody "CreateParams", .writeHeader 400,
           .encodeError 400 "Status must be one of [user|moderator|admin]"])
    ∧ (params.Status = "admin" →
        .encodeError 400 "Status must be one of [user|moderator|admin]"
          ∉ MyApi.handlerCreate decode Create r) := by
  have hv : validationChecks [⟨F, ty, parseTag ("enum=" ++ pipeJoin ls)⟩]
      = [.switchFail F ls (F ++ " must be one of [" ++ pipeJoin ls ++ "]")] := by
    simp [validationChecks, fieldChecks_enum F ty (pipeJoin ls) (pipeJoin_no_comma ls hcomma),
      Split_pipeJoin ls hne hpipe]
  have hmsg : errorText (F ++ " must be one of [" ++ pipeJoin ls ++ "]")
      = some (F ++ " must be one of [" ++ pipeJoin ls ++ "]") := by
    apply errorText_plain
    rw [plainText_append, plainText_append, plainText_append, hF, plainText_pipeJoin ls hplain]
    rfl
  have hcases := caseValues_plain ls hplain hdup
  have hcred : (r.headerAuthorization != "100500") = false := by
    simp [Request.headerAuthorization, hAuth]
  have hlog : ¬ (len params.Login < 10) := by omega
  refine ⟨hv, ?_, ?_, ?_, ?_⟩
  · rw [generateValidation_eq_render, hv]
    simp only [renderStmts, renderStmt, String.append_empty, String.empty_append]
  · rw [hv]
    by_cases h : s ∈ ls <;> simp [execStmts, Stmt.exec, hp, h, hmsg, hcases]
  · intro hS
    simp [MyApi.handlerCreate, hcred, hDec, hlog, hS]
  · intro hS
    have hst : (!(params.Status == "user" || params.Status == "moderator"
        || params.Status == "admin")) = false := by simp [hS]
    simp only [MyApi.handlerCreate, hcred, hDec, hlog, hst]
    split_ifs <;> first | simp | (cases Create params <;> simp)

/-- Instance of C5 (amended) on the field `Status` with
`enum=user|moderator|admin` and the value `hacker`. -/
theorem C5_enum_switch_witness :
    plainText "Status" = true
    ∧ ["user", "moderator", "admin"] ≠ ([] : List String)
    ∧ (∀ l ∈ ["user", "moderator", "admin"], plainText l = true)
    ∧ ["user", "moderator", "admin"].Nodup
    ∧ (∀ l ∈ ["user", "moderator", "admin"], '|' ∉ l.data)
    ∧ (∀ l ∈ ["user", "moderator", "admin"], ',' ∉ l.data)
    ∧ Params.field [("Status", .str "hacker")] "Status" = some (.str "hacker")
    ∧ sampleRequest.Authorization = some "100500"
    ∧ pipeJoin ["user", "moderator", "admin"] = "user|moderator|admin"
    ∧ execStmts [("Status", .str "hacker")]
        (validationChecks [⟨"Status", "string", parseTag ("enum=" ++ pipeJoin ["user", "moderator", "admin"])⟩])
        = (if "hacker" ∈ ["user", "moderator", "admin"] then .next
           else .halt (failEvents ("Status" ++ " must be one of ["
                  ++ pipeJoin ["user", "moderator", "admin"] ++ "]")))
    ∧ MyApi.handlerCreate (fun _ => some ⟨"0123456789", "hacker", 50⟩) (fun _ => .ok "ok")
        sampleRequest
        = [.decodeBody "CreateParams", .writeHeader 400,
           .encodeError 400 "Status must be one of [user|moderator|admin]"] :=
  have h := C5_enum_switch "" "Status" "string" "hacker" ["user", "moderator", "admin"]
    [("Status", .str "hacker")] (by decide) (by decide) (by decide) (by decide) (by decide)
    (by decide) (by decide)
    (fun _ => some ⟨"0123456789", "hacker", 50⟩) (fun _ => .ok "ok") sampleRequest
    ⟨"0123456789", "hacker", 50⟩ (by decide) rfl (by decide)
  ⟨by decide, by decide, by decide, by decide, by decide, by decide, by decide, by decide,
    by decide, h.2.2.1, h.2.2.2.1 rfl⟩

end Codegen

namespace Codegen

set_option maxRecDepth 100000 in
/-- C6 (counterexample): the checks do not follow the order of the tokens.  A
string field tagged `max=5,min=1` gets its min check first and its max check
second, and one tagged `enum=a|b,min=1` gets its min check before its enum
check. -/
theorem C6_counterexample_token_order :
    validationChecks [⟨"F", "string", parseTag "max=5,min=1"⟩]
      = [.ifFail (.lenLt "F" "1") "F length must be >= 1",
         .ifFail (.lenGt "F" "5") "F length must be <= 5"]
    ∧ validationChecks [⟨"F", "string", parseTag "enum=a|b,min=1"⟩]
      = [.ifFail (.lenLt "F" "1") "F length must be >= 1",
         .switchFail "F" ["a", "b"] "F must be one of [a|b]"]
    ∧ generateValidation "" [⟨"F", "string", parseTag "max=5,min=1"⟩]
      = renderStmt (.ifFail (.lenLt "F" "1") "F length must be >= 1")
          ++ renderStmt (.ifFail (.lenGt "F" "5") "F length must be <= 5")
    ∧ generateValidation "" [⟨"F", "string", parseTag "max=5,min=1"⟩]
      = generateValidation "" [⟨"F", "string", parseTag "min=1,max=5"⟩] := by
  refine ⟨by decide, by decide, by decide, by decide⟩

/-- C6 (amended): for every field and every constraint string, the checks
written by `generateValidation` are the field's required, min, max and enum
checks in this fixed order (at most one of each kind), whatever the order of
the tokens in the string. -/
theorem C6_fixed_check_order (out name ty tag : String) :
    generateValidation out [⟨name, ty, parseTag tag⟩]
      = out ++ renderStmts (fieldChecks ⟨name, ty, parseTag tag⟩)
    ∧ fieldChecks ⟨name, ty, parseTag tag⟩
      = requiredChecks ⟨name, ty, parseTag tag⟩ ++ minChecks ⟨name, ty, parseTag tag⟩
          ++ maxChecks ⟨name, ty, parseTag tag⟩ ++ enumChecks ⟨name, ty, parseTag tag⟩
    ∧ ((fieldChecks ⟨name, ty, parseTag tag⟩).map Stmt.rank).Pairwise (fun i j => i < j) := by
  refine ⟨?_, ?_, ?_⟩
  · rw [generateValidation_eq_render]
    simp [validationChecks]
  · simp [fieldChecks]
  · unfold fieldChecks requiredChecks minChecks maxChecks enumChecks
    cases (parseTag tag).lookup "min" <;> cases (parseTag tag).lookup "max" <;>
      cases (parseTag tag).lookup "enum" <;> simp only [] <;> split_ifs <;>
      simp [Stmt.rank]

theorem execStmts_append (p : Params) (xs ys : List Stmt) :
    execStmts p (xs ++ ys)
      = (match execStmts p xs with
         | .next => execStmts p ys
         | r => r) := by
  induction xs with
  | nil => simp [execStmts]
  | cons x xs ih =>
    simp only [List.cons_append, execStmts]
    cases hx : x.exec p <;> simp [ih]

theorem validationChecks_append (xs ys : List Field) :
    validationChecks (xs ++ ys) = validationChecks xs ++ validationChecks ys := by
  induction xs with
  | nil => simp [validationChecks]
  | cons x xs ih => simp [validationChecks, ih]

/-- C7: on every request to `MyApi.handlerCreate` that passes the credential
check and decodes, the answer is the 400 of the first failing check in the
order Login length, Status enum, Age lower bound, Age upper bound, and nothing
else is written; a too short `Login` gives the `Login` message whatever
`Status` and `Age` are; `Create` is called exactly when no check fails.  For
the checks written by `generateValidation` in general, the checks of later
fields run only if those of earlier fields all fall through. -/
theorem C7_first_failure_wins (decode : String → Option CreateParams)
    (Create : CreateParams → Except String String) (r : Request) (params : CreateParams)
    (hAuth : r.Authorization = some "100500") (hDec : decode r.Body = some params) :
    MyApi.handlerCreate decode Create r
      = (match firstFailureSpec params with
         | some msg => [.decodeBody "CreateParams", .writeHeader 400, .encodeError 400 msg]
         | none =>
           match Create params with
           | .error err =>
             [.decodeBody "CreateParams", .call "Create", .writeHeader 500, .encodeError 500 err]
           | .ok result =>
             [.decodeBody "CreateParams", .call "Create",
              .setHeader "Content-Type" "application/json", .encodeResult result])
    ∧ (len params.Login < 10 → MyApi.handlerCreate decode Create r
        = [.decodeBody "CreateParams", .writeHeader 400,
           .encodeError 400 "Login length must be >= 10"])
    ∧ (.call "Create" ∈ MyApi.handlerCreate decode Create r ↔ firstFailureSpec params = none)
    ∧ (firstFailureSpec params = none ↔
        (10 ≤ len params.Login ∧ params.Status ∈ ["user", "moderator", "admin"]
          ∧ 0 ≤ params.Age ∧ params.Age ≤ 128))
    ∧ (∀ (p : Params) (fs1 fs2 : List Field),
        execStmts p (validationChecks (fs1 ++ fs2))
          = (match execStmts p (validationChecks fs1) with
             | .next => execStmts p (validationChecks fs2)
             | res => res)) := by
  have hcred : (r.headerAuthorization != "100500") = false := by
    simp [Request.headerAuthorization, hAuth]
  have hmain : MyApi.handlerCreate decode Create r
      = (match firstFailureSpec params with
         | some msg => [.decodeBody "CreateParams", .writeHeader 400, .encodeError 400 msg]
         | none =>
           match Create params with
           | .error err =>
             [.decodeBody "CreateParams", .call "Create", .writeHeader 500, .encodeError 500 err]
           | .ok result =>
             [.decodeBody "CreateParams", .call "Create",
              .setHeader "Content-Type" "application/json", .encodeResult result]) := by
    simp only [MyApi.handlerCreate, hcred, hDec, firstFailureSpec, createChecksSpec]
    by_cases h1 : len params.Login < 10
    · simp [h1]
    · by_cases hS : params.Status = "user" ∨ params.Status = "moderator"
          ∨ params.Status = "admin"
      · by_cases h3 : params.Age < 0
        · rcases hS with h | h | h <;> simp [h1, h, h3]
        · by_cases h4 : params.Age > 128
          · rcases hS with h | h | h <;> simp [h1, h, h3, h4]
          · rcases hS with h | h | h <;> simp [h1, h, h3, h4]
      · simp only [not_or] at hS
        obtain ⟨ha, hb, hc⟩ := hS
        simp [h1, ha, hb, hc]
  have hnone : firstFailureSpec params = none ↔
        (10 ≤ len params.Login ∧ params.Status ∈ ["user", "moderator", "admin"]
          ∧ 0 ≤ params.Age ∧ params.Age ≤ 128) := by
    simp only [firstFailureSpec, createChecksSpec, Option.map_eq_none', List.find?_eq_none]
    simp
    intro _ _ _
    by_cases ha : params.Status = "user" <;> by_cases hb : params.Status = "moderator" <;>
      simp [ha, hb]
  refine ⟨hmain, ?_, ?_, hnone, ?_⟩
  · intro h1
    simp [MyApi.handlerCreate, hcred, hDec, h1]
  · rw [hmain]
    cases hf : firstFailureSpec params with
    | none => cases Create params <;> simp
    | some msg => simp
  · intro p fs1 fs2
    rw [validationChecks_append, execStmts_append]

/-- Instance of C7 on a record whose `Login`, `Status` and `Age` all violate
their constraints: only the `Login` message is written. -/
theorem C7_first_failure_wins_witness :
    sampleRequest.Authorization = some "100500"
    ∧ len "short" < 10
    ∧ MyApi.handlerCreate (fun _ => some ⟨"short", "hacker", 200⟩) (fun _ => .ok "ok")
        sampleRequest
        = [.decodeBody "CreateParams", .writeHeader 400,
           .encodeError 400 "Login length must be >= 10"] :=
  ⟨by decide, by decide,
    (C7_first_failure_wins (fun _ => some ⟨"short", "hacker", 200⟩) (fun _ => .ok "ok")
      sampleRequest ⟨"short", "hacker", 200⟩ (by decide) rfl).2.1 (by decide)⟩

end Codegen

namespace Codegen

theorem generateServeHTTP_branches (specs : List ApiSpec) (out : String) :
    specs.foldl generateServeHTTPBranch out = out ++ branchesText specs := by
  induction specs generalizing out with
  | nil => simp [branchesText]
  | cons spec rest ih =>
    simp only [List.foldl_cons, ih, branchesText, generateServeHTTPBranch, branchText,
      String.append_assoc]

theorem generateServeHTTP_eq (out structName : String) (specs : List ApiSpec) :
    generateServeHTTP out structName specs
      = out ++ routerHeadText structName ++ branchesText specs ++ notFoundText := by
  simp only [generateServeHTTP, generateServeHTTP_branches, routerHeadText, notFoundText,
    String.append_assoc]
  rfl

/-! ## The router on specs that denote themselves -/

theorem literalSpecs_cons (spec : ApiSpec) (rest : List ApiSpec) :
    literalSpecs (spec :: rest) = true ↔
      (goStringLit spec.Method = some spec.Method ∧ goStringLit spec.URL = some spec.URL)
        ∧ literalSpecs rest = true := by
  simp [literalSpecs]

theorem literalSpecs_append (xs ys : List ApiSpec) :
    literalSpecs (xs ++ ys) = (literalSpecs xs && literalSpecs ys) := by
  simp [literalSpecs, List.all_append]

theorem routerWellFormed_of_literal (specs : List ApiSpec) (h : literalSpecs specs = true) :
    routerWellFormed specs = true := by
  induction specs with
  | nil => rfl
  | cons spec rest ih =>
    obtain ⟨⟨hm, hu⟩, hrest⟩ := (literalSpecs_cons spec rest).1 h
    have h2 := ih hrest
    simp only [routerWellFormed, List.all_cons, Bool.and_eq_true] at h2 ⊢
    exact ⟨⟨by rw [hm]; rfl, by rw [hu]; rfl⟩, h2⟩

theorem dispatchServeHTTP_literal (handler : String → Request → Option (List Event))
    (specs : List ApiSpec) (r : Request) (h : literalSpecs specs = true) :
    dispatchServeHTTP handler specs r
      = (match specs.find? (fun s => r.Method == s.Method && r.Path == s.URL) with
         | some s => (handler s.MethodName r).map (fun events => .dispatch s.MethodName :: events)
         | none => some (notFoundEvents r)) := by
  induction specs with
  | nil => rfl
  | cons s rest ih =>
    obtain ⟨⟨hm, hu⟩, hrest⟩ := (literalSpecs_cons s rest).1 h
    simp only [dispatchServeHTTP, hm, hu, List.find?_cons]
    cases hc : (r.Method == s.Method && r.Path == s.URL)
    · simp only [Bool.false_eq_true, if_false, ih hrest]
    · simp

theorem execServeHTTP_find (handler : String → Request → Option (List Event))
    (specs : List ApiSpec) (r : Request) (h : literalSpecs specs = true) :
    execServeHTTP handler specs r
      = (match specs.find? (fun s => r.Method == s.Method && r.Path == s.URL) with
         | some s => (handler s.MethodName r).map (fun events => .dispatch s.MethodName :: events)
         | none => some (notFoundEvents r)) := by
  rw [execServeHTTP, routerWellFormed_of_literal specs h, if_pos rfl]
  exact dispatchServeHTTP_literal handler specs r h

theorem execServeHTTP_unmatched (handler : String → Request → Option (List Event))
    (specs : List ApiSpec) (r : Request) (h : literalSpecs specs = true)
    (hno : ∀ spec ∈ specs, ¬ (r.Method = spec.Method ∧ r.Path = spec.URL)) :
    execServeHTTP handler specs r = some (notFoundEvents r) := by
  have hnone : specs.find? (fun s => r.Method == s.Method && r.Path == s.URL) = none := by
    rw [List.find?_eq_none]
    intro s hs
    simpa using hno s hs
  rw [execServeHTTP_find handler specs r h, hnone]

theorem execServeHTTP_first (handler : String → Request → Option (List Event))
    (before rest : List ApiSpec) (spec : ApiSpec) (r : Request)
    (h : literalSpecs (before ++ spec :: rest) = true)
    (hbefore : ∀ s ∈ before, ¬ (r.Method = s.Method ∧ r.Path = s.URL))
    (hmatch : r.Method = spec.Method ∧ r.Path = spec.URL) :
    execServeHTTP handler (before ++ spec :: rest) r
      = (handler spec.MethodName r).map (fun events => .dispatch spec.MethodName :: events) := by
  have hsome : (before ++ spec :: rest).find? (fun s => r.Method == s.Method && r.Path == s.URL)
      = some spec := by
    induction before with
    | nil => simp [List.find?_cons, hmatch.1, hmatch.2]
    | cons b more ih =>
      have hb : (r.Method == b.Method && r.Path == b.URL) = false := by
        simpa using hbefore b (by simp)
      have h2 : literalSpecs (more ++ spec :: rest) = true :=
        ((literalSpecs_cons b (more ++ spec :: rest)).1 h).2
      simp only [List.cons_append, List.find?_cons, hb]
      exact ih h2 (fun s hs => hbefore s (List.mem_cons_of_mem _ hs))
  rw [execServeHTTP_find handler _ r h, hsome]

/-- C8 fails as stated: the branch compares with the string that the pasted
`URL` denotes as a Go string literal, not with the `URL` itself.  The router
written for the one spec (POST, `/a\tb` with a backslash and a `t`) dispatches
the request (POST, `/a`, TAB, `b`), whose pair equals no spec's pair by string
equality. -/
theorem C8_counterexample_escaped_url :
    (∀ spec ∈ [escapedSpec], ¬ (tabRequest.Method = spec.Method ∧ tabRequest.Path = spec.URL))
    ∧ generateServeHTTP "" "Api" [escapedSpec]
      = routerHeadText "Api"
          ++ ("\tif r.Method == \"POST\" && r.URL.Path == \"/a\\tb\" \x7b\n"
              ++ "\t\th.handlerFirst(w, r)\n" ++ "\t\treturn\n" ++ "\t\x7d\n")
          ++ notFoundText
    ∧ execServeHTTP (fun m _ => some [.call m]) [escapedSpec] tabRequest
      = some [.dispatch "First", .call "First"]
    ∧ execServeHTTP (fun m _ => some [.call m]) [escapedSpec] tabRequest
      ≠ some [.writeHeader 404, .encodeError 404 "unknown method POST on /a\tb"] := by
  refine ⟨by decide, ?_, by decide, by decide⟩
  rw [generateServeHTTP_eq]
  rfl

/-- C8 (amended): for every list of specs whose `Method` and `URL` denote
themselves when pasted between quotes (no quote, backslash or line break in
them) and every request whose (verb, path) equals no spec's (Method, URL), the
router written by `generateServeHTTP` (its branches followed by the 404
answer) calls no handler and performs exactly `WriteHeader(404)` and the
encoding of the error `unknown method <verb> on <path>`; for the request
(POST, /user/create) the message is `unknown method POST on /user/create`;
`MyApi.ServeHTTP` and `OtherApi.ServeHTTP` answer so on every request that
matches none of their branches. -/
theorem C8_unmatched_request_gets_404 (handler : String → Request → Option (List Event))
    (out structName : String) (specs : List ApiSpec) (r : Request)
    (hlit : literalSpecs specs = true)
    (hno : ∀ spec ∈ specs, ¬ (r.Method = spec.Method ∧ r.Path = spec.URL)) :
    generateServeHTTP out structName specs
      = out ++ routerHeadText structName ++ branchesText specs ++ notFoundText
    ∧ execServeHTTP handler specs r
      = some [.writeHeader 404,
              .encodeError 404 ("unknown method " ++ r.Method ++ " on " ++ r.Path)]
    ∧ (r.Method = "POST" → r.Path = "/user/create" →
        execServeHTTP handler specs r
          = some [.writeHeader 404, .encodeError 404 "unknown method POST on /user/create"])
    ∧ (∀ hp hc : Request → List Event,
        ¬ (r.Method = "" ∧ r.Path = "/user/profile") →
        ¬ (r.Method = "POST" ∧ r.Path = "/user/create") →
        MyApi.ServeHTTP hp hc r
          = [.writeHeader 404,
             .encodeError 404 ("unknown method " ++ r.Method ++ " on " ++ r.Path)])
    ∧ (∀ hc : Request → List Event,
        ¬ (r.Method = "POST" ∧ r.Path = "/user/create") →
        OtherApi.ServeHTTP hc r
          = [.writeHeader 404,
             .encodeError 404 ("unknown method " ++ r.Method ++ " on " ++ r.Path)]) := by
  have hexec : execServeHTTP handler specs r
      = some [.writeHeader 404,
              .encodeError 404 ("unknown method " ++ r.Method ++ " on " ++ r.Path)] :=
    execServeHTTP_unmatched handler specs r hlit hno
  refine ⟨generateServeHTTP_eq out structName specs, hexec, ?_, ?_, ?_⟩
  · intro hm hp
    rw [hexec, hm, hp]
    rfl
  · intro hp hc h1 h2
    have h1' : (r.Method == "" && r.Path == "/user/profile") = false := by simpa using h1
    have h2' : (r.Method == "POST" && r.Path == "/user/create") = false := by simpa using h2
    simp only [MyApi.ServeHTTP, h1', h2']
    simp
  · intro hc h2
    have h2' : (r.Method == "POST" && r.Path == "/user/create") = false := by simpa using h2
    simp only [OtherApi.ServeHTTP, h2']
    simp

/-- Instance of C8 (amended) on a router that registers only the profile route
and the request (POST, /user/create). -/
theorem C8_unmatched_request_gets_404_witness :
    literalSpecs [profileSpec] = true
    ∧ (∀ spec ∈ [profileSpec], ¬ (sampleRequest.Method = spec.Method ∧ sampleRequest.Path = spec.URL))
    ∧ execServeHTTP (fun _ _ => some []) [profileSpec] sampleRequest
      = some [.writeHeader 404, .encodeError 404 "unknown method POST on /user/create"] :=
  ⟨by decide, by decide,
    (C8_unmatched_request_gets_404 (fun _ _ => some []) "" "MyApi" [profileSpec] sampleRequest
      (by decide) (by decide)).2.2.1 rfl rfl⟩

end Codegen

namespace Codegen

/-! ## The run of `main` -/

theorem genForSpec_out (lib : GoLib) (structName methodName : String) (apiSpec : ApiSpec)
    (paramType : String) (st : GenState) (spec : Spec) :
    ∃ w, (genForSpec lib structName methodName apiSpec paramType st spec).out = st.out ++ w := by
  unfold genForSpec
  split
  · split_ifs
    · exact ⟨_, generateHandler_eq_render _ _ _ _ _ _⟩
    · exact ⟨"", by simp⟩
  · exact ⟨"", by simp⟩

theorem foldl_out_grows {α : Type} (f : GenState → α → GenState)
    (hf : ∀ st x, ∃ w, (f st x).out = st.out ++ w) (xs : List α) (st : GenState) :
    ∃ w, (xs.foldl f st).out = st.out ++ w := by
  induction xs generalizing st with
  | nil => exact ⟨"", by simp⟩
  | cons x xs ih =>
    obtain ⟨w1, h1⟩ := hf st x
    obtain ⟨w2, h2⟩ := ih (f st x)
    exact ⟨w1 ++ w2, by simp only [List.foldl_cons, h2, h1, String.append_assoc]⟩

theorem genForDecl_out (lib : GoLib) (structName methodName : String) (apiSpec : ApiSpec)
    (paramType : String) (st : GenState) (decl : Decl) :
    ∃ w, (genForDecl lib structName methodName apiSpec paramType st decl).out = st.out ++ w := by
  unfold genForDecl
  split
  · exact foldl_out_grows _ (genForSpec_out lib structName methodName apiSpec paramType) _ st
  · exact ⟨"", by simp⟩

theorem processFunc_out (lib : GoLib) (node : AstFile) (st st2 : GenState) (fn : FuncDecl)
    (h : processFunc lib node st fn = .ok st2) : ∃ w, st2.out = st.out ++ w := by
  unfold processFunc at h
  split at h
  · cases h; exact ⟨"", by simp⟩
  · split_ifs at h
    · split at h
      · cases h
      · split at h
        · cases h
        · split at h
          · split at h
            · cases h
              exact foldl_out_grows _ (genForDecl_out lib _ _ _ _) _ st
            · cases h
          · cases h
    · cases h; exact ⟨"", by simp⟩

theorem runDecls_out (lib : GoLib) (node : AstFile) (decls : List Decl) (st : GenState) :
    ∃ w, (runDecls lib node st decls).1.out = st.out ++ w := by
  induction decls generalizing st with
  | nil => exact ⟨"", by simp [runDecls]⟩
  | cons d rest ih =>
    cases d with
    | funcDecl fn =>
      simp only [runDecls]
      cases hp : processFunc lib node st fn with
      | error a => exact ⟨"", by simp⟩
      | ok st2 =>
        obtain ⟨w1, h1⟩ := processFunc_out lib node st st2 fn hp
        obtain ⟨w2, h2⟩ := ih st2
        exact ⟨w1 ++ w2, by simp only [h2, h1, String.append_assoc]⟩
    | genDecl specs => simpa [runDecls] using ih st
    | badDecl => simpa [runDecls] using ih st

theorem runDecls_append (lib : GoLib) (node : AstFile) (xs ys : List Decl) (st : GenState) :
    runDecls lib node st (xs ++ ys)
      = (match runDecls lib node st xs with
         | (st2, none) => runDecls lib node st2 ys
         | res => res) := by
  induction xs generalizing st with
  | nil => simp [runDecls]
  | cons d rest ih =>
    cases d with
    | funcDecl fn =>
      simp only [List.cons_append, runDecls]
      cases hp : processFunc lib node st fn with
      | error a => simp
      | ok st2 => simpa using ih st2
    | genDecl specs => simpa [runDecls] using ih st
    | badDecl => simpa [runDecls] using ih st

theorem genForDecls_undeclared (lib : GoLib) (structName methodName : String) (apiSpec : ApiSpec)
    (paramType : String) (decls : List Decl) (st : GenState)
    (h : ∀ specs, Decl.genDecl specs ∈ decls →
      ∀ fields, Spec.typeSpec paramType (.structType fields) ∉ specs) :
    decls.foldl (genForDecl lib structName methodName apiSpec paramType) st = st := by
  induction decls generalizing st with
  | nil => rfl
  | cons d rest ih =>
    have hrest := ih st (fun specs hs => h specs (List.mem_cons_of_mem _ hs))
    have hd : genForDecl lib structName methodName apiSpec paramType st d = st := by
      cases d with
      | funcDecl fn => rfl
      | badDecl => rfl
      | genDecl specs =>
        have hs := h specs (by simp)
        simp only [genForDecl]
        clear hrest ih h
        induction specs generalizing st with
        | nil => rfl
        | cons sp more ih2 =>
          have hsp : genForSpec lib structName methodName apiSpec paramType st sp = st := by
            unfold genForSpec
            split
            · rename_i name fields
              split_ifs with hname
              · exact absurd (by simp [hname]) (hs fields)
              · rfl
            · rfl
          simp only [List.foldl_cons, hsp]
          exact ih2 st (fun fields hm => hs fields (List.mem_cons_of_mem _ hm))
    simp only [List.foldl_cons, hd, hrest]

set_option maxRecDepth 20000 in
/-- C9 (counterexample): on a file whose first annotated method takes the
undeclared type `GhostParams`, the run ends normally, and the output holds the
handler and the router entry of the later, valid method `Create` and nothing
for `Ghost`. -/
theorem C9_counterexample_no_fatal :
    (main sampleLib sampleFileUndeclared).exit = none
    ∧ (main sampleLib sampleFileUndeclared).file
      = fileHeader sampleFileUndeclared
          ++ generateHandler "" "MyApi" "Create" createSpec "CreateParams" sampleFields
          ++ generateServeHTTP "" "MyApi" [createSpec] := by
  have h : main sampleLib sampleFileUndeclared
      = ⟨fileHeader sampleFileUndeclared
          ++ generateHandler "" "MyApi" "Create" createSpec "CreateParams" sampleFields
          ++ generateServeHTTP "" "MyApi" [createSpec], none⟩ := by rfl
  rw [h]
  exact ⟨rfl, rfl⟩

/-- C9 (amended): for every annotated function whose payload decodes, whose
receiver is a pointer to a named type and whose second parameter names a type
for which the file declares no struct, the run does not fail on it: the
function leaves the output and the handler table unchanged (no handler, no
router entry) and the run goes on with the remaining declarations. -/
theorem C9_undeclared_param_type_is_skipped (lib : GoLib) (node : AstFile) (st : GenState)
    (fn : FuncDecl) (doc structName paramType : String) (apiSpec : ApiSpec)
    (first second : AstField) (others : List AstField) (remaining : List Decl)
    (hdoc : fn.Doc = some doc) (hmark : strings.HasPrefix doc "apigen:api" = true)
    (hjson : lib.jsonUnmarshal (strings.TrimPrefix doc "apigen:api ") = .ok apiSpec)
    (hrecv : receiverName fn = some structName)
    (hparams : fn.Params = first :: second :: others)
    (htype : second.Type_ = .ident paramType)
    (hundeclared : ∀ specs, Decl.genDecl specs ∈ node.Decls →
      ∀ fields, Spec.typeSpec paramType (.structType fields) ∉ specs) :
    processFunc lib node st fn = .ok st
    ∧ runDecls lib node st (.funcDecl fn :: remaining) = runDecls lib node st remaining := by
  have h : processFunc lib node st fn = .ok st := by
    unfold processFunc
    simp only [hdoc, hmark, if_true, hjson, hrecv, hparams, htype]
    rw [genForDecls_undeclared lib structName fn.Name _ paramType node.Decls st hundeclared]
  exact ⟨h, by simp only [runDecls, h]⟩

/-- Instance of C9 on the sample method `Ghost`. -/
theorem C9_undeclared_param_type_is_skipped_witness :
    sampleGhostFunc.Doc = some sampleDoc
    ∧ strings.HasPrefix sampleDoc "apigen:api" = true
    ∧ receiverName sampleGhostFunc = some "MyApi"
    ∧ processFunc sampleLib sampleFileUndeclared ⟨"", []⟩ sampleGhostFunc = .ok ⟨"", []⟩ :=
  ⟨rfl, by decide, by decide,
    (C9_undeclared_param_type_is_skipped sampleLib sampleFileUndeclared ⟨"", []⟩ sampleGhostFunc
      sampleDoc "MyApi" "GhostParams"
      { URL := "/user/create", Auth := true, Method := "POST", MethodName := "" }
      sampleCtx { Names := ["in"], Type_ := .ident "GhostParams", Tag := none } [] []
      rfl (by decide) (by rfl) (by decide) rfl rfl
      (by
        intro specs hmem fields hin
        simp only [sampleFileUndeclared, sampleStructDecl, List.mem_cons, List.mem_singleton,
          Decl.genDecl.injEq, List.not_mem_nil, or_false, false_or, reduceCtorEq] at hmem
        subst hmem
        simp at hin)).1⟩

end Codegen

namespace Codegen

/-! ## What a run of `main` writes -/

theorem generateHandler_out (out structName methodName : String) (spec : ApiSpec)
    (paramType : String) (fields : List Field) :
    generateHandler out structName methodName spec paramType fields
      = out ++ generateHandler "" structName methodName spec paramType fields := by
  rw [generateHandler_eq_render, generateHandler_eq_render "", String.empty_append]

theorem generateServeHTTP_out (out structName : String) (specs : List ApiSpec) :
    generateServeHTTP out structName specs = out ++ generateServeHTTP "" structName specs := by
  rw [generateServeHTTP_eq, generateServeHTTP_eq ""]
  simp only [String.append_assoc, String.empty_append]

theorem genForSpecs_eq (lib : GoLib) (structName methodName : String) (apiSpec : ApiSpec)
    (paramType : String) (specs : List Spec) (st : GenState) :
    specs.foldl (genForSpec lib structName methodName apiSpec paramType) st
      = ((specStructs paramType specs).map (fun fields =>
          ({ structName := structName, methodName := methodName, spec := apiSpec,
             paramType := paramType,
             fields := parseStructFields lib.structTagGet fields } : HandlerEntry))).foldl
          addEntry st := by
  induction specs generalizing st with
  | nil => rfl
  | cons sp rest ih =>
    simp only [List.foldl_cons]
    rw [ih]
    cases sp with
    | other => simp [genForSpec, specStructs]
    | typeSpec name ty =>
      cases ty with
      | other => simp [genForSpec, specStructs]
      | structType fields =>
        by_cases h : name = paramType
        · simp [genForSpec, specStructs, h, addEntry]
        · simp [genForSpec, specStructs, h]

theorem genForDecls_eq (lib : GoLib) (structName methodName : String) (apiSpec : ApiSpec)
    (paramType : String) (decls : List Decl) (st : GenState) :
    decls.foldl (genForDecl lib structName methodName apiSpec paramType) st
      = ((declStructs paramType decls).map (fun fields =>
          ({ structName := structName, methodName := methodName, spec := apiSpec,
             paramType := paramType,
             fields := parseStructFields lib.structTagGet fields } : HandlerEntry))).foldl
          addEntry st := by
  induction decls generalizing st with
  | nil => rfl
  | cons d rest ih =>
    simp only [List.foldl_cons]
    rw [ih]
    cases d with
    | funcDecl fn => simp [genForDecl, declStructs]
    | badDecl => simp [genForDecl, declStructs]
    | genDecl specs =>
      simp only [genForDecl, declStructs, List.map_append, List.foldl_append, genForSpecs_eq]

theorem processFunc_ok_eq (lib : GoLib) (node : AstFile) (st st2 : GenState) (fn : FuncDecl)
    (h : processFunc lib node st fn = .ok st2) :
    st2 = (funcEntries lib node fn).foldl addEntry st := by
  unfold processFunc at h
  unfold funcEntries funcInfo
  cases hdoc : fn.Doc with
  | none =>
    rw [hdoc] at h
    cases h
    rfl
  | some doc =>
    rw [hdoc] at h
    simp only [] at h ⊢
    by_cases hmark : strings.HasPrefix doc "apigen:api" = true
    · rw [if_pos hmark] at h
      rw [if_pos hmark]
      cases hjson : lib.jsonUnmarshal (strings.TrimPrefix doc "apigen:api ") with
      | error err =>
        rw [hjson] at h
        cases h
      | ok apiSpec =>
        rw [hjson] at h
        simp only [] at h ⊢
        cases hrecv : receiverName fn with
        | none =>
          rw [hrecv] at h
          cases h
        | some structName =>
          rw [hrecv] at h
          simp only [] at h ⊢
          cases hparams : fn.Params with
          | nil =>
            rw [hparams] at h
            cases h
          | cons a rest1 =>
            cases rest1 with
            | nil =>
              rw [hparams] at h
              cases h
            | cons p rest2 =>
              rw [hparams] at h
              simp only [] at h ⊢
              cases htype : p.Type_ with
              | ident paramType =>
                rw [htype] at h
                simp only [Except.ok.injEq] at h ⊢
                rw [← h]
                exact genForDecls_eq lib structName fn.Name _ paramType node.Decls st
              | star x =>
                rw [htype] at h
                cases h
              | other =>
                rw [htype] at h
                cases h
    · rw [if_neg hmark] at h
      rw [if_neg hmark]
      cases h
      rfl

theorem runDecls_ok_eq (lib : GoLib) (node : AstFile) (decls : List Decl) (st st2 : GenState)
    (h : runDecls lib node st decls = (st2, none)) :
    st2 = (declsEntries lib node decls).foldl addEntry st := by
  induction decls generalizing st with
  | nil =>
    simp only [runDecls, Prod.mk.injEq, and_true] at h
    simp [declsEntries, h]
  | cons d rest ih =>
    cases d with
    | funcDecl fn =>
      simp only [runDecls] at h
      cases hp : processFunc lib node st fn with
      | error a => simp [hp] at h
      | ok st1 =>
        simp only [hp] at h
        have h1 := processFunc_ok_eq lib node st st1 fn hp
        have h2 := ih st1 h
        simp only [declsEntries, List.foldl_append, ← h1, h2]
    | genDecl specs =>
      simp only [runDecls] at h
      simpa [declsEntries] using ih st h
    | badDecl =>
      simp only [runDecls] at h
      simpa [declsEntries] using ih st h

theorem foldl_addEntry_out (es : List HandlerEntry) (st : GenState) :
    (es.foldl addEntry st).out = st.out ++ handlersText es := by
  induction es generalizing st with
  | nil => simp [handlersText]
  | cons e rest ih =>
    simp only [List.foldl_cons, ih, handlersText, addEntry]
    rw [generateHandler_out, String.append_assoc]

theorem foldl_addEntry_table (es : List HandlerEntry) (st : GenState) :
    (es.foldl addEntry st).apiHandlers
      = es.foldl (fun m e => appendSpec m e.structName e.spec) st.apiHandlers := by
  induction es generalizing st with
  | nil => rfl
  | cons e rest ih => simp only [List.foldl_cons, ih, addEntry]

theorem foldl_routers (rs : List (String × List ApiSpec)) (out : String) :
    rs.foldl (fun out e => generateServeHTTP out e.1 e.2) out = out ++ routersText rs := by
  induction rs generalizing out with
  | nil => simp [routersText]
  | cons r rest ih =>
    simp only [List.foldl_cons, ih, routersText]
    rw [generateServeHTTP_out, String.append_assoc]

theorem main_ok_eq (lib : GoLib) (node : AstFile) (h : (main lib node).exit = none) :
    (main lib node).file
      = fileHeader node ++ handlersText (declsEntries lib node node.Decls)
          ++ routersText (lib.mapRange (handlerTable (declsEntries lib node node.Decls))) := by
  unfold main at h ⊢
  cases hr : runDecls lib node { out := fileHeader node, apiHandlers := [] } node.Decls with
  | mk st ex =>
    cases ex with
    | some a => simp [hr] at h
    | none =>
      have hst := runDecls_ok_eq lib node node.Decls _ st hr
      simp only [hr, foldl_routers]
      rw [hst, foldl_addEntry_out, foldl_addEntry_table]
      rfl

theorem handlersText_eq_render (es : List HandlerEntry) :
    handlersText es = renderHandlers es := by
  induction es with
  | nil => rfl
  | cons e rest ih =>
    simp only [handlersText, renderHandlers, handlerText, ih, generateHandler_eq_render,
      String.empty_append]

theorem routersText_eq_render (rs : List (String × List ApiSpec)) :
    routersText rs = renderRouters rs := by
  induction rs with
  | nil => rfl
  | cons r rest ih =>
    simp only [routersText, renderRouters, routerText, ih, generateServeHTTP_eq,
      String.empty_append]

theorem main_ok_render (lib : GoLib) (node : AstFile) (h : (main lib node).exit = none) :
    (main lib node).file
      = fileHeader node ++ renderHandlers (declsEntries lib node node.Decls)
          ++ renderRouters (lib.mapRange (handlerTable (declsEntries lib node node.Decls))) := by
  rw [main_ok_eq lib node h, handlersText_eq_render, routersText_eq_render]

theorem main_failed_render (lib : GoLib) (node : AstFile) (before after : List Decl)
    (fn : FuncDecl) (st : GenState) (a : Abort)
    (hdecls : node.Decls = before ++ .funcDecl fn :: after)
    (hbefore : runDecls lib node ⟨fileHeader node, []⟩ before = (st, none))
    (hfail : processFunc lib node st fn = .error a) :
    main lib node
      = ⟨fileHeader node ++ renderHandlers (declsEntries lib node before), some a⟩ := by
  have hrun : runDecls lib node ⟨fileHeader node, []⟩ node.Decls = (st, some a) := by
    rw [hdecls, runDecls_append, hbefore]
    simp only [runDecls, hfail]
  have hst := runDecls_ok_eq lib node before _ st hbefore
  have hout : st.out = fileHeader node ++ renderHandlers (declsEntries lib node before) := by
    rw [hst, foldl_addEntry_out, handlersText_eq_render]
  simp only [main, hrun, hout]

end Codegen

namespace Codegen

/-- C10 (counterexample): on a file in which the valid method `Create` is
followed by a method whose payload breaks off, the run stops with a fatal
error and the output file holds the package clause, the import block and the
whole handler of `Create`. -/
theorem C10_counterexample_partial_output :
    (main sampleLib sampleFileBroken).exit
      = some (.fatal "Failed to parse apigen spec: unexpected end of JSON input")
    ∧ (main sampleLib sampleFileBroken).file
      = fileHeader sampleFileBroken
          ++ generateHandler "" "MyApi" "Create" createSpec "CreateParams" sampleFields
    ∧ (main sampleLib sampleFileBroken).file
      = "package main\n\n"
          ++ "import (\n\t\"context\"\n\t\"encoding/json\"\n\t\"net/http\"\n\t\"strings\"\n)\n\n"
          ++ renderHandler
              { structName := "MyApi", methodName := "Create", auth := true,
                paramType := "CreateParams",
                checks := [.ifFail (.lenLt "Login" "10") "Login length must be >= 10"] }
    ∧ (main sampleLib sampleFileBroken).file ≠ "" := by
  have h : main sampleLib sampleFileBroken
      = ⟨fileHeader sampleFileBroken
          ++ renderHandlers (declsEntries sampleLib sampleFileBroken
              [sampleStructDecl, .funcDecl sampleCreateFunc]),
         some (.fatal "Failed to parse apigen spec: unexpected end of JSON input")⟩ :=
    main_failed_render sampleLib sampleFileBroken [sampleStructDecl, .funcDecl sampleCreateFunc]
      [] sampleBrokenFunc
      ⟨fileHeader sampleFileBroken
          ++ generateHandler "" "MyApi" "Create" createSpec "CreateParams" sampleFields,
        [("MyApi", [createSpec])]⟩
      (.fatal "Failed to parse apigen spec: unexpected end of JSON input") rfl (by rfl) (by rfl)
  have he : declsEntries sampleLib sampleFileBroken [sampleStructDecl, .funcDecl sampleCreateFunc]
      = [⟨"MyApi", "Create", createSpec, "CreateParams", sampleFields⟩] := by decide
  have hc : validationChecks sampleFields
      = [.ifFail (.lenLt "Login" "10") "Login length must be >= 10"] := by decide
  rw [h, he]
  refine ⟨rfl, ?_, ?_, ?_⟩
  · simp only [renderHandlers, handlerText, generateHandler_eq_render, String.empty_append,
      String.append_empty]
  · simp only [renderHandlers, handlerText, handlerOf, hc, String.append_empty]
    rfl
  · intro h0
    have hlen := congrArg String.length h0
    simp only [fileHeader, String.length_append] at hlen
    have h8 : "package ".length = 8 := by decide
    omega

/-- C10 (amended): when the run stops at an annotated function (malformed
payload, unsupported or missing second parameter, or a receiver that is not a
pointer to a named type), the output file keeps everything written before and
nothing else: it is the package clause and import block followed by the
handlers of the functions declared before the failing one, in declaration
order, and holds no router. -/
theorem C10_failed_run_keeps_written_output (lib : GoLib) (node : AstFile)
    (before after : List Decl) (fn : FuncDecl) (st : GenState) (a : Abort)
    (hdecls : node.Decls = before ++ .funcDecl fn :: after)
    (hbefore : runDecls lib node ⟨fileHeader node, []⟩ before = (st, none))
    (hfail : processFunc lib node st fn = .error a) :
    main lib node = ⟨st.out, some a⟩
    ∧ (main lib node).exit = some a
    ∧ (main lib node).file
      = fileHeader node ++ renderHandlers (declsEntries lib node before)
    ∧ (main lib node).file ≠ "" := by
  have hmain := main_failed_render lib node before after fn st a hdecls hbefore hfail
  have hst := runDecls_ok_eq lib node before _ st hbefore
  have hout : st.out = fileHeader node ++ renderHandlers (declsEntries lib node before) := by
    rw [hst, foldl_addEntry_out, handlersText_eq_render]
  refine ⟨by rw [hmain, hout], by rw [hmain], by rw [hmain], ?_⟩
  rw [hmain]
  intro h
  have hlen := congrArg String.length h
  simp only [fileHeader, String.length_append] at hlen
  have h8 : "package ".length = 8 := by decide
  omega

/-- Instance of C10 (amended) on the sample file whose second method has a
payload that breaks off. -/
theorem C10_failed_run_keeps_written_output_witness :
    sampleFileBroken.Decls
      = [sampleStructDecl, .funcDecl sampleCreateFunc] ++ .funcDecl sampleBrokenFunc :: []
    ∧ runDecls sampleLib sampleFileBroken ⟨fileHeader sampleFileBroken, []⟩
        [sampleStructDecl, .funcDecl sampleCreateFunc]
      = (⟨fileHeader sampleFileBroken
            ++ generateHandler "" "MyApi" "Create" createSpec "CreateParams" sampleFields,
          [("MyApi", [createSpec])]⟩, none)
    ∧ processFunc sampleLib sampleFileBroken
        ⟨fileHeader sampleFileBroken
            ++ generateHandler "" "MyApi" "Create" createSpec "CreateParams" sampleFields,
          [("MyApi", [createSpec])]⟩ sampleBrokenFunc
        = .error (.fatal "Failed to parse apigen spec: unexpected end of JSON input")
    ∧ (main sampleLib sampleFileBroken).file
      = fileHeader sampleFileBroken
          ++ renderHandlers (declsEntries sampleLib sampleFileBroken
              [sampleStructDecl, .funcDecl sampleCreateFunc]) :=
  ⟨rfl, by rfl, by rfl,
    (C10_failed_run_keeps_written_output sampleLib sampleFileBroken
      [sampleStructDecl, .funcDecl sampleCreateFunc] [] sampleBrokenFunc
      ⟨fileHeader sampleFileBroken
          ++ generateHandler "" "MyApi" "Create" createSpec "CreateParams" sampleFields,
        [("MyApi", [createSpec])]⟩
      (.fatal "Failed to parse apigen spec: unexpected end of JSON input") rfl (by rfl)
      (by rfl)).2.2.1⟩

end Codegen

namespace Codegen

theorem sampleTwoOwners_entries (lib : GoLib) (h1 : lib.jsonUnmarshal = sampleLib.jsonUnmarshal)
    (h2 : lib.structTagGet = sampleLib.structTagGet) :
    declsEntries lib sampleFileTwoOwners sampleFileTwoOwners.Decls
      = [⟨"MyApi", "Create", createSpec, "CreateParams", sampleFields⟩,
         ⟨"OtherApi", "Create", createSpec, "CreateParams", sampleFields⟩] := by
  have e : declsEntries sampleLib sampleFileTwoOwners sampleFileTwoOwners.Decls
      = [⟨"MyApi", "Create", createSpec, "CreateParams", sampleFields⟩,
         ⟨"OtherApi", "Create", createSpec, "CreateParams", sampleFields⟩] := by decide
  rw [← e]
  simp only [sampleFileTwoOwners, declsEntries, funcEntries, funcInfo, sampleStructDecl, h1, h2]

/-- C11 (the code departs from the claim): the routers are written in the
order in which `range` visits the `apiHandlers` map, which Go leaves
unspecified.  On a file with annotated methods on `MyApi` and `OtherApi`, a
run that visits the map in one order writes the router of `MyApi` first, a run
that visits it in the other order writes the router of `OtherApi` first; both
runs end normally, write the same header and handlers, and their outputs
differ. -/
theorem C11_router_order_follows_map_iteration :
    (main sampleLib sampleFileTwoOwners).exit = none
    ∧ (main sampleLibReversed sampleFileTwoOwners).exit = none
    ∧ (main sampleLib sampleFileTwoOwners).file
      = fileHeader sampleFileTwoOwners
          ++ (generateHandler "" "MyApi" "Create" createSpec "CreateParams" sampleFields
              ++ generateHandler "" "OtherApi" "Create" createSpec "CreateParams" sampleFields)
          ++ (generateServeHTTP "" "MyApi" [createSpec]
              ++ generateServeHTTP "" "OtherApi" [createSpec])
    ∧ (main sampleLibReversed sampleFileTwoOwners).file
      = fileHeader sampleFileTwoOwners
          ++ (generateHandler "" "MyApi" "Create" createSpec "CreateParams" sampleFields
              ++ generateHandler "" "OtherApi" "Create" createSpec "CreateParams" sampleFields)
          ++ (generateServeHTTP "" "OtherApi" [createSpec]
              ++ generateServeHTTP "" "MyApi" [createSpec])
    ∧ (main sampleLib sampleFileTwoOwners).file
        ≠ (main sampleLibReversed sampleFileTwoOwners).file := by
  have x1 : (main sampleLib sampleFileTwoOwners).exit = none := by decide
  have x2 : (main sampleLibReversed sampleFileTwoOwners).exit = none := by decide
  have ht : handlerTable [⟨"MyApi", "Create", createSpec, "CreateParams", sampleFields⟩,
      ⟨"OtherApi", "Create", createSpec, "CreateParams", sampleFields⟩]
      = [("MyApi", [createSpec]), ("OtherApi", [createSpec])] := by decide
  have f1 := main_ok_eq sampleLib sampleFileTwoOwners x1
  have f2 := main_ok_eq sampleLibReversed sampleFileTwoOwners x2
  rw [sampleTwoOwners_entries sampleLib rfl rfl, ht] at f1
  rw [sampleTwoOwners_entries sampleLibReversed rfl rfl, ht] at f2
  have hm1 : ∀ m, sampleLib.mapRange m = m := fun _ => rfl
  have hm2 : ∀ m, sampleLibReversed.mapRange m = m.reverse := fun _ => rfl
  simp only [handlersText, routersText, String.append_empty, hm1, hm2,
    List.reverse_cons, List.reverse_nil, List.nil_append, List.cons_append] at f1 f2
  refine ⟨x1, x2, f1, f2, ?_⟩
  rw [f1, f2]
  intro h
  have h3 := congrArg String.data h
  simp only [String.data_append, List.append_cancel_left_eq, generateServeHTTP_eq,
    routerHeadText, String.append_assoc, String.empty_append] at h3
  have h5 := congrArg (fun l => l.get? 9) h3
  simp at h5

end Codegen

namespace Codegen

/-! ## The map of `parseTag` in terms of the tokens -/

theorem Split_commaJoin (ts : List String) (hne : ts ≠ []) (hcomma : ∀ t ∈ ts, ',' ∉ t.data) :
    strings.Split (commaJoin ts) ',' = ts := by
  induction ts with
  | nil => exact absurd rfl hne
  | cons t rest ih =>
    cases rest with
    | nil => simpa [commaJoin] using Split_single t ',' (hcomma t (by simp))
    | cons t2 rest2 =>
      have h1 : ',' ∉ t.data := hcomma t (by simp)
      have h2 := ih (by simp) (fun x hx => hcomma x (List.mem_cons_of_mem _ hx))
      have e : commaJoin (t :: t2 :: rest2)
          = t ++ String.singleton ',' ++ commaJoin (t2 :: rest2) := rfl
      rw [e, Split_cons _ _ ',' h1, h2]

theorem lookup_foldl_eq_lastValue (parts : List String) (m : GoMap) (k : String) :
    (parts.foldl parseTagPart m).lookup k
      = (match lastValue parts k with
         | some v => some v
         | none => m.lookup k) := by
  induction parts generalizing m with
  | nil => simp [lastValue]
  | cons p rest ih =>
    simp only [List.foldl_cons, ih, lastValue]
    cases hl : lastValue rest k with
    | some v => simp
    | none =>
      simp only [parseTagPart_eq_set, lookup_set]
      by_cases hk : k = tokenKey p
      · simp [hk]
      · have hk2 : ¬ tokenKey p = k := fun e => hk e.symm
        simp [hk, hk2]

theorem parseTag_lookup (tag k : String) :
    (parseTag tag).lookup k = lastValue (strings.Split tag ',') k := by
  unfold parseTag
  rw [lookup_foldl_eq_lastValue]
  cases lastValue (strings.Split tag ',') k <;> simp [GoMap.lookup, List.lookup]

theorem lastValue_append (xs ys : List String) (k : String) :
    lastValue (xs ++ ys) k
      = (match lastValue ys k with
         | some v => some v
         | none => lastValue xs k) := by
  induction xs with
  | nil => cases h : lastValue ys k <;> simp [lastValue, h]
  | cons x rest ih =>
    have e : lastValue (x :: rest ++ ys) k
        = (match lastValue (rest ++ ys) k with
           | some v => some v
           | none => if tokenKey x = k then some (tokenValue x) else none) := rfl
    rw [e, ih]
    cases h : lastValue ys k with
    | some v => rfl
    | none =>
      simp only [lastValue]

theorem lastValue_insert (pre post : List String) (u k : String) (h : tokenKey u ≠ k) :
    lastValue (pre ++ u :: post) k = lastValue (pre ++ post) k := by
  have e : pre ++ u :: post = (pre ++ [u]) ++ post := by simp
  rw [e, lastValue_append, lastValue_append pre post, lastValue_append pre [u]]
  simp [lastValue, h]

theorem fieldChecks_congr (name ty : String) (v1 v2 : GoMap)
    (h1 : v1.lookup "required" = v2.lookup "required") (h2 : v1.lookup "min" = v2.lookup "min")
    (h3 : v1.lookup "max" = v2.lookup "max") (h4 : v1.lookup "enum" = v2.lookup "enum") :
    fieldChecks ⟨name, ty, v1⟩ = fieldChecks ⟨name, ty, v2⟩ := by
  simp only [fieldChecks, requiredChecks, minChecks, maxChecks, enumChecks, GoMap.index,
    h1, h2, h3, h4]

theorem tokenKey_empty : tokenKey "" = "" := by decide

theorem lookup_commaJoin (ts : List String) (k : String) (hk : k ≠ "")
    (hcomma : ∀ t ∈ ts, ',' ∉ t.data) :
    (parseTag (commaJoin ts)).lookup k = lastValue ts k := by
  rw [parseTag_lookup]
  cases ts with
  | nil =>
    have e : strings.Split (commaJoin []) ',' = [""] := by decide
    rw [e]
    have hk2 : ¬ "" = k := fun e => hk e.symm
    simp [lastValue, tokenKey_empty, hk2]
  | cons t rest => rw [Split_commaJoin _ (by simp) hcomma]

/-- C12: for every field and every constraint string `t1,...,tn`, inserting
at any position a token whose key is none of `required`, `min`, `max`, `enum`
(a bare token or one with `=value`) leaves the text written by
`generateValidation` for the field unchanged. -/
theorem C12_unknown_keys_ignored (out name ty u : String) (pre post : List String)
    (hcomma : ∀ t ∈ pre ++ u :: post, ',' ∉ t.data)
    (hreq : tokenKey u ≠ "required") (hmin : tokenKey u ≠ "min")
    (hmax : tokenKey u ≠ "max") (henum : tokenKey u ≠ "enum") :
    generateValidation out [⟨name, ty, parseTag (commaJoin (pre ++ u :: post))⟩]
      = generateValidation out [⟨name, ty, parseTag (commaJoin (pre ++ post))⟩] := by
  have hcomma2 : ∀ t ∈ pre ++ post, ',' ∉ t.data := by
    intro t ht
    apply hcomma t
    rcases List.mem_append.1 ht with h | h
    · exact List.mem_append.2 (Or.inl h)
    · exact List.mem_append.2 (Or.inr (List.mem_cons_of_mem _ h))
  have hl : ∀ k, k ≠ "" → tokenKey u ≠ k →
      (parseTag (commaJoin (pre ++ u :: post))).lookup k
        = (parseTag (commaJoin (pre ++ post))).lookup k := by
    intro k hk hu
    rw [lookup_commaJoin _ k hk hcomma, lookup_commaJoin _ k hk hcomma2,
      lastValue_insert pre post u k hu]
  rw [generateValidation_eq_render, generateValidation_eq_render]
  simp only [validationChecks]
  rw [fieldChecks_congr name ty _ _ (hl "required" (by decide) hreq) (hl "min" (by decide) hmin)
    (hl "max" (by decide) hmax) (hl "enum" (by decide) henum)]

/-- Instance of C12: the token `default=user` inserted after `enum=user|admin`. -/
theorem C12_unknown_keys_ignored_witness :
    (∀ t ∈ ["enum=user|admin"] ++ "default=user" :: ["min=1"], ',' ∉ t.data)
    ∧ tokenKey "default=user" = "default"
    ∧ commaJoin (["enum=user|admin"] ++ "default=user" :: ["min=1"])
        = "enum=user|admin,default=user,min=1"
    ∧ commaJoin (["enum=user|admin"] ++ ["min=1"]) = "enum=user|admin,min=1"
    ∧ generateValidation "" [⟨"Status", "string",
          parseTag (commaJoin (["enum=user|admin"] ++ "default=user" :: ["min=1"]))⟩]
      = generateValidation "" [⟨"Status", "string",
          parseTag (commaJoin (["enum=user|admin"] ++ ["min=1"]))⟩] :=
  ⟨by decide, by decide, by decide, by decide,
    C12_unknown_keys_ignored "" "Status" "string" "default=user" ["enum=user|admin"] ["min=1"]
      (by decide) (by decide) (by decide) (by decide) (by decide)⟩

end Codegen

namespace Codegen

theorem processFunc_of_funcInfo (lib : GoLib) (node : AstFile) (st : GenState) (fn : FuncDecl)
    (info : String × ApiSpec × String) (h : funcInfo lib fn = some info) :
    processFunc lib node st fn = .ok ((funcEntries lib node fn).foldl addEntry st) := by
  have hf : funcEntries lib node fn
      = (declStructs info.2.2 node.Decls).map (fun fields =>
          ({ structName := info.1, methodName := fn.Name, spec := info.2.1,
             paramType := info.2.2,
             fields := parseStructFields lib.structTagGet fields } : HandlerEntry)) := by
    simp only [funcEntries, h]
  rw [hf]
  unfold funcInfo at h
  unfold processFunc
  cases hdoc : fn.Doc with
  | none =>
    rw [hdoc] at h
    cases h
  | some doc =>
    rw [hdoc] at h
    simp only [] at h ⊢
    by_cases hmark : strings.HasPrefix doc "apigen:api" = true
    · rw [if_pos hmark] at h
      rw [if_pos hmark]
      cases hjson : lib.jsonUnmarshal (strings.TrimPrefix doc "apigen:api ") with
      | error err =>
        rw [hjson] at h
        cases h
      | ok apiSpec =>
        rw [hjson] at h
        simp only [] at h ⊢
        cases hrecv : receiverName fn with
        | none =>
          rw [hrecv] at h
          cases h
        | some structName =>
          rw [hrecv] at h
          simp only [] at h ⊢
          cases hparams : fn.Params with
          | nil =>
            rw [hparams] at h
            cases h
          | cons a rest1 =>
            cases rest1 with
            | nil =>
              rw [hparams] at h
              cases h
            | cons p rest2 =>
              rw [hparams] at h
              simp only [] at h ⊢
              cases htype : p.Type_ with
              | ident paramType =>
                rw [htype] at h
                simp only [Option.some.injEq] at h
                subst h
                simp only [genForDecls_eq]
              | star x =>
                rw [htype] at h
                cases h
              | other =>
                rw [htype] at h
                cases h
    · rw [if_neg hmark] at h
      cases h

/-- C13: for every field whose type name is neither `int` nor `string` (in
particular the empty type name that `parseStructFields` records for a type
that is not a plain identifier), `generateValidation` writes no lower-bound
and no upper-bound check, whatever the constraint map holds under `min` and
`max`: the text written is that of the field's presence and enum checks only.
Generation does not fail because of it: the function that takes the struct is
processed to the end whenever it is an accepted annotated function. -/
theorem C13_other_types_get_no_bounds (out : String) (field : Field)
    (hint : field.Type_ ≠ "int") (hstr : field.Type_ ≠ "string") :
    minChecks field = [] ∧ maxChecks field = []
    ∧ validationChecks [field] = requiredChecks field ++ enumChecks field
    ∧ generateValidation out [field]
        = out ++ renderStmts (requiredChecks field ++ enumChecks field)
    ∧ (∀ s ∈ validationChecks [field], s.rank = 0 ∨ s.rank = 3)
    ∧ (∀ (tagGet : String → String → String) (fields : List Field) (fd : AstField) (tag : String),
        fd.Names ≠ [] → fd.Tag = some tag → (∀ n, fd.Type_ ≠ .ident n) →
        parseStructFieldsStep tagGet fields fd
          = fields ++ [{ Name := fd.Names.headD "", Type_ := "",
                         Validator := parseTag (tagGet (strings.Trim tag backquote) "apivalidator") }])
    ∧ (∀ (lib : GoLib) (node : AstFile) (st : GenState) (fn : FuncDecl),
        funcInfo lib fn = none ∨ ∃ st2, processFunc lib node st fn = .ok st2) := by
  have hmin : minChecks field = [] := by
    unfold minChecks
    cases field.Validator.lookup "min" <;> simp [hint, hstr]
  have hmax : maxChecks field = [] := by
    unfold maxChecks
    cases field.Validator.lookup "max" <;> simp [hint, hstr]
  have hv : validationChecks [field] = requiredChecks field ++ enumChecks field := by
    simp [validationChecks, fieldChecks, hmin, hmax]
  refine ⟨hmin, hmax, hv, ?_, ?_, ?_, ?_⟩
  · rw [generateValidation_eq_render, hv]
  · intro s hs
    rw [hv] at hs
    rcases List.mem_append.1 hs with h | h
    · left
      unfold requiredChecks at h
      split_ifs at h
      · simp at h; subst h; rfl
      · simp at h
    · right
      unfold enumChecks at h
      split at h
      · simp at h; subst h; rfl
      · simp at h
  · intro tagGet fields fd tag hn ht hty
    have hlen : ¬ fd.Names.length = 0 := by
      intro h0
      exact hn (List.length_eq_zero.1 h0)
    unfold parseStructFieldsStep
    simp only [hlen, ht, Option.isNone_some, Bool.or_false, decide_False, Bool.false_eq_true,
      if_false, Option.getD_some]
  · intro lib node st fn
    cases hi : funcInfo lib fn with
    | none => left; rfl
    | some info => right; exact ⟨_, processFunc_of_funcInfo lib node st fn info hi⟩

/-- Instance of C13: a field of slice type (recorded with the empty type
name) tagged `min=1,max=5` gets no check at all. -/
theorem C13_other_types_get_no_bounds_witness :
    (⟨"Tags", "", parseTag "min=1,max=5"⟩ : Field).Type_ ≠ "int"
    ∧ (⟨"Tags", "", parseTag "min=1,max=5"⟩ : Field).Type_ ≠ "string"
    ∧ (parseTag "min=1,max=5").lookup "min" = some "1"
    ∧ generateValidation "" [⟨"Tags", "", parseTag "min=1,max=5"⟩]
        = "" ++ renderStmts (requiredChecks ⟨"Tags", "", parseTag "min=1,max=5"⟩
                              ++ enumChecks ⟨"Tags", "", parseTag "min=1,max=5"⟩)
    ∧ generateValidation "" [⟨"Tags", "", parseTag "min=1,max=5"⟩] = "" :=
  ⟨by decide, by decide, by decide,
    (C13_other_types_get_no_bounds "" ⟨"Tags", "", parseTag "min=1,max=5"⟩
      (by decide) (by decide)).2.2.2.1,
    by decide⟩

end Codegen

namespace Codegen

theorem execStmts_halt (p : Params) (checks : List Stmt) (events : List Event)
    (h : execStmts p checks = .halt events) :
    ∃ s ∈ checks, ∃ m, errorText s.msg = some m ∧ events = failEvents m := by
  induction checks with
  | nil => simp [execStmts] at h
  | cons c rest ih =>
    simp only [execStmts] at h
    cases hc : c.exec p with
    | next =>
      simp only [hc] at h
      obtain ⟨s, hs, he⟩ := ih h
      exact ⟨s, List.mem_cons_of_mem _ hs, he⟩
    | illTyped => simp [hc] at h
    | halt ev =>
      simp only [hc, Flow.halt.injEq] at h
      subst h
      refine ⟨c, by simp, ?_⟩
      cases c with
      | ifFail cond msg =>
        simp only [Stmt.exec] at hc
        cases he : errorText msg with
        | none => simp [he] at hc
        | some m =>
          cases hv : cond.eval p with
          | none => simp [he, hv] at hc
          | some b =>
            cases b with
            | false => simp [he, hv] at hc
            | true =>
              simp only [he, hv, Flow.halt.injEq] at hc
              exact ⟨m, he, hc.symm⟩
      | switchFail f cases msg =>
        simp only [Stmt.exec] at hc
        cases he : errorText msg with
        | none => simp [he] at hc
        | some m =>
          cases hv : caseValues cases with
          | none => simp [he, hv] at hc
          | some vals =>
            cases hf : p.field f with
            | none => simp [he, hv, hf] at hc
            | some val =>
              cases val with
              | int n => simp [he, hv, hf] at hc
              | str x =>
                simp only [he, hv, hf] at hc
                split_ifs at hc
                simp only [Flow.halt.injEq] at hc
                exact ⟨m, he, hc.symm⟩

/-- C14: every handler answers exactly once.  `MyApi.handlerCreate` performs
one of five sequences of actions: the 401 answer; the 400 answer for a body
that does not decode; the 400 answer with one of its four validation
messages; the call of `Create` followed by the 500 answer carrying the
returned error unchanged; the call of `Create` followed by the `Content-Type`
header `application/json` and the encoded result.  Each sequence writes one
response and calls `Create` at most once.  Every handler written by
`generateHandler` (its text is the printing of `handlerOf`) whose checks have a
behaviour on the decoded record does the same, its 400 validation answer
carrying the error text of the message of one of its checks. -/
theorem C14_exactly_one_response (decode : String → Option CreateParams)
    (Create : CreateParams → Except String String) (r : Request) (env : Env)
    (structName methodName paramType : String) (spec : ApiSpec) (fields : List Field)
    (hty : ∀ params, env.decode paramType r.Body = some params →
      execStmts params (validationChecks fields) ≠ .illTyped) :
    (MyApi.handlerCreate decode Create r = [.writeHeader 401, .encodeError 401 "unauthorized"]
      ∨ MyApi.handlerCreate decode Create r
          = [.decodeBody "CreateParams", .writeHeader 400, .encodeError 400 "invalid request body"]
      ∨ (∃ msg ∈ ["Login length must be >= 10", "Status must be one of [user|moderator|admin]",
                   "Age must be >= 0", "Age must be <= 128"],
          MyApi.handlerCreate decode Create r
            = [.decodeBody "CreateParams", .writeHeader 400, .encodeError 400 msg])
      ∨ (∃ params err, decode r.Body = some params ∧ Create params = .error err
          ∧ MyApi.handlerCreate decode Create r
            = [.decodeBody "CreateParams", .call "Create", .writeHeader 500, .encodeError 500 err])
      ∨ (∃ params result, decode r.Body = some params ∧ Create params = .ok result
          ∧ MyApi.handlerCreate decode Create r
            = [.decodeBody "CreateParams", .call "Create",
               .setHeader "Content-Type" "application/json", .encodeResult result]))
    ∧ responses (MyApi.handlerCreate decode Create r) = 1
    ∧ calls (MyApi.handlerCreate decode Create r) ≤ 1
    ∧ (∀ out, generateHandler out structName methodName spec paramType fields
        = out ++ renderHandler (handlerOf structName methodName spec paramType fields))
    ∧ (∃ events,
        execHandler env (handlerOf structName methodName spec paramType fields) r = some events
        ∧ (events = [.writeHeader 401, .encodeError 401 "unauthorized"]
          ∨ events = [.decodeBody paramType, .writeHeader 400, .encodeError 400 "invalid request body"]
          ∨ (∃ s ∈ validationChecks fields, ∃ m, errorText s.msg = some m
              ∧ events = [.decodeBody paramType, .writeHeader 400, .encodeError 400 m])
          ∨ (∃ params err, env.decode paramType r.Body = some params
              ∧ env.call structName methodName params = .error err
              ∧ events = [.decodeBody paramType, .call methodName, .writeHeader 500,
                          .encodeError 500 err])
          ∨ (∃ params result, env.decode paramType r.Body = some params
              ∧ env.call structName methodName params = .ok result
              ∧ events = [.decodeBody paramType, .call methodName,
                          .setHeader "Content-Type" "application/json", .encodeResult result]))
        ∧ responses events = 1 ∧ calls events ≤ 1) := by
  have hcreate : (MyApi.handlerCreate decode Create r
        = [.writeHeader 401, .encodeError 401 "unauthorized"]
      ∨ MyApi.handlerCreate decode Create r
          = [.decodeBody "CreateParams", .writeHeader 400, .encodeError 400 "invalid request body"]
      ∨ (∃ msg ∈ ["Login length must be >= 10", "Status must be one of [user|moderator|admin]",
                   "Age must be >= 0", "Age must be <= 128"],
          MyApi.handlerCreate decode Create r
            = [.decodeBody "CreateParams", .writeHeader 400, .encodeError 400 msg])
      ∨ (∃ params err, decode r.Body = some params ∧ Create params = .error err
          ∧ MyApi.handlerCreate decode Create r
            = [.decodeBody "CreateParams", .call "Create", .writeHeader 500, .encodeError 500 err])
      ∨ (∃ params result, decode r.Body = some params ∧ Create params = .ok result
          ∧ MyApi.handlerCreate decode Create r
            = [.decodeBody "CreateParams", .call "Create",
               .setHeader "Content-Type" "application/json", .encodeResult result])) := by
    unfold MyApi.handlerCreate
    by_cases hc : (r.headerAuthorization != "100500") = true
    · left; simp [hc]
    · right
      simp only [hc, if_false, Bool.false_eq_true]
      cases hd : decode r.Body with
      | none => left; rfl
      | some params =>
        right
        simp only []
        by_cases h1 : len params.Login < 10
        · left; exact ⟨"Login length must be >= 10", by simp, by simp [h1]⟩
        · by_cases h2 : (!(params.Status == "user" || params.Status == "moderator"
              || params.Status == "admin")) = true
          · left; exact ⟨"Status must be one of [user|moderator|admin]", by simp, by simp [h1, h2]⟩
          · by_cases h3 : params.Age < 0
            · left; exact ⟨"Age must be >= 0", by simp, by simp [h1, h2, h3]⟩
            · by_cases h4 : params.Age > 128
              · left; exact ⟨"Age must be <= 128", by simp, by simp [h1, h2, h3, h4]⟩
              · right
                simp only [h1, h2, h3, h4, if_false, Bool.false_eq_true]
                cases hC : Create params with
                | error err => left; exact ⟨params, err, rfl, hC, rfl⟩
                | ok result => right; exact ⟨params, result, rfl, hC, rfl⟩
  have hcount : ∀ events : List Event,
      (events = [.writeHeader 401, .encodeError 401 "unauthorized"]
        ∨ (∃ T msg, events = [.decodeBody T, .writeHeader 400, .encodeError 400 msg])
        ∨ (∃ T m err, events = [.decodeBody T, .call m, .writeHeader 500, .encodeError 500 err])
        ∨ (∃ T m result, events = [.decodeBody T, .call m,
              .setHeader "Content-Type" "application/json", .encodeResult result])) →
      responses events = 1 ∧ calls events ≤ 1 := by
    intro events h
    rcases h with h | ⟨T, msg, h⟩ | ⟨T, m, err, h⟩ | ⟨T, m, result, h⟩ <;> subst h <;>
      simp [responses, calls, List.countP_cons, Event.isResponse, Event.isCall]
  have hc1 := hcount (MyApi.handlerCreate decode Create r) (by
    rcases hcreate with h | h | ⟨msg, _, h⟩ | ⟨_, err, _, _, h⟩ | ⟨_, result, _, _, h⟩
    · exact Or.inl h
    · exact Or.inr (Or.inl ⟨_, _, h⟩)
    · exact Or.inr (Or.inl ⟨_, _, h⟩)
    · exact Or.inr (Or.inr (Or.inl ⟨_, _, _, h⟩))
    · exact Or.inr (Or.inr (Or.inr ⟨_, _, _, h⟩)))
  refine ⟨hcreate, hc1.1, hc1.2,
    fun out => generateHandler_eq_render out structName methodName spec paramType fields, ?_⟩
  have hgen : ∃ events,
      execHandler env (handlerOf structName methodName spec paramType fields) r = some events
      ∧ (events = [.writeHeader 401, .encodeError 401 "unauthorized"]
        ∨ events = [.decodeBody paramType, .writeHeader 400, .encodeError 400 "invalid request body"]
        ∨ (∃ s ∈ validationChecks fields, ∃ m, errorText s.msg = some m
            ∧ events = [.decodeBody paramType, .writeHeader 400, .encodeError 400 m])
        ∨ (∃ params err, env.decode paramType r.Body = some params
            ∧ env.call structName methodName params = .error err
            ∧ events = [.decodeBody paramType, .call methodName, .writeHeader 500,
                        .encodeError 500 err])
        ∨ (∃ params result, env.decode paramType r.Body = some params
            ∧ env.call structName methodName params = .ok result
            ∧ events = [.decodeBody paramType, .call methodName,
                        .setHeader "Content-Type" "application/json", .encodeResult result])) := by
    unfold execHandler handlerOf
    simp only []
    by_cases hc : (spec.Auth && r.headerAuthorization != "100500") = true
    · exact ⟨_, by simp only [hc, if_true], Or.inl rfl⟩
    · simp only [hc, if_false, Bool.false_eq_true]
      cases hd : env.decode paramType r.Body with
      | none => exact ⟨_, rfl, Or.inr (Or.inl rfl)⟩
      | some params =>
        simp only []
        cases hs : execStmts params (validationChecks fields) with
        | illTyped => exact absurd hs (hty params hd)
        | halt ev =>
          obtain ⟨s, hmem, m, hm, he⟩ := execStmts_halt params _ ev hs
          subst he
          exact ⟨_, rfl, Or.inr (Or.inr (Or.inl ⟨s, hmem, m, hm, rfl⟩))⟩
        | next =>
          simp only []
          cases hC : env.call structName methodName params with
          | error err =>
            exact ⟨_, rfl, Or.inr (Or.inr (Or.inr (Or.inl ⟨params, err, rfl, hC, rfl⟩)))⟩
          | ok result =>
            exact ⟨_, rfl, Or.inr (Or.inr (Or.inr (Or.inr ⟨params, result, rfl, hC, rfl⟩)))⟩
  obtain ⟨events, he, hcl⟩ := hgen
  refine ⟨events, he, hcl, ?_⟩
  apply hcount
  rcases hcl with h | h | ⟨s, _, m, _, h⟩ | ⟨_, err, _, _, h⟩ | ⟨_, result, _, _, h⟩
  · exact Or.inl h
  · exact Or.inr (Or.inl ⟨_, _, h⟩)
  · exact Or.inr (Or.inl ⟨_, _, h⟩)
  · exact Or.inr (Or.inr (Or.inl ⟨_, _, _, h⟩))
  · exact Or.inr (Or.inr (Or.inr ⟨_, _, _, h⟩))

/-- Instance of C14 on the handler of `MyApi.Create` and a request with the
expected credential whose body decodes to a valid record. -/
theorem C14_exactly_one_response_witness :
    (∀ params, sampleEnv.decode "CreateParams" sampleRequest.Body = some params →
      execStmts params (validationChecks createFields) ≠ .illTyped)
    ∧ responses (MyApi.handlerCreate (fun _ => some ⟨"0123456789", "admin", 50⟩)
        (fun _ => .ok "ok") sampleRequest) = 1
    ∧ generateHandler "" "MyApi" "Create" createSpec "CreateParams" createFields
      = "" ++ renderHandler (handlerOf "MyApi" "Create" createSpec "CreateParams" createFields)
    ∧ ∃ events,
        execHandler sampleEnv (handlerOf "MyApi" "Create" createSpec "CreateParams" createFields)
          sampleRequest = some events
        ∧ responses events = 1 ∧ calls events ≤ 1 :=
  have hty : ∀ params, sampleEnv.decode "CreateParams" sampleRequest.Body = some params →
      execStmts params (validationChecks createFields) ≠ .illTyped := by
    intro params h
    simp only [sampleEnv, Option.some.injEq] at h
    subst h
    decide
  have h := C14_exactly_one_response (fun _ => some ⟨"0123456789", "admin", 50⟩)
    (fun _ => .ok "ok") sampleRequest sampleEnv "MyApi" "Create" "CreateParams" createSpec
    createFields hty
  ⟨hty, h.2.1, h.2.2.2.1 "", Exists.imp (fun _ he => ⟨he.1, he.2.2.1, he.2.2.2⟩) h.2.2.2.2⟩

end Codegen

namespace Codegen

/-! ## The handler table -/

theorem lookup_appendSpec (m : List (String × List ApiSpec)) (k o : String) (s : ApiSpec) :
    List.lookup o (appendSpec m k s)
      = if o = k then some ((List.lookup k m).getD [] ++ [s]) else List.lookup o m := by
  induction m with
  | nil =>
    by_cases h : o = k
    · subst h; simp [appendSpec, List.lookup]
    · have h2 : (o == k) = false := by simpa using h
      simp [appendSpec, List.lookup, h, h2]
  | cons e rest ih =>
    obtain ⟨k2, specs⟩ := e
    by_cases hk : k2 = k
    · subst hk
      by_cases h : o = k2
      · subst h; simp [appendSpec, List.lookup]
      · have h2 : (o == k2) = false := by simpa using h
        simp [appendSpec, List.lookup, h, h2]
    · have hk' : (k == k2) = false := by
        simpa using (fun e : k = k2 => hk e.symm)
      simp only [appendSpec, hk, if_false, List.lookup, hk']
      by_cases h : o = k2
      · subst h
        have : ¬ o = k := hk
        simp [this]
      · have h2 : (o == k2) = false := by simpa using h
        simp only [h2, ih]

theorem keys_appendSpec (m : List (String × List ApiSpec)) (k : String) (s : ApiSpec) :
    (appendSpec m k s).map Prod.fst
      = if k ∈ m.map Prod.fst then m.map Prod.fst else m.map Prod.fst ++ [k] := by
  induction m with
  | nil => simp [appendSpec]
  | cons e rest ih =>
    obtain ⟨k2, specs⟩ := e
    by_cases hk : k2 = k
    · subst hk; simp [appendSpec]
    · have hk2 : ¬ k = k2 := fun e => hk e.symm
      simp only [appendSpec, hk, if_false, List.map_cons, ih, List.mem_cons, hk2, false_or]
      split_ifs <;> simp

theorem specsOf_snoc (es : List HandlerEntry) (e : HandlerEntry) (o : String) :
    specsOf (es ++ [e]) o
      = if e.structName = o then specsOf es o ++ [e.spec] else specsOf es o := by
  unfold specsOf
  by_cases h : e.structName = o
  · simp [List.filter_append, h]
  · simp [List.filter_append, h]

theorem specsOf_eq_nil (es : List HandlerEntry) (o : String) :
    specsOf es o = [] ↔ ∀ e ∈ es, e.structName ≠ o := by
  unfold specsOf
  simp [List.filter_eq_nil_iff]

/-- The table built from `m` by appending the specs of the handlers `es` is
described by the specs per owner. -/
theorem foldl_appendSpec_good (es es0 : List HandlerEntry) (m : List (String × List ApiSpec))
    (hnd : (m.map Prod.fst).Nodup)
    (hl : ∀ o, List.lookup o m = if specsOf es0 o = [] then none else some (specsOf es0 o)) :
    ((es.foldl (fun m e => appendSpec m e.structName e.spec) m).map Prod.fst).Nodup
    ∧ ∀ o, List.lookup o (es.foldl (fun m e => appendSpec m e.structName e.spec) m)
        = if specsOf (es0 ++ es) o = [] then none else some (specsOf (es0 ++ es) o) := by
  induction es generalizing es0 m with
  | nil => simpa using ⟨hnd, hl⟩
  | cons e rest ih =>
    simp only [List.foldl_cons]
    have hnd2 : ((appendSpec m e.structName e.spec).map Prod.fst).Nodup := by
      rw [keys_appendSpec]
      split_ifs with hmem
      · exact hnd
      · exact List.Nodup.append hnd (by simp) (by simpa using hmem)
    have hl2 : ∀ o, List.lookup o (appendSpec m e.structName e.spec)
        = if specsOf (es0 ++ [e]) o = [] then none else some (specsOf (es0 ++ [e]) o) := by
      intro o
      rw [lookup_appendSpec, specsOf_snoc]
      by_cases ho : o = e.structName
      · subst ho
        simp only [if_true, hl]
        by_cases hnil : specsOf es0 e.structName = []
        · simp [hnil]
        · simp [hnil]
      · have ho2 : ¬ e.structName = o := fun h => ho h.symm
        simp only [ho, ho2, if_false, hl]
    have h := ih (es0 ++ [e]) (appendSpec m e.structName e.spec) hnd2 hl2
    simpa [List.append_assoc] using h

theorem handlerTable_good (es : List HandlerEntry) :
    ((handlerTable es).map Prod.fst).Nodup
    ∧ ∀ o, List.lookup o (handlerTable es)
        = if specsOf es o = [] then none else some (specsOf es o) := by
  have h := foldl_appendSpec_good es [] [] (by simp) (by intro o; simp [specsOf, List.lookup])
  simpa [handlerTable] using h

theorem lookup_of_mem_nodup (m : List (String × List ApiSpec)) (o : String) (specs : List ApiSpec)
    (hnd : (m.map Prod.fst).Nodup) (hmem : (o, specs) ∈ m) : List.lookup o m = some specs := by
  induction m with
  | nil => simp at hmem
  | cons e rest ih =>
    obtain ⟨k, v⟩ := e
    simp only [List.map_cons, List.nodup_cons] at hnd
    rcases List.mem_cons.1 hmem with h | h
    · simp only [Prod.mk.injEq] at h
      obtain ⟨h1, h2⟩ := h
      subst h1 h2
      simp [List.lookup]
    · have hne : ¬ o = k := by
        intro e
        subst e
        exact hnd.1 (List.mem_map.2 ⟨(o, specs), h, rfl⟩)
      have hne2 : (o == k) = false := by simpa using hne
      simp only [List.lookup, hne2]
      exact ih hnd.2 h

theorem mem_keys_of_lookup {β : Type} (m : List (String × β)) (o : String) :
    o ∈ m.map Prod.fst ↔ List.lookup o m ≠ none := by
  induction m with
  | nil => simp [List.lookup]
  | cons e rest ih =>
    obtain ⟨k, v⟩ := e
    by_cases h : o = k
    · subst h; simp [List.lookup]
    · have h2 : (o == k) = false := by simpa using h
      simp only [List.map_cons, List.mem_cons, h, false_or, List.lookup, h2, ih]

theorem map_head (xs : List (List AstField)) (f : List AstField → HandlerEntry)
    (h : xs.length ≤ 1) :
    xs.map f = (match xs.head? with
                | none => []
                | some x => [f x]) := by
  cases xs with
  | nil => rfl
  | cons x rest =>
    cases rest with
    | nil => rfl
    | cons y more => simp at h

theorem declsEntries_eq_handlerDefs (lib : GoLib) (node : AstFile)
    (huniq : ∀ paramType, (declStructs paramType node.Decls).length ≤ 1) (decls : List Decl) :
    declsEntries lib node decls = handlerDefs lib node decls := by
  induction decls with
  | nil => rfl
  | cons d rest ih =>
    cases d with
    | genDecl specs => simpa [declsEntries, handlerDefs] using ih
    | badDecl => simpa [declsEntries, handlerDefs] using ih
    | funcDecl fn =>
      simp only [declsEntries, handlerDefs, ih, funcEntries]
      congr 1
      cases hi : funcInfo lib fn with
      | none => rfl
      | some info =>
        obtain ⟨s, spec, pt⟩ := info
        simp only []
        refine (map_head _ _ (huniq pt)).trans ?_
        cases (declStructs pt node.Decls).head? <;> rfl

set_option maxRecDepth 20000 in
/-- C15 fails as stated.  On a file that declares the parameter struct
`CreateParams` twice, the run ends normally and writes the handler of the one
annotated method `Create` twice, and the router of `MyApi` lists its spec
twice: the artifact is not the one handler per annotated function followed by
the router of that one spec.  On a file whose second annotated method has a
payload that breaks off, the artifact holds the handler of `MyApi.Create` and
no router. -/
theorem C15_counterexample_struct_declared_twice :
    (main sampleLib sampleFileTwoStructs).exit = none
    ∧ handlerDefs sampleLib sampleFileTwoStructs sampleFileTwoStructs.Decls
      = [⟨"MyApi", "Create", createSpec, "CreateParams", sampleFields⟩]
    ∧ (main sampleLib sampleFileTwoStructs).file
      = fileHeader sampleFileTwoStructs
          ++ (handlerText ⟨"MyApi", "Create", createSpec, "CreateParams", sampleFields⟩
              ++ handlerText ⟨"MyApi", "Create", createSpec, "CreateParams", sampleFields⟩)
          ++ routerText "MyApi" [createSpec, createSpec]
    ∧ (main sampleLib sampleFileTwoStructs).file
      ≠ fileHeader sampleFileTwoStructs
          ++ handlerText ⟨"MyApi", "Create", createSpec, "CreateParams", sampleFields⟩
          ++ routerText "MyApi" [createSpec]
    ∧ (main sampleLib sampleFileBroken).exit ≠ none
    ∧ (main sampleLib sampleFileBroken).file
      = fileHeader sampleFileBroken
          ++ handlerText ⟨"MyApi", "Create", createSpec, "CreateParams", sampleFields⟩ := by
  have hok : (main sampleLib sampleFileTwoStructs).exit = none := by decide
  have he : declsEntries sampleLib sampleFileTwoStructs sampleFileTwoStructs.Decls
      = [⟨"MyApi", "Create", createSpec, "CreateParams", sampleFields⟩,
         ⟨"MyApi", "Create", createSpec, "CreateParams", sampleFields⟩] := by decide
  have hfile : (main sampleLib sampleFileTwoStructs).file
      = fileHeader sampleFileTwoStructs
          ++ (handlerText ⟨"MyApi", "Create", createSpec, "CreateParams", sampleFields⟩
              ++ handlerText ⟨"MyApi", "Create", createSpec, "CreateParams", sampleFields⟩)
          ++ routerText "MyApi" [createSpec, createSpec] := by
    rw [main_ok_render sampleLib sampleFileTwoStructs hok, he]
    have ht : sampleLib.mapRange
        (handlerTable [⟨"MyApi", "Create", createSpec, "CreateParams", sampleFields⟩,
          ⟨"MyApi", "Create", createSpec, "CreateParams", sampleFields⟩])
        = [("MyApi", [createSpec, createSpec])] := by decide
    rw [ht]
    simp only [renderHandlers, renderRouters, String.append_empty]
  have hbroken : main sampleLib sampleFileBroken
      = ⟨fileHeader sampleFileBroken
          ++ renderHandlers (declsEntries sampleLib sampleFileBroken
              [sampleStructDecl, .funcDecl sampleCreateFunc]),
         some (.fatal "Failed to parse apigen spec: unexpected end of JSON input")⟩ :=
    main_failed_render sampleLib sampleFileBroken [sampleStructDecl, .funcDecl sampleCreateFunc]
      [] sampleBrokenFunc
      ⟨fileHeader sampleFileBroken
          ++ generateHandler "" "MyApi" "Create" createSpec "CreateParams" sampleFields,
        [("MyApi", [createSpec])]⟩
      (.fatal "Failed to parse apigen spec: unexpected end of JSON input") rfl (by rfl) (by rfl)
  have hbe : declsEntries sampleLib sampleFileBroken
      [sampleStructDecl, .funcDecl sampleCreateFunc]
      = [⟨"MyApi", "Create", createSpec, "CreateParams", sampleFields⟩] := by decide
  refine ⟨hok, by decide, hfile, ?_, ?_, ?_⟩
  · rw [hfile]
    intro h
    have hlen := congrArg String.length h
    simp only [String.length_append, routerText, branchesText, branchText, handlerText,
      renderHandler] at hlen
    have h1 : "\t\treturn\n".length = 9 := by decide
    omega
  · rw [hbroken]
    simp
  · rw [hbroken, hbe]
    simp only [renderHandlers, String.append_empty]

/-- C15 (amended): on every input on which the run ends normally, the
artifact is the header, then the handlers, then the routers.  The handlers are
written in function-declaration order, one for every struct declaration that
bears the name of the parameter type of an annotated function; when no struct
name is declared twice that is one handler per annotated function whose
parameter type resolves to a struct declaration.  When the map is visited
entry by entry (each entry once), there is exactly one router per owner type
that has a handler, and each router lists the specs of the handlers of its
owner in the order in which they were written. -/
theorem C15_handlers_then_routers (lib : GoLib) (node : AstFile)
    (hok : (main lib node).exit = none)
    (hperm : ∀ m, (lib.mapRange m).Perm m) :
    (main lib node).file
      = fileHeader node ++ renderHandlers (declsEntries lib node node.Decls)
          ++ renderRouters (lib.mapRange (handlerTable (declsEntries lib node node.Decls)))
    ∧ ((∀ paramType, (declStructs paramType node.Decls).length ≤ 1) →
        declsEntries lib node node.Decls = handlerDefs lib node node.Decls)
    ∧ ((lib.mapRange (handlerTable (declsEntries lib node node.Decls))).map Prod.fst).Nodup
    ∧ (∀ owner, owner ∈ (lib.mapRange (handlerTable (declsEntries lib node node.Decls))).map Prod.fst
        ↔ ∃ e ∈ declsEntries lib node node.Decls, e.structName = owner)
    ∧ (∀ owner specs,
        (owner, specs) ∈ lib.mapRange (handlerTable (declsEntries lib node node.Decls)) →
        specs = specsOf (declsEntries lib node node.Decls) owner) := by
  have hfile := main_ok_render lib node hok
  have hgood := handlerTable_good (declsEntries lib node node.Decls)
  have hp := hperm (handlerTable (declsEntries lib node node.Decls))
  refine ⟨hfile, fun huniq => declsEntries_eq_handlerDefs lib node huniq node.Decls, ?_, ?_, ?_⟩
  · exact (List.Perm.nodup_iff (List.Perm.map Prod.fst hp)).2 hgood.1
  · intro owner
    rw [List.Perm.mem_iff (List.Perm.map Prod.fst hp), mem_keys_of_lookup, hgood.2]
    by_cases hnil : specsOf (declsEntries lib node node.Decls) owner = []
    · simp only [hnil, if_true, ne_eq, not_true_eq_false, false_iff]
      rintro ⟨e, he, ho⟩
      exact (specsOf_eq_nil _ _).1 hnil e he ho
    · simp only [hnil, if_false, ne_eq, reduceCtorEq, not_false_eq_true, true_iff]
      by_contra hne
      apply hnil
      rw [specsOf_eq_nil]
      intro e he ho
      exact hne ⟨e, he, ho⟩
  · intro owner specs hmem
    have hmem2 := (List.Perm.mem_iff hp).1 hmem
    have hl := lookup_of_mem_nodup _ owner specs hgood.1 hmem2
    rw [hgood.2] at hl
    split_ifs at hl
    simpa using hl.symm

/-- Instance of C15 (amended) on the sample file with two owner types. -/
theorem C15_handlers_then_routers_witness :
    (main sampleLib sampleFileTwoOwners).exit = none
    ∧ (∀ m, (sampleLib.mapRange m).Perm m)
    ∧ (main sampleLib sampleFileTwoOwners).file
      = fileHeader sampleFileTwoOwners
          ++ renderHandlers (declsEntries sampleLib sampleFileTwoOwners sampleFileTwoOwners.Decls)
          ++ renderRouters (sampleLib.mapRange
              (handlerTable (declsEntries sampleLib sampleFileTwoOwners sampleFileTwoOwners.Decls)))
    ∧ declsEntries sampleLib sampleFileTwoOwners sampleFileTwoOwners.Decls
      = [⟨"MyApi", "Create", createSpec, "CreateParams", sampleFields⟩,
         ⟨"OtherApi", "Create", createSpec, "CreateParams", sampleFields⟩] :=
  ⟨by decide, fun _ => List.Perm.refl _,
    (C15_handlers_then_routers sampleLib sampleFileTwoOwners (by decide)
      (fun _ => List.Perm.refl _)).1,
    by decide⟩

end Codegen

namespace Codegen

theorem lastValue_ne_none_iff (parts : List String) (k : String) :
    lastValue parts k ≠ none ↔ ∃ part ∈ parts, tokenKey part = k := by
  induction parts with
  | nil => simp [lastValue]
  | cons p rest ih =>
    simp only [lastValue, List.mem_cons, exists_eq_or_imp]
    cases hl : lastValue rest k with
    | some v =>
      have h2 : ∃ part ∈ rest, tokenKey part = k := ih.1 (by simp [hl])
      simp [h2]
    | none =>
      have h2 : ¬ ∃ part ∈ rest, tokenKey part = k := fun h => (ih.2 h) hl
      by_cases hk : tokenKey p = k
      · simp [hk]
      · simp only [hk, if_false, ne_eq, not_true_eq_false, false_or, false_iff]
        exact h2

theorem keys_set_nodup (m : GoMap) (k v : String) (h : (m.map Prod.fst).Nodup) :
    ((m.set k v).map Prod.fst).Nodup := by
  unfold GoMap.set
  simp only [List.map_cons, List.nodup_cons]
  constructor
  · intro hmem
    obtain ⟨e, he, hk⟩ := List.mem_map.1 hmem
    have := (List.mem_filter.1 he).2
    simp [hk] at this
  · exact List.Nodup.sublist (List.Sublist.map _ (List.filter_sublist m)) h

theorem keys_foldl_nodup (parts : List String) (m : GoMap) (h : (m.map Prod.fst).Nodup) :
    ((parts.foldl parseTagPart m).map Prod.fst).Nodup := by
  induction parts generalizing m with
  | nil => exact h
  | cons p rest ih =>
    simp only [List.foldl_cons]
    apply ih
    rw [parseTagPart_eq_set]
    exact keys_set_nodup m _ _ h

theorem tokenKey_value_kv (k v : String) (hk : '=' ∉ k.data) :
    tokenKey (k ++ "=" ++ v) = k ∧ tokenValue (k ++ "=" ++ v) = v := by
  have e : (k ++ "=" ++ v).data = k.data ++ '=' :: v.data := by
    simp [String.data_append]
  simp [tokenKey, tokenValue, strings.SplitN, e, splitNChars,
    cutChars_append_sep '=' k.data v.data hk]

theorem tokenKey_value_flag (t : String) (ht : '=' ∉ t.data) :
    tokenKey t = t ∧ tokenValue t = "" := by
  simp [tokenKey, tokenValue, strings.SplitN, splitNChars, cutChars_of_not_mem '=' t.data ht]

/-- C16: `parseTag` cuts its input at every `,` (the tokens of `t1,...,tn`
are `t1`, ..., `tn`) and each token at its first `=` only: a token `k=v` has
key `k` and value `v`, also when `v` contains `=`; a token without `=` has
itself as key and the empty value.  The keys of the result are exactly the
keys of the tokens, each once, and the value stored under a key is that of the
last token with this key.  For instance `enum=a=b` maps `enum` to `a=b`. -/
theorem C16_parseTag_tokens (tag k v t : String) (ts : List String)
    (hk : '=' ∉ k.data) (ht : '=' ∉ t.data)
    (hne : ts ≠ []) (hcomma : ∀ x ∈ ts, ',' ∉ x.data) :
    strings.Split (commaJoin ts) ',' = ts
    ∧ (tokenKey (k ++ "=" ++ v) = k ∧ tokenValue (k ++ "=" ++ v) = v)
    ∧ (tokenKey t = t ∧ tokenValue t = "")
    ∧ (∀ key, key ∈ (parseTag tag).map Prod.fst
        ↔ ∃ part ∈ strings.Split tag ',', tokenKey part = key)
    ∧ ((parseTag tag).map Prod.fst).Nodup
    ∧ (∀ key, (parseTag tag).lookup key = lastValue (strings.Split tag ',') key)
    ∧ (∀ key, (parseTag (commaJoin ts)).lookup key = lastValue ts key)
    ∧ (parseTag "enum=a=b").lookup "enum" = some "a=b"
    ∧ (parseTag "min=1,min=2").lookup "min" = some "2" := by
  refine ⟨Split_commaJoin ts hne hcomma, tokenKey_value_kv k v hk, tokenKey_value_flag t ht,
    ?_, ?_, parseTag_lookup tag, ?_, by decide, by decide⟩
  · intro key
    have h := mem_keys_of_lookup (parseTag tag) key
    have h2 : List.lookup key (parseTag tag) = (parseTag tag).lookup key := rfl
    rw [h, h2, parseTag_lookup, lastValue_ne_none_iff]
  · exact keys_foldl_nodup _ [] (by simp)
  · intro key
    rw [parseTag_lookup, Split_commaJoin ts hne hcomma]

/-- Instance of C16 on the tokens `required`, `enum=a=b`, `min=1`, `min=2`. -/
theorem C16_parseTag_tokens_witness :
    '=' ∉ "enum".data ∧ '=' ∉ "required".data
    ∧ ["required", "enum=a=b", "min=1", "min=2"] ≠ ([] : List String)
    ∧ (∀ x ∈ ["required", "enum=a=b", "min=1", "min=2"], ',' ∉ x.data)
    ∧ commaJoin ["required", "enum=a=b", "min=1", "min=2"] = "required,enum=a=b,min=1,min=2"
    ∧ strings.Split (commaJoin ["required", "enum=a=b", "min=1", "min=2"]) ','
        = ["required", "enum=a=b", "min=1", "min=2"]
    ∧ (tokenKey ("enum" ++ "=" ++ "a=b") = "enum" ∧ tokenValue ("enum" ++ "=" ++ "a=b") = "a=b")
    ∧ (tokenKey "required" = "required" ∧ tokenValue "required" = "")
    ∧ parseTag "required,enum=a=b,min=1,min=2"
        = [("min", "2"), ("enum", "a=b"), ("required", "")] :=
  have h := C16_parseTag_tokens "required,enum=a=b,min=1,min=2" "enum" "a=b" "required"
    ["required", "enum=a=b", "min=1", "min=2"] (by decide) (by decide) (by decide) (by decide)
  ⟨by decide, by decide, by decide, by decide, by decide, h.1, h.2.1, h.2.2.1, by decide⟩

end Codegen

namespace Codegen

theorem branchesText_append (xs ys : List ApiSpec) :
    branchesText (xs ++ ys) = branchesText xs ++ branchesText ys := by
  induction xs with
  | nil => simp [branchesText]
  | cons x rest ih => simp [branchesText, ih, String.append_assoc]

/-- C17 fails as stated: a branch is guarded by the equality of the request
path with the string that the pasted `URL` denotes as a Go string literal.  In
the router written for the specs `First` (POST, `/a\tb` with a backslash and a
`t`) and `Second` (POST, `/a`, TAB, `b`), the request (POST, `/a`, TAB, `b`)
is dispatched to `First`, although `Second` is the first spec whose pair
equals the request's pair. -/
theorem C17_counterexample_escaped_url :
    ¬ (tabRequest.Method = escapedSpec.Method ∧ tabRequest.Path = escapedSpec.URL)
    ∧ (tabRequest.Method = tabSpec.Method ∧ tabRequest.Path = tabSpec.URL)
    ∧ generateServeHTTP "" "Api" [escapedSpec, tabSpec]
      = routerHeadText "Api"
          ++ ("\tif r.Method == \"POST\" && r.URL.Path == \"/a\\tb\" \x7b\n"
              ++ "\t\th.handlerFirst(w, r)\n" ++ "\t\treturn\n" ++ "\t\x7d\n")
          ++ ("\tif r.Method == \"POST\" && r.URL.Path == \"/a\tb\" \x7b\n"
              ++ "\t\th.handlerSecond(w, r)\n" ++ "\t\treturn\n" ++ "\t\x7d\n")
          ++ notFoundText
    ∧ execServeHTTP (fun m _ => some [.call m]) [escapedSpec, tabSpec] tabRequest
      = some [.dispatch "First", .call "First"]
    ∧ execServeHTTP (fun m _ => some [.call m]) [escapedSpec, tabSpec] tabRequest
      ≠ some [.dispatch "Second", .call "Second"] := by
  refine ⟨by decide, by decide, ?_, by decide, by decide⟩
  rw [generateServeHTTP_eq]
  simp only [branchesText, branchText, String.append_assoc, String.append_empty]
  rfl

/-- C17 (amended): for every list of specs, the router written by
`generateServeHTTP` has one branch per spec, in list order and without
removing duplicates, each comparing `r.Method` with the pasted `Method` and
`r.URL.Path` with the pasted `URL` between quotes.  When the `Method` and the
`URL` of every spec denote themselves between quotes (no quote, backslash or
line break in them), a request is dispatched to the handler of the first spec
in list order whose pair equals the request's pair, whatever specs follow it;
so a later spec with the same pair is never dispatched to. -/
theorem C17_first_match_dispatch (handler : String → Request → Option (List Event))
    (out structName : String) (specs before rest rest2 : List ApiSpec) (spec : ApiSpec)
    (r : Request)
    (hspecs : literalSpecs specs = true)
    (hlit : literalSpecs (before ++ spec :: rest) = true)
    (hlit2 : literalSpecs rest2 = true)
    (hbefore : ∀ s ∈ before, ¬ (r.Method = s.Method ∧ r.Path = s.URL))
    (hmatch : r.Method = spec.Method ∧ r.Path = spec.URL) :
    generateServeHTTP out structName specs
      = out ++ routerHeadText structName ++ branchesText specs ++ notFoundText
    ∧ branchesText (before ++ spec :: rest)
      = branchesText before ++ branchText spec ++ branchesText rest
    ∧ branchesText [spec, spec] = branchText spec ++ branchText spec
    ∧ branchText spec
      = ("\tif r.Method == \"" ++ spec.Method ++ "\" && r.URL.Path == \"" ++ spec.URL
            ++ "\" \x7b\n")
          ++ ("\t\th.handler" ++ spec.MethodName ++ "(w, r)\n") ++ "\t\treturn\n" ++ "\t\x7d\n"
    ∧ execServeHTTP handler specs r
      = (match specs.find? (fun s => r.Method == s.Method && r.Path == s.URL) with
         | some s => (handler s.MethodName r).map (fun events => .dispatch s.MethodName :: events)
         | none => some (notFoundEvents r))
    ∧ execServeHTTP handler (before ++ spec :: rest) r
      = (handler spec.MethodName r).map (fun events => .dispatch spec.MethodName :: events)
    ∧ execServeHTTP handler (before ++ spec :: rest) r
      = execServeHTTP handler (before ++ spec :: rest2) r := by
  have hlit3 : literalSpecs (before ++ spec :: rest2) = true := by
    rw [literalSpecs_append] at hlit ⊢
    simp only [Bool.and_eq_true] at hlit ⊢
    refine ⟨hlit.1, ?_⟩
    rw [literalSpecs_cons] at hlit ⊢
    exact ⟨hlit.2.1, hlit2⟩
  refine ⟨generateServeHTTP_eq out structName specs, ?_, ?_, rfl, ?_,
    execServeHTTP_first handler before rest spec r hlit hbefore hmatch, ?_⟩
  · rw [branchesText_append]
    simp only [branchesText, String.append_assoc]
  · simp only [branchesText, String.append_empty]
  · refine (execServeHTTP_find handler specs r hspecs).trans ?_
    cases specs.find? (fun s => r.Method == s.Method && r.Path == s.URL) <;> rfl
  · rw [execServeHTTP_first handler before rest spec r hlit hbefore hmatch,
      execServeHTTP_first handler before rest2 spec r hlit3 hbefore hmatch]

/-- Instance of C17 (amended): the pair (POST, /user/create) registered twice
after the profile route; the request is dispatched to the first of the two. -/
theorem C17_first_match_dispatch_witness :
    literalSpecs [] = true
    ∧ literalSpecs
        ([profileSpec] ++ createSpec :: [{ createSpec with MethodName := "CreateAgain" }]) = true
    ∧ (∀ s ∈ [profileSpec], ¬ (sampleRequest.Method = s.Method ∧ sampleRequest.Path = s.URL))
    ∧ (sampleRequest.Method = createSpec.Method ∧ sampleRequest.Path = createSpec.URL)
    ∧ execServeHTTP (fun m _ => some [.call m])
        ([profileSpec] ++ createSpec :: [{ createSpec with MethodName := "CreateAgain" }])
        sampleRequest
      = some [.dispatch "Create", .call "Create"] :=
  ⟨by decide, by decide, by decide, by decide,
    (C17_first_match_dispatch (fun m _ => some [.call m]) "" "MyApi" [] [profileSpec]
      [{ createSpec with MethodName := "CreateAgain" }] [] createSpec sampleRequest
      (by decide) (by decide) (by decide) (by decide) (by decide)).2.2.2.2.2.1⟩

end Codegen

namespace Codegen

/-- C18: `generateValidation` is a homomorphism over field lists: the text
for `xs ++ ys` is the text for `xs` followed by the text for `ys`, the text for
the empty list is empty, and so the text for a list is the concatenation of
the texts of its fields, each depending on its field only, in list order. -/
theorem C18_generateValidation_append (out : String) (xs ys : List Field) (f : Field) :
    generateValidation out (xs ++ ys) = generateValidation (generateValidation out xs) ys
    ∧ generateValidation "" (xs ++ ys) = generateValidation "" xs ++ generateValidation "" ys
    ∧ generateValidation "" [] = ""
    ∧ generateValidation out xs = out ++ generateValidation "" xs
    ∧ generateValidation "" (f :: xs) = generateValidation "" [f] ++ generateValidation "" xs
    ∧ validationChecks (xs ++ ys) = validationChecks xs ++ validationChecks ys := by
  have hout : ∀ (o : String) (fs : List Field),
      generateValidation o fs = o ++ generateValidation "" fs := by
    intro o fs
    rw [generateValidation_eq_render, generateValidation_eq_render "", String.empty_append]
  have happ : ∀ as bs : List Field,
      generateValidation "" (as ++ bs) = generateValidation "" as ++ generateValidation "" bs := by
    intro as bs
    simp only [generateValidation_eq_render, validationChecks_append, renderStmts_append,
      String.empty_append]
  refine ⟨?_, happ xs ys, rfl, hout out xs, ?_, validationChecks_append xs ys⟩
  · simp only [generateValidation, List.foldl_append]
  · exact happ [f] xs

set_option maxRecDepth 20000 in
theorem generateServeHTTP_myApi_text :
    generateServeHTTP "" "MyApi" [profileSpec, createSpec] = myApiServeHTTPText := by
  rfl

/-- C19 fails as stated.  A request with a non-empty verb on the URL of a spec
with empty `Method` does not always get the 404 answer: when a later spec
registers that verb on the same URL, the request (GET, /user/profile) is
dispatched to it.  And the branch compares the verb with the empty string only
if the pasted `URL` leaves the text a comparison of string literals: for a
`URL` that ends in a double quote the router has no behaviour, so no request
gets the 404 answer from it. -/
theorem C19_counterexample_other_spec_matches :
    profileSpec.Method = "" ∧ getProfileRequest.Method ≠ ""
    ∧ getProfileRequest.Path = profileSpec.URL
    ∧ execServeHTTP (fun m _ => some [.call m]) [profileSpec, getProfileSpec] getProfileRequest
      = some [.dispatch "Get", .call "Get"]
    ∧ execServeHTTP (fun m _ => some [.call m]) [profileSpec, getProfileSpec] getProfileRequest
      ≠ some (notFoundEvents getProfileRequest)
    ∧ quoteSpec.Method = ""
    ∧ branchText quoteSpec
      = "\tif r.Method == \"\" && r.URL.Path == \"/user/profile\"\" \x7b\n"
          ++ "\t\th.handlerProfile(w, r)\n" ++ "\t\treturn\n" ++ "\t\x7d\n"
    ∧ execServeHTTP (fun m _ => some [.call m]) [quoteSpec]
        { getProfileRequest with Path := quoteSpec.URL } = none := by
  refine ⟨by decide, by decide, by decide, by decide, by decide, by decide, ?_, by decide⟩
  simp only [branchText, quoteSpec, String.append_assoc]
  rfl

/-- C19 (amended): for every spec whose `Method` is the empty string, the
branch written by `generateServeHTTP` compares `r.Method` with the empty
string literal.  In a router all of whose specs have a `Method` and a `URL`
that denote themselves between quotes (no quote, backslash or line break in
them), that branch never matches a request with a non-empty verb: the router
behaves as if the spec were not listed, and when no other spec matches the
request it answers 404.  In `MyApi.ServeHTTP`, whose text is the router
written for the specs of `Profile` (empty `Method`) and `Create`, a request
with a non-empty verb never reaches `handlerProfile`, and on the path
`/user/profile` it gets the 404 answer. -/
theorem C19_empty_method_never_matches (handler : String → Request → Option (List Event))
    (before after : List ApiSpec) (spec : ApiSpec) (r : Request)
    (hlit : literalSpecs (before ++ spec :: after) = true)
    (hmethod : spec.Method = "") (hverb : r.Method ≠ "") :
    branchText spec
      = ("\tif r.Method == \"" ++ "" ++ "\" && r.URL.Path == \"" ++ spec.URL ++ "\" \x7b\n")
          ++ ("\t\th.handler" ++ spec.MethodName ++ "(w, r)\n") ++ "\t\treturn\n" ++ "\t\x7d\n"
    ∧ execServeHTTP handler (before ++ spec :: after) r
      = execServeHTTP handler (before ++ after) r
    ∧ ((∀ s ∈ before ++ after, ¬ (r.Method = s.Method ∧ r.Path = s.URL)) →
        execServeHTTP handler (before ++ spec :: after) r = some (notFoundEvents r))
    ∧ generateServeHTTP "" "MyApi" [profileSpec, createSpec] = myApiServeHTTPText
    ∧ (∀ hp hp2 hc : Request → List Event, MyApi.ServeHTTP hp hc r = MyApi.ServeHTTP hp2 hc r)
    ∧ (r.Path = "/user/profile" → ∀ hp hc : Request → List Event,
        MyApi.ServeHTTP hp hc r
          = [.writeHeader 404,
             .encodeError 404 ("unknown method " ++ r.Method ++ " on " ++ "/user/profile")]) := by
  have hdead : (r.Method == spec.Method && r.Path == spec.URL) = false := by
    simp [hmethod, hverb]
  have hlit2 : literalSpecs (before ++ after) = true := by
    rw [literalSpecs_append] at hlit ⊢
    simp only [Bool.and_eq_true] at hlit ⊢
    exact ⟨hlit.1, ((literalSpecs_cons spec after).1 hlit.2).2⟩
  have hfind : (before ++ spec :: after).find? (fun s => r.Method == s.Method && r.Path == s.URL)
      = (before ++ after).find? (fun s => r.Method == s.Method && r.Path == s.URL) := by
    simp only [List.find?_append, List.find?_cons, hdead]
  have hskip : execServeHTTP handler (before ++ spec :: after) r
      = execServeHTTP handler (before ++ after) r := by
    rw [execServeHTTP_find handler _ r hlit, execServeHTTP_find handler _ r hlit2, hfind]
  have hprof : (r.Method == "" && r.Path == "/user/profile") = false := by
    simp [hverb]
  refine ⟨?_, hskip, ?_, generateServeHTTP_myApi_text, ?_, ?_⟩
  · rw [branchText, hmethod]
  · intro hno
    rw [hskip]
    exact execServeHTTP_unmatched handler _ r hlit2 hno
  · intro hp hp2 hc
    simp only [MyApi.ServeHTTP, hprof, Bool.false_eq_true, if_false]
  · intro hpath hp hc
    simp [MyApi.ServeHTTP, hpath, hverb]

/-- Instance of C19 (amended): the request (GET, /user/profile) on the router
of `MyApi`. -/
theorem C19_empty_method_never_matches_witness :
    literalSpecs ([] ++ profileSpec :: [createSpec]) = true
    ∧ profileSpec.Method = ""
    ∧ getProfileRequest.Method ≠ ""
    ∧ execServeHTTP (fun m _ => some [.call m]) ([] ++ profileSpec :: [createSpec])
        getProfileRequest
      = some (notFoundEvents getProfileRequest)
    ∧ MyApi.ServeHTTP (fun _ => [.call "Profile"]) (fun _ => [.call "Create"]) getProfileRequest
      = [.writeHeader 404,
         .encodeError 404 ("unknown method " ++ getProfileRequest.Method ++ " on "
            ++ "/user/profile")] :=
  have h := C19_empty_method_never_matches (fun m _ => some [.call m]) [] [createSpec] profileSpec
    getProfileRequest (by decide) (by decide) (by decide)
  ⟨by decide, by decide, by decide, h.2.2.1 (by decide),
    h.2.2.2.2.2 rfl (fun _ => [.call "Profile"]) (fun _ => [.call "Create"])⟩

theorem parseStructFieldsStep_eq (tagGet : String → String → String) (fields : List Field)
    (fd : AstField) :
    parseStructFieldsStep tagGet fields fd = fields ++ (fieldOfSpec tagGet fd).toList := by
  unfold parseStructFieldsStep fieldOfSpec
  obtain ⟨names, ty, tag⟩ := fd
  cases names with
  | nil => simp
  | cons first more =>
    cases tag with
    | none => simp
    | some t => cases ty <;> simp

theorem foldl_parseStructFieldsStep (tagGet : String → String → String) (node : List AstField)
    (fields : List Field) :
    node.foldl (parseStructFieldsStep tagGet) fields
      = fields ++ node.filterMap (fieldOfSpec tagGet) := by
  induction node generalizing fields with
  | nil => simp
  | cons fd rest ih =>
    simp only [List.foldl_cons, ih, parseStructFieldsStep_eq, List.filterMap_cons]
    cases fieldOfSpec tagGet fd <;> simp

/-- C20: for every struct declaration, `parseStructFields` returns, in
declaration order, the fields of the field declarations that have at least one
name and a tag: one field per such declaration, named after its first name,
with the name of its type when the type is a plain identifier and the empty
type name otherwise; declarations without a name or without a tag yield
nothing.  On `A, B string` (tagged), an embedded tagged `Base`, an untagged
`C int` and a tagged `D []string` it returns the fields `A` of type `string`
and `D` of the empty type. -/
theorem C20_parseStructFields_filterMap (tagGet : String → String → String)
    (node : List AstField) :
    parseStructFields tagGet node = node.filterMap (fieldOfSpec tagGet)
    ∧ parseStructFields sampleTagGet sampleFieldDecls
      = [{ Name := "A", Type_ := "string", Validator := [("min", "1")] },
         { Name := "D", Type_ := "", Validator := [("min", "1")] }] := by
  refine ⟨?_, by decide⟩
  unfold parseStructFields
  rw [foldl_parseStructFieldsStep]
  simp

end Codegen
